import Mathlib

/-!
# Painted-Portal-Ray-Tracing: GpuSyncedList and CPU ray tracing

A shallow embedding of `src/graphics.h` (the `GpuSyncedList` template), the GPU
buffer helpers of `src/src/graphics.cpp` it calls, and the intersection / trace
routines of `src/game.cpp`.

Conventions of the embedding.
* `size_t` and `int` indices are `Nat` and `Int`; offsets and sizes passed to the GPU
  buffer helpers are counted in records (the source multiplies each by `sizeof(T)`).
* An `assert` that fails is the result `none`.
* The contents of a GPU buffer are a list of `Option T`, one slot per record of
  allocated storage, `none` standing for storage that was allocated with a `NULL`
  data pointer and never written.
* `std::vector` capacity is tracked explicitly; the growth policy of `push_back`
  is a parameter `grow` (the standard only promises a capacity large enough).
* `float` arithmetic is exact arithmetic in a linearly ordered field `F`
  (evaluated at `ℚ`); `sqrt` is a parameter.
* Voxel positions are `Int`; where the source converts a `float` to a 32-bit `int`
  that can be out of range (the Build-mode left click), the conversion is `toInt32`.
-/

namespace PaintedPortal

/-! ## GPU buffer helpers (`src/src/graphics.cpp`) -/

/-- Buffer slots: the four indexed targets that `bindGpuBuffer` tells apart, and the rest. -/
inductive BufferSlot where
  | shaderStorage
  | uniform
  | atomicCounter
  | transformFeedback
  | other
  deriving DecidableEq

/-- The slot test asserted by the range overload of `bindGpuBuffer`. -/
def BufferSlot.indexed : BufferSlot → Bool
  | .other => false
  | _ => true

/-- Calls that reach the GPU buffer of a list, offsets and sizes in records. -/
inductive GpuCall where
  | recreate (capacity : Nat)
  | update (start size : Nat)
  | bindRange (binding : Int) (offset size : Nat)
  deriving DecidableEq

/-- Contents of `createGpuBuffer(NULL, capacity * sizeof(T))`: unwritten storage. -/
def createGpuBuffer (T : Type) (capacity : Nat) : List (Option T) :=
  List.replicate capacity none

/-- Contents after `recreateGpuBuffer(buffer, NULL, capacity * sizeof(T))`:
`glBufferData` discards the old store. -/
def recreateGpuBuffer (T : Type) (capacity : Nat) : List (Option T) :=
  List.replicate capacity none

/-- Model of `updateGpuBuffer(buffer, start, data, size)`: asserts
`offset + size <= bufferSize`, then overwrites that range. -/
def updateGpuBuffer {T : Type} (buffer : List (Option T)) (start : Nat) (data : List T) :
    Option (List (Option T)) :=
  if start + data.length ≤ buffer.length then
    some (buffer.take start ++ data.map some ++ buffer.drop (start + data.length))
  else none

/-- Model of the range overload of `bindGpuBuffer`: asserts the slot, then binds. -/
def bindGpuBufferRange (slot : BufferSlot) (binding : Int) (offset size : Nat) :
    Option GpuCall :=
  if slot.indexed then some (.bindRange binding offset size) else none

/-! ## `GpuSyncedList` (`src/graphics.h`) -/

/-- The four private members of `GpuSyncedList<T>`, the vector capacity made explicit. -/
structure GpuSyncedList (T : Type) where
  gpuBuffer : List (Option T)
  gpuBufferCapacity : Nat
  items : List T
  itemsCapacity : Nat
  dirtyBits : List Bool

namespace GpuSyncedList

variable {T : Type}

/-- Model of `create(initialCapacity)`. -/
def create (T : Type) (initialCapacity : Nat) : GpuSyncedList T :=
  { gpuBuffer := createGpuBuffer T initialCapacity
    gpuBufferCapacity := initialCapacity
    items := []
    itemsCapacity := initialCapacity
    dirtyBits := [] }

/-- Capacity of a `std::vector` after `push_back`: unchanged while there is room, otherwise
the growth policy `grow`, and in any case room for the new element. -/
def pushCapacity (grow : Nat → Nat) (size capacity : Nat) : Nat :=
  if size < capacity then capacity else Max.max (grow capacity) (size + 1)

/-- Model of `push(item)`. -/
def push (grow : Nat → Nat) (l : GpuSyncedList T) (item : T) : GpuSyncedList T :=
  { l with
    items := l.items ++ [item]
    itemsCapacity := pushCapacity grow l.items.length l.itemsCapacity
    dirtyBits := l.dirtyBits ++ [true] }

/-- Model of `pop()`. -/
def pop (l : GpuSyncedList T) : Option (T × GpuSyncedList T) :=
  if 0 < l.items.length then
    l.items.getLast?.map fun item =>
      (item, { l with items := l.items.dropLast, dirtyBits := l.dirtyBits.dropLast })
  else none

/-- Model of `length()`. -/
def length (l : GpuSyncedList T) : Nat :=
  l.items.length

/-- Writes `v` at each index of `idxs` in turn (the flag loops of `remove` and `bind`). -/
def fillBits (idxs : List Nat) (v : Bool) (bits : List Bool) : List Bool :=
  idxs.foldl (fun b i => b.set i v) bits

/-- Model of `remove(index)`. -/
def remove (l : GpuSyncedList T) (index : Nat) : Option (GpuSyncedList T) :=
  if index < l.items.length then
    let items := l.items.eraseIdx index
    let dirtyBits := l.dirtyBits.dropLast
    some { l with
      items := items
      dirtyBits := fillBits (List.range' index (items.length - index)) true dirtyBits }
  else none

/-- Loop state of the dirty-range branch of `bind`. -/
structure BindLoop (T : Type) where
  startIdx : Int
  dirtyBits : List Bool
  gpuBuffer : List (Option T)
  calls : List GpuCall

/-- One iteration of the loop `for (size_t i = 0; i <= items.size(); ++i)` of `bind`. -/
def bindLoopBody (items : List T) (st : BindLoop T) (i : Nat) : Option (BindLoop T) :=
  let dirty := if i < items.length then st.dirtyBits.getD i false else false
  if dirty && decide (st.startIdx < 0) then
    some { st with startIdx := (i : Int) }
  else if !dirty && decide (st.startIdx ≥ 0) then
    let start := st.startIdx.toNat
    let size := i - start
    (updateGpuBuffer st.gpuBuffer start ((items.drop start).take size)).map fun buffer =>
      { st with
        gpuBuffer := buffer
        calls := st.calls ++ [.update start size]
        dirtyBits := fillBits ((List.range size).map fun j => start + j) false st.dirtyBits }
  else some st

/-- Synchronisation part of `bind`: everything above the line
"Everything is synchronized beyond this point". -/
def sync (l : GpuSyncedList T) : Option (GpuSyncedList T × List GpuCall) :=
  if l.gpuBufferCapacity < l.itemsCapacity then
    (updateGpuBuffer (recreateGpuBuffer T l.itemsCapacity) 0 l.items).map fun buffer =>
      ({ l with
          gpuBuffer := buffer
          gpuBufferCapacity := l.itemsCapacity
          dirtyBits := List.replicate l.items.length false },
        [.recreate l.itemsCapacity, .update 0 l.items.length])
  else
    ((List.range (l.items.length + 1)).foldlM (bindLoopBody l.items)
        { startIdx := -1, dirtyBits := l.dirtyBits, gpuBuffer := l.gpuBuffer, calls := [] }).map
      fun st => ({ l with gpuBuffer := st.gpuBuffer, dirtyBits := st.dirtyBits }, st.calls)

/-- Model of `bind(slot, binding)`: the new list and the GPU calls issued, in order. -/
def bind (slot : BufferSlot) (binding : Int) (l : GpuSyncedList T) :
    Option (GpuSyncedList T × List GpuCall) :=
  (sync l).bind fun r =>
    if 0 < r.1.items.length then
      (bindGpuBufferRange slot binding 0 r.1.items.length).map fun c => (r.1, r.2 ++ [c])
    else some r

/-- The proxy object returned by `operator []`. -/
structure Wrapper (T : Type) where
  list : GpuSyncedList T
  index : Nat

/-- Model of `operator [](index)`. -/
def subscript (l : GpuSyncedList T) (index : Nat) : Option (Wrapper T) :=
  if index < l.items.length then some { list := l, index := index } else none

/-- Model of `Wrapper::operator T()`. -/
def Wrapper.read (w : Wrapper T) : Option T :=
  w.list.items[w.index]?

/-- Model of `Wrapper::operator =(item)`, returning the list written through. -/
def Wrapper.assign (w : Wrapper T) (item : T) : GpuSyncedList T :=
  { w.list with
    items := w.list.items.set w.index item
    dirtyBits := w.list.dirtyBits.set w.index true }

/-- Reading `list[index]`. -/
def get (l : GpuSyncedList T) (index : Nat) : Option T :=
  (l.subscript index).bind Wrapper.read

/-- The statement `list[index] = item`. -/
def set (l : GpuSyncedList T) (index : Nat) (item : T) : Option (GpuSyncedList T) :=
  (l.subscript index).map fun w => w.assign item

/-- Invariant of the dirty-range loop of `bind` once the iterations `i < k` are done,
`d0` and `b0` being the flags and the buffer on entry: either no dirty flag was met yet
and nothing changed, or `startIdx` is the first dirty index `f` and the range `[f, m)`
has been uploaded and cleared. -/
def BindInv (items : List T) (d0 : List Bool) (b0 : List (Option T)) (k : Nat)
    (st : BindLoop T) : Prop :=
  st.dirtyBits.length = d0.length ∧ st.gpuBuffer.length = b0.length ∧
  ((st.startIdx = -1 ∧ st.dirtyBits = d0 ∧ st.gpuBuffer = b0 ∧ st.calls = [] ∧
      ∀ j, j < k → j < items.length → d0.getD j false = false) ∨
   (∃ f m : Nat, st.startIdx = (f : Int) ∧ f ≤ m ∧ m ≤ items.length ∧ m ≤ k ∧ f < k ∧
      f < items.length ∧ (items.length < k → m = items.length) ∧
      (∀ j, j < f → d0.getD j false = false) ∧ d0.getD f false = true ∧
      (∀ j, st.gpuBuffer[j]? = if f ≤ j ∧ j < m then (items[j]?).map some else b0[j]?) ∧
      (∀ j, st.dirtyBits[j]? = if f ≤ j ∧ j < m then some false else d0[j]?) ∧
      (∀ c ∈ st.calls, ∃ e, c = GpuCall.update f (e - f) ∧ f < e ∧ e ≤ items.length)))

/-- The ranges of the upload (`updateGpuBuffer`) calls among `calls`. -/
def uploads : List GpuCall → List (Nat × Nat)
  | [] => []
  | .update start size :: cs => (start, start + size) :: uploads cs
  | _ :: cs => uploads cs

/-- Mirror record `i`, if the buffer holds a written record there. -/
def mirror (l : GpuSyncedList T) (i : Nat) : Option T :=
  (l.gpuBuffer[i]?).join

/-- Eight records pushed into a fresh list and bound, then the records 1, 2, 3, 6 and 7
reassigned: the dirty pattern `_ D D D _ _ D D` of the comment in `bind`. -/
def dirtyPattern : Option (GpuSyncedList Nat) :=
  (bind .shaderStorage 0
      ([10, 11, 12, 13, 14, 15, 16, 17].foldl (push fun c => 2 * c) (create Nat 8))).bind
    fun r => (set r.1 1 21).bind
    fun l => (set l 2 22).bind
    fun l => (set l 3 23).bind
    fun l => (set l 6 26).bind
    fun l => set l 7 27

/-- Representation invariant: the flag array is as long as the record array, the
records fit the vector capacity, the buffer has the recorded capacity, and every clean
record is mirrored. -/
def Inv (l : GpuSyncedList T) : Prop :=
  l.dirtyBits.length = l.items.length ∧ l.items.length ≤ l.itemsCapacity ∧
  l.gpuBuffer.length = l.gpuBufferCapacity ∧
  ∀ i, i < l.items.length → l.dirtyBits[i]? = some false →
    l.gpuBuffer[i]? = (l.items[i]?).map some

/-- The states a list can be in: `create`, then any sequence of `push`, `pop`, `remove`,
element assignment and `bind` that passes its assertions. -/
inductive Reachable (grow : Nat → Nat) : GpuSyncedList T → Prop
  | create (initialCapacity : Nat) : Reachable grow (create T initialCapacity)
  | push {l : GpuSyncedList T} (item : T) : Reachable grow l → Reachable grow (push grow l item)
  | pop {l l' : GpuSyncedList T} {item : T} :
      Reachable grow l → pop l = some (item, l') → Reachable grow l'
  | remove {l l' : GpuSyncedList T} (index : Nat) :
      Reachable grow l → remove l index = some l' → Reachable grow l'
  | assign {l l' : GpuSyncedList T} {index : Nat} {item : T} :
      Reachable grow l → set l index item = some l' → Reachable grow l'
  | bind {l l' : GpuSyncedList T} (slot : BufferSlot) (binding : Int) (calls : List GpuCall) :
      Reachable grow l → bind slot binding l = some (l', calls) → Reachable grow l'

end GpuSyncedList

/-! ## Vectors and primitives (`src/game.cpp`, GLM) -/

/-- GLM `vec3` over the field `F`. -/
structure Vec3 (F : Type) where
  x : F
  y : F
  z : F
  deriving DecidableEq

/-- GLM `ivec3`. -/
structure IVec3 where
  x : Int
  y : Int
  z : Int
  deriving DecidableEq

section Geometry

variable {F : Type} [LinearOrderedField F] [FloorRing F]

namespace Vec3

/-- Componentwise `a + b`. -/
def add (a b : Vec3 F) : Vec3 F := ⟨a.x + b.x, a.y + b.y, a.z + b.z⟩

/-- Componentwise `a - b`. -/
def sub (a b : Vec3 F) : Vec3 F := ⟨a.x - b.x, a.y - b.y, a.z - b.z⟩

/-- Componentwise `a * b`. -/
def mul (a b : Vec3 F) : Vec3 F := ⟨a.x * b.x, a.y * b.y, a.z * b.z⟩

/-- Vector times scalar, `a * s`. -/
def scale (a : Vec3 F) (s : F) : Vec3 F := ⟨a.x * s, a.y * s, a.z * s⟩

/-- Scalar times vector, `s * a`. -/
def lscale (s : F) (a : Vec3 F) : Vec3 F := ⟨s * a.x, s * a.y, s * a.z⟩

/-- Vector minus scalar, `a - s`. -/
def subScalar (a : Vec3 F) (s : F) : Vec3 F := ⟨a.x - s, a.y - s, a.z - s⟩

/-- Scalar over vector, `s / a`. -/
def scalarDiv (s : F) (a : Vec3 F) : Vec3 F := ⟨s / a.x, s / a.y, s / a.z⟩

/-- GLM `dot`. -/
def dot (a b : Vec3 F) : F := a.x * b.x + a.y * b.y + a.z * b.z

/-- GLM `cross`. -/
def cross (a b : Vec3 F) : Vec3 F :=
  ⟨a.y * b.z - b.y * a.z, a.z * b.x - b.z * a.x, a.x * b.y - b.x * a.y⟩

/-- GLM componentwise `min`. -/
def min (a b : Vec3 F) : Vec3 F := ⟨Min.min a.x b.x, Min.min a.y b.y, Min.min a.z b.z⟩

/-- GLM componentwise `max`. -/
def max (a b : Vec3 F) : Vec3 F := ⟨Max.max a.x b.x, Max.max a.y b.y, Max.max a.z b.z⟩

/-- GLM `normalize`: `v * inversesqrt(dot(v, v))`. -/
def normalize (sqrt : F → F) (v : Vec3 F) : Vec3 F := v.scale (1 / sqrt (dot v v))

/-- GLM `length`. -/
def length (sqrt : F → F) (v : Vec3 F) : F := sqrt (dot v v)

/-- GLM `distance`. -/
def distance (sqrt : F → F) (a b : Vec3 F) : F := length sqrt (sub b a)

end Vec3

/-- Conversion `float` to `int`: truncation toward zero. -/
def truncate (a : F) : Int := if 0 ≤ a then ⌊a⌋ else ⌈a⌉

/-- The integer `n` is in the range of a 32-bit `int`. -/
def fitsInt32 (n : Int) : Prop := -2147483648 ≤ n ∧ n ≤ 2147483647

/-- Conversion to `int` of a `float` with the integer value `n`, as in `(ivec3)floor(...)`:
`n` itself when it is in the range of a 32-bit `int`. For a value out of that range C++
leaves the result undefined; the x86 conversion instructions store `INT_MIN`, the value
taken here. -/
def toInt32 (n : Int) : Int :=
  if -2147483648 ≤ n ∧ n ≤ 2147483647 then n else -2147483648

/-- Conversion `ivec3(vec3)`. -/
def IVec3.ofVec3 (v : Vec3 F) : IVec3 := ⟨truncate v.x, truncate v.y, truncate v.z⟩

/-- Conversion `vec3(ivec3)`. -/
def IVec3.toVec3 (v : IVec3) : Vec3 F := ⟨(v.x : F), (v.y : F), (v.z : F)⟩

/-- The record `Ray`. -/
structure Ray (F : Type) where
  pos : Vec3 F
  dir : Vec3 F
  deriving DecidableEq

/-- The record `Plane`. -/
structure Plane (F : Type) where
  normal : Vec3 F
  pos : Vec3 F
  material : Nat

/-- The record `Sphere`. -/
structure Sphere (F : Type) where
  pos : Vec3 F
  radius : F
  material : Nat

/-- The record `Voxel`. -/
structure Voxel where
  pos : IVec3
  material : Nat

/-- The record `Portal`. -/
structure Portal (F : Type) where
  pos : Vec3 F
  normal : Vec3 F
  radius : F

/-- The constant `floatMax = 3.402823466e+38`. -/
def floatMax : F := 3.402823466e38

/-- Model of `intersect(Ray, Plane)`. -/
def intersectPlane (r : Ray F) (p : Plane F) : F :=
  let epsilon : F := 0.001
  let denom := Vec3.dot r.dir p.normal
  if abs denom > epsilon then
    let t := Vec3.dot (p.pos.sub r.pos) p.normal / denom
    if t > epsilon then t else floatMax
  else floatMax

/-- Model of `intersect(Ray, Sphere)`. -/
def intersectSphere (sqrt : F → F) (r : Ray F) (s : Sphere F) : F :=
  let a : F := 1
  let b := 2 * Vec3.dot (r.pos.sub s.pos) r.dir
  let c := Vec3.dot s.pos (s.pos.sub (Vec3.lscale 2 r.pos)) + Vec3.dot r.pos r.pos
    - s.radius * s.radius
  let discriminant := b * b - 4 * a * c
  if discriminant < 0 then floatMax else -0.5 * (b + sqrt discriminant)

/-- Model of `intersect(Ray, Voxel)`. -/
def intersectVoxel (r : Ray F) (v : Voxel) : F :=
  let epsilon : F := 0.001
  let dx := if r.dir.x = 0 then epsilon else r.dir.x
  let dy := if r.dir.y = 0 then epsilon else r.dir.y
  let dz := if r.dir.z = 0 then epsilon else r.dir.z
  let dir : Vec3 F := ⟨dx, dy, dz⟩
  let invDir := Vec3.scalarDiv 1 dir
  let ld := ((IVec3.toVec3 v.pos).sub r.pos).mul invDir
  let rd := (((IVec3.toVec3 v.pos).sub r.pos).mul invDir).add invDir
  let mind := Vec3.min ld rd
  let maxd := Vec3.max ld rd
  let dmin := Max.max (Max.max mind.x mind.y) mind.z
  let dmax := Min.min (Min.min maxd.x maxd.y) maxd.z
  if dmin > dmax then floatMax else dmin

/-- Model of `intersect(Ray, Portal)`. -/
def intersectPortal (r : Ray F) (p : Portal F) : F :=
  let epsilon : F := 0.001
  let denom := Vec3.dot r.dir p.normal
  if abs denom > epsilon then
    let t := Vec3.dot (p.pos.sub r.pos) p.normal / denom
    if t > epsilon then
      let v := (r.pos.add (r.dir.scale t)).sub p.pos
      let d2 := Vec3.dot v v
      if d2 ≤ p.radius * p.radius then t else floatMax
    else floatMax
  else floatMax

/-- The scene lists read by `trace`. -/
structure Scene (F : Type) where
  planes : GpuSyncedList (Plane F)
  spheres : GpuSyncedList (Sphere F)
  voxels : GpuSyncedList Voxel
  portals : GpuSyncedList (Portal F)

/-- The locals `hitDist` and `hitNormal` of `trace`. -/
structure Hit (F : Type) where
  hitDist : F
  hitNormal : Vec3 F

/-- Normal that `trace` stores for a sphere hit at distance `d`. -/
def sphereNormal (sqrt : F → F) (ray : Ray F) (sphere : Sphere F) (d : F) : Vec3 F :=
  Vec3.normalize sqrt ((ray.pos.add (ray.dir.scale d)).sub sphere.pos)

/-- Normal that `trace` stores for a voxel hit at distance `d`. The hit point, the offset
from the cube centre and the product with `2.0001` are computed in the field `F`, without
the rounding of binary32. -/
def voxelNormal (sqrt : F → F) (ray : Ray F) (voxel : Voxel) (d : F) : Vec3 F :=
  let hitPos := ray.pos.add (ray.dir.scale d)
  Vec3.normalize sqrt (IVec3.toVec3 (IVec3.ofVec3
    (Vec3.lscale 2.0001 ((hitPos.sub (IVec3.toVec3 voxel.pos)).subScalar 0.5))))

/-- Body of the first loop of `trace`. -/
def tracePlane (ray : Ray F) (h : Hit F) (plane : Plane F) : Hit F :=
  let d := intersectPlane ray plane
  if d > 0 ∧ d < h.hitDist then { hitDist := d, hitNormal := plane.normal } else h

/-- Body of the second loop of `trace`. -/
def traceSphere (sqrt : F → F) (ray : Ray F) (h : Hit F) (sphere : Sphere F) : Hit F :=
  let d := intersectSphere sqrt ray sphere
  if d > 0 ∧ d < h.hitDist then
    { hitDist := d, hitNormal := sphereNormal sqrt ray sphere d }
  else h

/-- Body of the third loop of `trace`. -/
def traceVoxel (sqrt : F → F) (ray : Ray F) (h : Hit F) (voxel : Voxel) : Hit F :=
  let d := intersectVoxel ray voxel
  if d > 0 ∧ d < h.hitDist then
    { hitDist := d, hitNormal := voxelNormal sqrt ray voxel d }
  else h

/-- The three loops of `trace`; `garbage` is the indeterminate initial value of the
uninitialised local `hitNormal`. -/
def traceHit (sqrt : F → F) (scene : Scene F) (garbage : Vec3 F) (ray : Ray F) : Hit F :=
  let h0 : Hit F := { hitDist := floatMax, hitNormal := garbage }
  let h1 := scene.planes.items.foldl (tracePlane ray) h0
  let h2 := scene.spheres.items.foldl (traceSphere sqrt ray) h1
  scene.voxels.items.foldl (traceVoxel sqrt ray) h2

/-- Model of `trace(ray)`. -/
def trace (sqrt : F → F) (scene : Scene F) (garbage : Vec3 F) (ray : Ray F) : Ray F :=
  let h := traceHit sqrt scene garbage ray
  { pos := ray.pos.add (ray.dir.scale h.hitDist), dir := h.hitNormal }

/-- The test and update shared by the three loops of `trace`, on a candidate given as its
distance and the normal to store. -/
def closer (h : Hit F) (c : F × Vec3 F) : Hit F :=
  if c.1 > 0 ∧ c.1 < h.hitDist then { hitDist := c.1, hitNormal := c.2 } else h

/-- The primitives in the scan order of `trace` (planes, spheres, voxels, each in list
order), each with its `intersect` distance and the normal `trace` would store for it. -/
def candidates (sqrt : F → F) (scene : Scene F) (ray : Ray F) : List (F × Vec3 F) :=
  scene.planes.items.map (fun p => (intersectPlane ray p, p.normal))
    ++ scene.spheres.items.map (fun s =>
        (intersectSphere sqrt ray s, sphereNormal sqrt ray s (intersectSphere sqrt ray s)))
    ++ scene.voxels.items.map (fun v =>
        (intersectVoxel ray v, voxelNormal sqrt ray v (intersectVoxel ray v)))

end Geometry

/-- A ray over `ℚ` from `(0, 10, 0)` straight down. -/
def downRay : Ray ℚ := { pos := ⟨0, 10, 0⟩, dir := ⟨0, -1, 0⟩ }

/-- The plane `y = 0` with normal `(0, 1, 0)`. -/
def groundPlane : Plane ℚ := { normal := ⟨0, 1, 0⟩, pos := ⟨0, 0, 0⟩, material := 2 }

/-- A scene over `ℚ` holding `groundPlane` and nothing else. -/
def groundScene : Scene ℚ :=
  { planes := GpuSyncedList.push id (GpuSyncedList.create (Plane ℚ) 1) groundPlane
    spheres := GpuSyncedList.create (Sphere ℚ) 3
    voxels := GpuSyncedList.create Voxel 247
    portals := GpuSyncedList.create (Portal ℚ) 2 }

/-! ## Geometric notions used by the claims -/

section Notions

variable {F : Type} [LinearOrderedField F]

/-- The point `origin + t * dir` of a ray. -/
def Ray.point (r : Ray F) (t : F) : Vec3 F := r.pos.add (r.dir.scale t)

/-- The point `x` lies on the plane through `p.pos` with normal `p.normal`. -/
def Plane.Contains (p : Plane F) (x : Vec3 F) : Prop :=
  Vec3.dot (x.sub p.pos) p.normal = 0

/-- The point `x` lies on the surface of the sphere. -/
def Sphere.Contains (s : Sphere F) (x : Vec3 F) : Prop :=
  Vec3.dot (x.sub s.pos) (x.sub s.pos) = s.radius * s.radius

/-- The point `x` lies in the closed unit cube `[pos, pos + 1]^3` of the voxel. -/
def Voxel.Contains (v : Voxel) (x : Vec3 F) : Prop :=
  ((v.pos.x : F) ≤ x.x ∧ x.x ≤ (v.pos.x : F) + 1) ∧
  ((v.pos.y : F) ≤ x.y ∧ x.y ≤ (v.pos.y : F) + 1) ∧
  ((v.pos.z : F) ≤ x.z ∧ x.z ≤ (v.pos.z : F) + 1)

/-- The point `x` lies on the disc of the portal: in its plane, within its radius. -/
def Portal.Contains (p : Portal F) (x : Vec3 F) : Prop :=
  Vec3.dot (x.sub p.pos) p.normal = 0 ∧
  Vec3.dot (x.sub p.pos) (x.sub p.pos) ≤ p.radius * p.radius

/-- The plane a portal lies in: its normal and its centre. -/
def Portal.plane (p : Portal F) : Plane F :=
  { normal := p.normal, pos := p.pos, material := 0 }

/-- The function `sqrt` is an exact square root on the non-negative elements of `F`. -/
def IsSqrt (sqrt : F → F) : Prop :=
  ∀ x, 0 ≤ x → 0 ≤ sqrt x ∧ sqrt x * sqrt x = x

/-- The local `discriminant` of `intersect(Ray, Sphere)`. -/
def sphereDiscriminant (r : Ray F) (s : Sphere F) : F :=
  let a : F := 1
  let b := 2 * Vec3.dot (r.pos.sub s.pos) r.dir
  let c := Vec3.dot s.pos (s.pos.sub (Vec3.lscale 2 r.pos)) + Vec3.dot r.pos r.pos
    - s.radius * s.radius
  b * b - 4 * a * c

end Notions

/-- The ray of the voxel scenario: from `(x + 0.5, y + 5, z + 0.5)` straight down. -/
def rayAbove {F : Type} [LinearOrderedField F] (x y z : Int) : Ray F :=
  { pos := ⟨(x : F) + 0.5, (y : F) + 5, (z : F) + 0.5⟩, dir := ⟨0, -1, 0⟩ }

/-! ## Matrices (GLM `mat3`) and the portal basis -/

/-- GLM `mat3`, stored by columns as in GLM: `m[i]` is the column `ci`. -/
structure Mat3 (F : Type) where
  c0 : Vec3 F
  c1 : Vec3 F
  c2 : Vec3 F
  deriving DecidableEq

section Matrices

variable {F : Type} [LinearOrderedField F]

namespace Mat3

/-- GLM `mat3(1)`: the identity matrix. -/
def identity : Mat3 F := ⟨⟨1, 0, 0⟩, ⟨0, 1, 0⟩, ⟨0, 0, 1⟩⟩

/-- GLM `transpose`. -/
def transpose (m : Mat3 F) : Mat3 F :=
  ⟨⟨m.c0.x, m.c1.x, m.c2.x⟩, ⟨m.c0.y, m.c1.y, m.c2.y⟩, ⟨m.c0.z, m.c1.z, m.c2.z⟩⟩

/-- GLM `mat3 * vec3`: the combination of the columns by the components of `v`. -/
def mulVec (m : Mat3 F) (v : Vec3 F) : Vec3 F :=
  ((m.c0.scale v.x).add (m.c1.scale v.y)).add (m.c2.scale v.z)

/-- GLM `mat3 * mat3`: column `i` of the product is `a * b[i]`. -/
def mul (a b : Mat3 F) : Mat3 F := ⟨a.mulVec b.c0, a.mulVec b.c1, a.mulVec b.c2⟩

/-- GLM `determinant`. -/
def determinant (m : Mat3 F) : F :=
  m.c0.x * (m.c1.y * m.c2.z - m.c2.y * m.c1.z)
    - m.c1.x * (m.c0.y * m.c2.z - m.c2.y * m.c0.z)
    + m.c2.x * (m.c0.y * m.c1.z - m.c1.y * m.c0.z)

/-- GLM `inverse`: the cofactors times one over the determinant. -/
def inverse (m : Mat3 F) : Mat3 F :=
  let oneOverDeterminant : F := 1 / determinant m
  ⟨⟨(m.c1.y * m.c2.z - m.c2.y * m.c1.z) * oneOverDeterminant,
      -(m.c0.y * m.c2.z - m.c2.y * m.c0.z) * oneOverDeterminant,
      (m.c0.y * m.c1.z - m.c1.y * m.c0.z) * oneOverDeterminant⟩,
    ⟨-(m.c1.x * m.c2.z - m.c2.x * m.c1.z) * oneOverDeterminant,
      (m.c0.x * m.c2.z - m.c2.x * m.c0.z) * oneOverDeterminant,
      -(m.c0.x * m.c1.z - m.c1.x * m.c0.z) * oneOverDeterminant⟩,
    ⟨(m.c1.x * m.c2.y - m.c2.x * m.c1.y) * oneOverDeterminant,
      -(m.c0.x * m.c2.y - m.c2.x * m.c0.y) * oneOverDeterminant,
      (m.c0.x * m.c1.y - m.c1.x * m.c0.y) * oneOverDeterminant⟩⟩

end Mat3

/-- Model of `getPortalMatrix(portal)`. -/
def getPortalMatrix (sqrt : F → F) (portal : Portal F) : Mat3 F :=
  let n := Vec3.normalize sqrt portal.normal
  let b : Vec3 F := ⟨0, 1, 0⟩
  let b := if abs (Vec3.dot n b) > 0.99 then (⟨1, 0, 0⟩ : Vec3 F) else b
  let t := Vec3.normalize sqrt (Vec3.cross n b)
  let b := Vec3.normalize sqrt (Vec3.cross t n)
  Mat3.transpose ⟨t, b, n⟩

/-- The position update of the teleport in `gameOnUpdate`:
`portalOut.pos + inverse(M2) * M1 * (cameraPos - portalIn.pos)`. -/
def teleportPosition (M1 M2 : Mat3 F) (portalIn portalOut : Portal F) (cameraPos : Vec3 F) :
    Vec3 F :=
  portalOut.pos.add (((Mat3.inverse M2).mul M1).mulVec (cameraPos.sub portalIn.pos))

end Matrices

/-! ## Collision probing (`src/game.cpp`) -/

section Collision

variable {F : Type} [LinearOrderedField F] [FloorRing F]

/-- The constant `rayEpsilon = 0.001f`. -/
def rayEpsilon : F := 0.001

/-- Model of `getDistanceToNearestObject(from, dir)`. -/
def getDistanceToNearestObject (sqrt : F → F) (scene : Scene F) (garbage : Vec3 F)
    (start dir : Vec3 F) : F :=
  let r0 : Ray F := { pos := start, dir := Vec3.normalize sqrt dir }
  let r1 := trace sqrt scene garbage r0
  Vec3.distance sqrt r0.pos r1.pos

/-- Model of `moveWithCollisionCheck(from, dir, epsilon)`. -/
def moveWithCollisionCheck (sqrt : F → F) (scene : Scene F) (garbage : Vec3 F)
    (start dir : Vec3 F) (epsilon : F) : Vec3 F :=
  let dist := Vec3.length sqrt dir
  let dir := Vec3.normalize sqrt dir
  let movementRay : Ray F := { pos := start, dir := dir }
  let movementRayEnd := trace sqrt scene garbage movementRay
  let maxDist := Max.max 0 (Vec3.distance sqrt movementRayEnd.pos movementRay.pos - epsilon)
  start.add (Vec3.lscale (Min.min dist maxDist) dir)

/-- The distance `trace` reports along `dir` from `start`: from the start to the point
`trace` returns. -/
def reportedDistance (sqrt : F → F) (scene : Scene F) (garbage : Vec3 F)
    (start dir : Vec3 F) : F :=
  Vec3.distance sqrt
    (trace sqrt scene garbage { pos := start, dir := Vec3.normalize sqrt dir }).pos start

end Collision

/-! ## Game state and event handlers (`src/game.cpp`)

The model keeps the state the handlers compute with: the camera, the vertical velocity, the
mode, the selected material and the four primitive lists. The window, the shaders, the
`lights` and `materials` lists and the drawing calls are left out: no handler reads them
back into that state. -/

/-- The enumeration `GameMode`. -/
inductive GameMode where
  | PlayMode
  | BuildMode
  deriving DecidableEq

/-- The keys `gameOnKey` tells apart; `digit d` is `GLFW_KEY_0 + d`. -/
inductive Key where
  | escape
  | f
  | space
  | p
  | b
  | digit (d : Fin 10)
  | other
  deriving DecidableEq

/-- The GLFW actions: `GLFW_PRESS` and the others (release, key repeat). -/
inductive Action where
  | press
  | notPress
  deriving DecidableEq

/-- The mouse buttons `gameOnMouseButton` tells apart. -/
inductive MouseButton where
  | left
  | right
  | other
  deriving DecidableEq

/-- The keys polled by `gameOnUpdate` with `glfwGetKey`. -/
structure Input where
  leftShift : Bool
  w : Bool
  s : Bool
  a : Bool
  d : Bool
  leftControl : Bool
  space : Bool

/-- Library functions and indeterminate values the model takes as parameters: `sqrt`,
`atan`, `atan2`, the vector `vec3(rot * vec4(0, 0, -1, 0))` that `gameOnMouseMove` gets from
the GLM rotations for a pitch and a yaw, the initial value of the uninitialised local
`hitNormal` of `trace`, and the growth policy of `std::vector`. -/
structure Env (F : Type) where
  sqrt : F → F
  atan : F → F
  atan2 : F → F → F
  look : F → F → Vec3 F
  garbage : Vec3 F
  grow : Nat → Nat

/-- The file-scope variables of `game.cpp` that the handlers read and write. -/
structure Game (F : Type) where
  cursorX : F
  cursorY : F
  cameraPos : Vec3 F
  cameraDir : Vec3 F
  cameraUp : Vec3 F
  cameraRight : Vec3 F
  cameraFoveaDist : F
  cameraPitch : F
  cameraYaw : F
  velocityY : F
  doubleJumpReady : Bool
  gameMode : GameMode
  material : Nat
  scene : Scene F

/-- The voxel record `{ { x, y, z }, material }`. -/
def voxelAt (x y z : Int) (material : Nat) : Voxel :=
  { pos := { x := x, y := y, z := z }, material := material }

/-- The voxels pushed by `loadScene`, in order. -/
def loadSceneVoxels : List Voxel :=
  [voxelAt (-132) 0 71 7, voxelAt (-4) 0 (-3) 2, voxelAt (-5) 0 (-3) 2, voxelAt (-6) 0 (-3) 2,
    voxelAt (-4) 0 (-4) 2, voxelAt (-5) 0 (-4) 2, voxelAt (-6) 0 (-4) 2, voxelAt (-4) 0 (-5) 2,
    voxelAt (-5) 0 (-5) 2, voxelAt (-6) 0 (-5) 2, voxelAt (-5) 1 (-6) 4, voxelAt (-5) 3 (-7) 4,
    voxelAt (-5) 2 (-6) 4, voxelAt (-4) 1 (-6) 4, voxelAt (-4) 2 (-6) 4, voxelAt (-6) 1 (-6) 4,
    voxelAt (-6) 2 (-6) 4, voxelAt (-6) 3 (-7) 4, voxelAt (-4) 3 (-7) 4, voxelAt (-7) 3 (-7) 4,
    voxelAt (-7) 0 (-6) 4, voxelAt (-7) 1 (-6) 4, voxelAt (-7) 2 (-6) 4, voxelAt (-12) 0 (-8) 6,
    voxelAt (-12) 1 (-8) 6, voxelAt (-12) 4 (-8) 6, voxelAt (-12) 3 (-8) 6,
    voxelAt (-12) 2 (-8) 6, voxelAt (-13) 4 (-9) 7, voxelAt (-13) 4 (-8) 7,
    voxelAt (-14) 4 (-9) 7, voxelAt (-14) 4 (-8) 7, voxelAt (-19) 4 (-9) 7,
    voxelAt (-19) 4 (-8) 7, voxelAt (-20) 4 (-9) 6, voxelAt (-20) 4 (-8) 6,
    voxelAt (-20) 3 (-9) 6, voxelAt (-20) 3 (-8) 6, voxelAt (-21) 2 (-9) 6, voxelAt (-19) 5 9 9,
    voxelAt (-17) 6 5 9, voxelAt (-17) 5 0 9, voxelAt (-17) 5 1 9, voxelAt (-18) 5 0 9,
    voxelAt (-18) 5 1 9, voxelAt (-20) 4 (-3) 9, voxelAt (-13) 1 12 3, voxelAt (-12) 1 12 3,
    voxelAt (-12) 0 13 3, voxelAt (-13) 0 13 3, voxelAt (-13) 1 13 3, voxelAt (-12) 1 13 3,
    voxelAt (-12) 2 11 3, voxelAt (-13) 2 11 3, voxelAt (-12) 3 10 3, voxelAt (-13) 3 10 3,
    voxelAt (-12) 3 11 3, voxelAt (-13) 3 11 3, voxelAt (-13) 3 9 4, voxelAt (-12) 3 9 4,
    voxelAt (-12) 3 8 4, voxelAt (-13) 3 7 4, voxelAt (-11) 3 6 4, voxelAt (-11) 3 5 4,
    voxelAt (-10) 3 5 4, voxelAt (-9) 3 6 4, voxelAt (-8) 3 6 4, voxelAt (-8) 3 5 4,
    voxelAt (-7) 3 6 4, voxelAt (-6) 3 6 3, voxelAt (-5) 0 6 3, voxelAt (-5) 1 6 3,
    voxelAt (-5) 2 6 3, voxelAt (-5) 3 6 3, voxelAt (-4) 3 6 3, voxelAt (-3) 3 6 3,
    voxelAt (-2) 3 6 3, voxelAt (-1) 3 6 3, voxelAt 0 3 6 3, voxelAt 1 3 6 7, voxelAt 1 3 7 7,
    voxelAt 1 3 5 7, voxelAt 2 4 7 7, voxelAt 2 4 5 7, voxelAt 2 4 6 6, voxelAt 2 5 5 6,
    voxelAt 2 5 6 6, voxelAt 2 5 7 6, voxelAt 2 6 6 6, voxelAt (-24) 4 (-1) 8,
    voxelAt (-29) 5 (-5) 8, voxelAt (-35) 5 0 8, voxelAt (-40) 6 (-5) 9, voxelAt (-40) 6 (-6) 9,
    voxelAt (-40) 6 (-4) 9, voxelAt (-41) 7 (-4) 9, voxelAt (-41) 7 (-5) 9,
    voxelAt (-41) 7 (-6) 9, voxelAt (-41) 8 (-5) 9, voxelAt (-41) 8 (-6) 6,
    voxelAt (-41) 8 (-4) 6, voxelAt (-6) 3 (-8) 4, voxelAt (-5) 3 (-8) 4, voxelAt (-4) 3 (-8) 4,
    voxelAt (-6) 3 (-9) 4, voxelAt (-5) 3 (-9) 4, voxelAt (-4) 3 (-9) 4, voxelAt (-6) 3 (-10) 4,
    voxelAt (-5) 3 (-10) 4, voxelAt (-4) 3 (-10) 4, voxelAt (-3) 3 (-7) 4, voxelAt (-3) 3 (-8) 4,
    voxelAt (-3) 3 (-9) 4, voxelAt (-3) 3 (-10) 4, voxelAt (-2) 3 (-7) 4, voxelAt (-2) 3 (-8) 4,
    voxelAt (-2) 3 (-9) 4, voxelAt (-2) 3 (-10) 4, voxelAt (-1) 3 (-7) 4, voxelAt (-1) 3 (-8) 4,
    voxelAt (-1) 3 (-9) 4, voxelAt (-1) 3 (-10) 4, voxelAt (-6) 3 (-11) 4,
    voxelAt (-5) 3 (-11) 4, voxelAt (-4) 3 (-11) 4, voxelAt (-3) 3 (-11) 4,
    voxelAt (-2) 3 (-11) 4, voxelAt (-1) 3 (-11) 4, voxelAt 0 3 (-7) 7, voxelAt 0 3 (-9) 7,
    voxelAt 0 3 (-8) 7, voxelAt 0 3 (-10) 7, voxelAt 0 3 (-11) 7, voxelAt (-1) 3 (-12) 7,
    voxelAt (-5) 3 (-12) 7, voxelAt (-4) 3 (-12) 7, voxelAt (-3) 3 (-12) 7,
    voxelAt (-2) 3 (-12) 7, voxelAt 0 3 (-12) 7, voxelAt (-6) 3 (-12) 7, voxelAt 1 4 (-7) 9,
    voxelAt 1 4 (-8) 9, voxelAt 1 4 (-9) 9, voxelAt 1 4 (-10) 9, voxelAt 1 4 (-11) 9,
    voxelAt 1 4 (-12) 9, voxelAt 2 4 (-12) 9, voxelAt 2 4 (-11) 9, voxelAt 2 4 (-10) 9,
    voxelAt 2 4 (-9) 9, voxelAt 3 4 (-7) 3, voxelAt 3 4 (-9) 3, voxelAt 3 4 (-11) 3,
    voxelAt 3 4 (-12) 3, voxelAt 3 4 (-10) 3, voxelAt 3 4 (-8) 3, voxelAt 4 4 (-12) 3,
    voxelAt 4 4 (-11) 3, voxelAt 4 4 (-10) 3, voxelAt 4 4 (-9) 3, voxelAt 4 4 (-8) 3,
    voxelAt 4 4 (-7) 3, voxelAt 5 4 (-12) 3, voxelAt 5 4 (-10) 3, voxelAt 5 4 (-9) 3,
    voxelAt 5 4 (-8) 3, voxelAt 5 4 (-7) 3, voxelAt 5 4 (-11) 3, voxelAt 6 4 (-12) 3,
    voxelAt 6 4 (-11) 3, voxelAt 6 4 (-10) 3, voxelAt 6 4 (-9) 3, voxelAt 6 4 (-8) 3,
    voxelAt 6 4 (-7) 3, voxelAt 7 4 (-10) 3, voxelAt 7 4 (-9) 3, voxelAt 7 4 (-8) 3,
    voxelAt 7 4 (-7) 3, voxelAt 6 4 (-6) 3, voxelAt 7 4 (-6) 3, voxelAt 8 4 (-8) 3,
    voxelAt 8 4 (-7) 3, voxelAt 8 4 (-6) 3, voxelAt 9 4 (-8) 3, voxelAt 9 4 (-7) 3,
    voxelAt 6 4 (-5) 3, voxelAt 7 4 (-5) 3, voxelAt 8 4 (-5) 3, voxelAt 9 4 (-6) 3,
    voxelAt 9 4 (-5) 3, voxelAt 7 2 (-4) 2, voxelAt 7 3 (-4) 2, voxelAt 8 3 (-4) 2,
    voxelAt 8 2 (-4) 2, voxelAt 7 4 (-4) 2, voxelAt 8 4 (-4) 2, voxelAt 6 4 (-4) 2,
    voxelAt 9 4 (-4) 2, voxelAt 8 3 7 10, voxelAt 9 3 7 10, voxelAt 8 3 6 10, voxelAt 7 3 7 10,
    voxelAt 8 3 8 10, voxelAt 8 3 5 10, voxelAt 10 3 7 10, voxelAt 8 3 9 10, voxelAt 6 3 7 10,
    voxelAt 9 3 6 9, voxelAt 7 3 6 9, voxelAt 9 3 8 9, voxelAt 9 3 9 9, voxelAt 10 3 9 9,
    voxelAt 10 3 8 9, voxelAt 9 3 5 9, voxelAt 10 3 5 9, voxelAt 10 3 6 9, voxelAt 6 3 6 9,
    voxelAt 7 3 5 9, voxelAt 6 3 5 9, voxelAt 7 4 8 4, voxelAt 7 4 9 4, voxelAt 7 5 8 4,
    voxelAt 7 5 9 4, voxelAt 6 6 8 4, voxelAt 6 6 9 4, voxelAt 5 6 8 4, voxelAt 5 6 9 4,
    voxelAt 4 6 8 4, voxelAt 4 6 9 4, voxelAt (-31) 2 (-8) 8, voxelAt 9 6 (-12) 6,
    voxelAt 9 6 (-11) 6, voxelAt 9 6 (-10) 6, voxelAt 9 6 (-9) 6, voxelAt 7 0 (-3) 4,
    voxelAt 8 0 (-3) 4, voxelAt 7 1 (-3) 4, voxelAt 8 1 (-3) 4, voxelAt (-21) 2 (-8) 6,
    voxelAt 2 4 (-8) 9, voxelAt 2 4 (-7) 9, voxelAt 7 4 (-11) 3, voxelAt 7 4 (-12) 3,
    voxelAt 8 6 (-12) 10, voxelAt 8 6 (-9) 10, voxelAt 8 6 (-11) 10, voxelAt 8 6 (-10) 10]

section Handlers

variable {F : Type} [LinearOrderedField F] [FloorRing F]

/-- The constant `jumpVelocity = 10`. -/
def jumpVelocity : F := 10

/-- The constant `gravity = 40.0f`. -/
def gravity : F := 40.0

/-- The constant `playerHeight = 0.9f`. -/
def playerHeight : F := 0.9

/-- The constant `PI = 3.141592741f`. -/
def PI : F := 3.141592741

/-- The initial values of the file-scope variables, with the cursor position that
`gameOnInit` reads and the lists as `loadScene` creates them (before the pushes). -/
def initialGame (env : Env F) (cursorX cursorY : F) : Game F :=
  { cursorX := cursorX
    cursorY := cursorY
    cameraPos := ⟨0, 10, 0⟩
    cameraDir := ⟨0, 0, -1⟩
    cameraUp := ⟨0, 1, 0⟩
    cameraRight := Vec3.normalize env.sqrt (Vec3.cross ⟨0, 0, -1⟩ ⟨0, 1, 0⟩)
    cameraFoveaDist := 1.5
    cameraPitch := 0
    cameraYaw := 0
    velocityY := 0
    doubleJumpReady := true
    gameMode := .PlayMode
    material := 2
    scene :=
      { planes := GpuSyncedList.create (Plane F) 1
        spheres := GpuSyncedList.create (Sphere F) 3
        voxels := GpuSyncedList.create Voxel 247
        portals := GpuSyncedList.create (Portal F) 2 } }

/-- Model of `loadScene()`: the pushes into the planes, spheres, voxels and portals. -/
def loadScene (env : Env F) (g : Game F) : Game F :=
  { g with
    scene :=
      { planes := GpuSyncedList.push env.grow (GpuSyncedList.create (Plane F) 1)
          { normal := ⟨0, 1, 0⟩, pos := ⟨0, 0, 0⟩, material := 1 }
        spheres :=
          GpuSyncedList.push env.grow
            (GpuSyncedList.push env.grow
              (GpuSyncedList.push env.grow (GpuSyncedList.create (Sphere F) 3)
                { pos := ⟨-0.5, 0.1, -3⟩, radius := 0.5, material := 12 })
              { pos := ⟨0.5, 0.5, -4⟩, radius := 0.7, material := 11 })
            { pos := ⟨0.1, 0.3, -2⟩, radius := 0.3, material := 10 }
        voxels := loadSceneVoxels.foldl (GpuSyncedList.push env.grow)
          (GpuSyncedList.create Voxel 247)
        portals :=
          GpuSyncedList.push env.grow
            (GpuSyncedList.push env.grow (GpuSyncedList.create (Portal F) 2)
              { pos := ⟨1.999, 5.46093, 6.43585⟩, normal := ⟨-1, 0, 0⟩, radius := 0.6 })
            { pos := ⟨-39.999, 7.67798, -4.46772⟩, normal := ⟨1, 0, 0⟩, radius := 0.6 } } }

/-- Model of `gameOnKey(window, key, scancode, action, mods)`. -/
def gameOnKey (key : Key) (action : Action) (g : Game F) : Game F :=
  if action = .press then
    let g1 : Game F :=
      match key with
      | .space =>
        if g.velocityY = 0 then { g with velocityY := jumpVelocity }
        else if g.doubleJumpReady then
          { g with velocityY := jumpVelocity, doubleJumpReady := false }
        else g
      | .p => { g with gameMode := .PlayMode }
      | .b => { g with gameMode := .BuildMode }
      | _ => g
    if g1.gameMode = .BuildMode then
      match key with
      | .digit d => { g1 with material := 1 + d.val }
      | _ => g1
    else g1
  else g

/-- Model of `gameOnMouseMove(window, newX, newY)`. -/
def gameOnMouseMove (env : Env F) (newX newY : F) (g : Game F) : Game F :=
  let dX := newX - g.cursorX
  let dY := newY - g.cursorY
  let sensitivity : F := 0.002
  let cameraPitch := g.cameraPitch - sensitivity * dX
  let cameraYaw := g.cameraYaw - sensitivity * dY
  let cameraYaw :=
    if cameraYaw ≥ 0.99 * PI / 2 then 0.99 * PI / 2
    else if cameraYaw ≤ -0.99 * PI / 2 then -0.99 * PI / 2
    else cameraYaw
  let cameraDir := Vec3.normalize env.sqrt (env.look cameraPitch cameraYaw)
  { g with
    cursorX := newX
    cursorY := newY
    cameraPitch := cameraPitch
    cameraYaw := cameraYaw
    cameraDir := cameraDir
    cameraRight := Vec3.normalize env.sqrt (Vec3.cross cameraDir g.cameraUp) }

/-- Loop state of the right-click search of `gameOnMouseButton`: the locals `closestDist`
and `voxIdx`, and the loop counter `i`. -/
structure VoxelPick (F : Type) where
  closestDist : F
  voxIdx : Nat
  i : Nat

/-- Body of the right-click loop of `gameOnMouseButton` for the voxel `voxels[i]`. -/
def pickStep (r1 : Ray F) (st : VoxelPick F) (voxel : Voxel) : VoxelPick F :=
  let hitDist : F := floatMax
  let d := intersectVoxel r1 voxel
  let st1 :=
    if d > 0 ∧ d < hitDist then
      if st.closestDist > d then { st with closestDist := d, voxIdx := st.i } else st
    else st
  { st1 with i := st.i + 1 }

/-- The right-click search of `gameOnMouseButton`: the final value of `voxIdx`. -/
def pickVoxel (r1 : Ray F) (voxels : GpuSyncedList Voxel) : Nat :=
  (voxels.items.foldl (pickStep r1)
    { closestDist := floatMax, voxIdx := voxels.length, i := 0 }).voxIdx

/-- Model of `gameOnMouseButton(window, button, action, mods)`. -/
def gameOnMouseButton (env : Env F) (button : MouseButton) (action : Action) (g : Game F) :
    Option (Game F) :=
  if action = .press then
    let r1 : Ray F := { pos := g.cameraPos, dir := g.cameraDir }
    let r := trace env.sqrt g.scene env.garbage r1
    match g.gameMode with
    | .PlayMode =>
      let newPortal : Portal F :=
        { pos := r.pos.add (Vec3.lscale rayEpsilon r.dir), normal := r.dir, radius := 0.7 }
      (if button = .left then g.scene.portals.set 0 newPortal
        else some g.scene.portals).bind fun portals1 =>
      (if button = .right then portals1.set 1 newPortal else some portals1).map fun portals2 =>
        { g with scene := { g.scene with portals := portals2 } }
    | .BuildMode =>
      let voxels1 :=
        if button = .left then
          let p := r.pos.add (Vec3.lscale 0.5 r.dir)
          let newV : Voxel :=
            { pos := ⟨toInt32 ⌊p.x⌋, toInt32 ⌊p.y⌋, toInt32 ⌊p.z⌋⟩, material := g.material }
          GpuSyncedList.push env.grow g.scene.voxels newV
        else g.scene.voxels
      (if button = .right then
          let voxIdx := pickVoxel r1 voxels1
          if voxIdx < voxels1.length then voxels1.remove voxIdx else some voxels1
        else some voxels1).map fun voxels2 =>
        { g with scene := { g.scene with voxels := voxels2 } }
  else some g

/-- Model of `gameOnMouseWheel(window, dX, dY)`; `material` is a 32-bit `uint`. -/
def gameOnMouseWheel (dY : F) (g : Game F) : Game F :=
  match g.gameMode with
  | .PlayMode =>
    let delta : F := 1.1
    let fovea := if dY > 0 then g.cameraFoveaDist * delta else g.cameraFoveaDist
    let fovea := if dY < 0 then fovea / delta else fovea
    { g with cameraFoveaDist := fovea }
  | .BuildMode =>
    let material := if dY > 0 then (g.material + 1) % 4294967296 else g.material
    let material := if dY < 0 then (material + 4294967295) % 4294967296 else material
    let material := if material < 1 then 1 else material
    let material := if material > 10 then 10 else material
    { g with material := material }

end Handlers

section Update

variable {F : Type} [LinearOrderedField F] [FloorRing F]

/-- Model of `getClosestPortal(pos)`. -/
def getClosestPortal (env : Env F) (portals : GpuSyncedList (Portal F)) (pos : Vec3 F) :
    Option Nat :=
  (portals.get 0).bind fun P1 =>
  (portals.get 1).map fun P2 =>
    if Vec3.distance env.sqrt P1.pos pos < Vec3.distance env.sqrt P2.pos pos then 0 else 1

/-- The vector `moveDir` of `gameOnUpdate` after the six key tests. -/
def keyMoveDir (input : Input) : Vec3 F :=
  let z : F := 0
  let z := if input.w then z + 1 else z
  let z := if input.s then z - 1 else z
  let x : F := 0
  let x := if input.a then x - 1 else x
  let x := if input.d then x + 1 else x
  let y : F := 0
  let y := if input.leftControl then y - 1 else y
  let y := if input.space then y + 1 else y
  ⟨x, y, z⟩

/-- Unary minus on a vector, `-a`. -/
def Vec3.neg (a : Vec3 F) : Vec3 F := ⟨-a.x, -a.y, -a.z⟩

/-- The teleport block of `gameOnUpdate` (the body of
`if (cameraDistanceToPortal < 0.5f)`). -/
def teleport (env : Env F) (cameraRay : Ray F) (portalIn portalOut : Portal F)
    (cameraDistanceToPortal : F) (g : Game F) : Game F :=
  let portalIn : Portal F :=
    { portalIn with normal := Vec3.neg portalIn.normal }
  let M1 := getPortalMatrix env.sqrt portalIn
  let M2 := getPortalMatrix env.sqrt portalOut
  let cameraPos := cameraRay.pos.add (cameraRay.dir.scale cameraDistanceToPortal)
  let cameraPos := teleportPosition M1 M2 portalIn portalOut cameraPos
  let cameraDir := Vec3.normalize env.sqrt (((Mat3.inverse M2).mul M1).mulVec g.cameraDir)
  let cameraPos := cameraPos.add (cameraRay.dir.scale 0.1)
  let cameraYaw := env.atan cameraDir.y
  let cameraPitch := PI + env.atan2 cameraDir.x cameraDir.z
  let cameraPos := cameraPos.add (portalOut.normal.scale 0.1)
  { g with
    cameraPos := cameraPos
    cameraDir := cameraDir
    cameraYaw := cameraYaw
    cameraPitch := cameraPitch }

/-- The vertical movement block of `gameOnUpdate`
(`if (velocityY > 0) ... else if (velocityY < 0) ...`). -/
def verticalMove (env : Env F) (dt : F) (g : Game F) : Game F :=
  if g.velocityY > 0 then
    { g with
      cameraPos := moveWithCollisionCheck env.sqrt g.scene env.garbage g.cameraPos
        ⟨0, dt * g.velocityY, 0⟩ rayEpsilon }
  else if g.velocityY < 0 then
    let feetPos0 := g.cameraPos.sub ⟨0, playerHeight, 0⟩
    let feetPos1 := moveWithCollisionCheck env.sqrt g.scene env.garbage feetPos0
      ⟨0, dt * g.velocityY, 0⟩ 0.01
    let g1 : Game F := { g with cameraPos := g.cameraPos.add (feetPos1.sub feetPos0) }
    if Vec3.distance env.sqrt feetPos0 feetPos1 < 0.001 then
      { g1 with velocityY := 0, doubleJumpReady := true }
    else g1
  else g

/-- The horizontal movement block of `gameOnUpdate`
(`if (deltaPos.x != 0) ...; if (deltaPos.z != 0) ...`). -/
def horizontalMove (env : Env F) (deltaPos : Vec3 F) (g : Game F) : Game F :=
  let g1 : Game F :=
    if deltaPos.x ≠ 0 then
      { g with
        cameraPos := moveWithCollisionCheck env.sqrt g.scene env.garbage g.cameraPos
          ⟨deltaPos.x, 0, 0⟩ 0.1 }
    else g
  if deltaPos.z ≠ 0 then
    { g1 with
      cameraPos := moveWithCollisionCheck env.sqrt g1.scene env.garbage g1.cameraPos
        ⟨0, 0, deltaPos.z⟩ 0.1 }
  else g1

/-- The head, gravity and ground block of `gameOnUpdate` (from `float headDist` to the end
of the Play-mode branch). -/
def groundCheck (env : Env F) (dt : F) (g : Game F) : Game F :=
  let dist := getDistanceToNearestObject env.sqrt g.scene env.garbage
  let headDist := dist g.cameraPos ⟨0, 1, 0⟩
  let velocityY := if headDist < 0.01 then Min.min 0 g.velocityY else g.velocityY
  let feetDist := dist g.cameraPos ⟨0, -1, 0⟩
  let fallingDist := feetDist
  let edgeTolerance : F := 0.25
  let fallingDist := Min.min fallingDist
    (dist (g.cameraPos.add ⟨-edgeTolerance, 0, -edgeTolerance⟩) ⟨0, -1, 0⟩)
  let fallingDist := Min.min fallingDist
    (dist (g.cameraPos.add ⟨-edgeTolerance, 0, edgeTolerance⟩) ⟨0, -1, 0⟩)
  let fallingDist := Min.min fallingDist
    (dist (g.cameraPos.add ⟨edgeTolerance, 0, -edgeTolerance⟩) ⟨0, -1, 0⟩)
  let fallingDist := Min.min fallingDist
    (dist (g.cameraPos.add ⟨edgeTolerance, 0, edgeTolerance⟩) ⟨0, -1, 0⟩)
  let velocityY := if fallingDist > playerHeight + 0.1 then velocityY - dt * gravity
    else velocityY
  if feetDist < playerHeight then
    { g with
      cameraPos := (g.cameraPos.add (Vec3.lscale feetDist ⟨0, -1, 0⟩)).add ⟨0, playerHeight, 0⟩
      velocityY := Max.max velocityY 0
      doubleJumpReady := true }
  else { g with velocityY := velocityY }

/-- The Play-mode branch of `gameOnUpdate`. -/
def playUpdate (env : Env F) (dt : F) (deltaPos : Vec3 F) (g : Game F) : Option (Game F) :=
  let deltaPos : Vec3 F := ⟨deltaPos.x, 0, deltaPos.z⟩
  let dpos : Vec3 F := ⟨deltaPos.x, g.velocityY * dt, deltaPos.z⟩
  let cameraRay : Ray F := { pos := g.cameraPos, dir := Vec3.normalize env.sqrt dpos }
  (getClosestPortal env g.scene.portals g.cameraPos).bind fun portalInIndex =>
  (g.scene.portals.get portalInIndex).bind fun portalIn =>
  (g.scene.portals.get (1 - portalInIndex)).map fun portalOut =>
    let cameraDistanceToPortal := intersectPortal cameraRay portalIn
    let g1 :=
      if cameraDistanceToPortal < 0.5 then
        teleport env cameraRay portalIn portalOut cameraDistanceToPortal g
      else g
    groundCheck env dt (horizontalMove env deltaPos (verticalMove env dt g1))

/-- The binds of the four primitive lists at the end of `gameOnUpdate`. -/
def bindScene (scene : Scene F) : Option (Scene F) :=
  (scene.planes.bind .shaderStorage 2).bind fun planes =>
  (scene.spheres.bind .shaderStorage 3).bind fun spheres =>
  (scene.voxels.bind .shaderStorage 4).bind fun voxels =>
  (scene.portals.bind .shaderStorage 5).map fun portals =>
    { planes := planes.1, spheres := spheres.1, voxels := voxels.1, portals := portals.1 }

/-- Model of `gameOnUpdate(dt)`, with the polled keys as `input`. -/
def gameOnUpdate (env : Env F) (dt : F) (input : Input) (g : Game F) : Option (Game F) :=
  let moveSpeed := dt * 5
  let moveSpeed := if input.leftShift then moveSpeed * 2.0 else moveSpeed
  let moveDir : Vec3 F := keyMoveDir input
  let moveDir : Vec3 F := if g.gameMode = .PlayMode then ⟨moveDir.x, 0, moveDir.z⟩ else moveDir
  let moveDir :=
    if moveDir ≠ ⟨0, 0, 0⟩ then Vec3.lscale moveSpeed (Vec3.normalize env.sqrt moveDir)
    else moveDir
  let deltaPos :=
    ((Vec3.lscale moveDir.x g.cameraRight).add (Vec3.lscale moveDir.y g.cameraUp)).add
      (Vec3.lscale moveDir.z (Vec3.cross g.cameraUp g.cameraRight))
  (if g.gameMode = .PlayMode then playUpdate env dt deltaPos g
    else some { g with cameraPos := g.cameraPos.add deltaPos }).bind fun g1 =>
  (bindScene g1.scene).map fun scene => { g1 with scene := scene }

/-- The events the game hooks into. -/
inductive Event (F : Type) where
  | key (key : Key) (action : Action)
  | mouseMove (newX newY : F)
  | mouseButton (button : MouseButton) (action : Action)
  | mouseWheel (dY : F)
  | update (dt : F) (input : Input)

/-- The handler of an event. -/
def handle (env : Env F) (e : Event F) (g : Game F) : Option (Game F) :=
  match e with
  | .key k a => some (gameOnKey k a g)
  | .mouseMove x y => some (gameOnMouseMove env x y g)
  | .mouseButton b a => gameOnMouseButton env b a g
  | .mouseWheel dY => some (gameOnMouseWheel dY g)
  | .update dt input => gameOnUpdate env dt input g

/-- The game states reachable from `loadScene` through the event handlers. -/
inductive Playable (env : Env F) : Game F → Prop
  | start (cursorX cursorY : F) : Playable env (loadScene env (initialGame env cursorX cursorY))
  | step {g g' : Game F} (e : Event F) : Playable env g → handle env e g = some g' →
      Playable env g'

end Update

/-- An environment over `ℚ` for running the handlers on examples. Its functions stand in
for the library ones: `sqrt` is the identity (exact at 0 and 1), the angles are not
computed. -/
def exampleEnv : Env ℚ :=
  { sqrt := fun x => x
    atan := fun _ => 0
    atan2 := fun _ _ => 0
    look := fun _ _ => ⟨0, 0, -1⟩
    garbage := ⟨0, 0, 0⟩
    grow := fun c => 2 * c }

/-- The game over `ℚ` after `loadScene`, with the cursor at the origin. -/
def exampleGame : Game ℚ := loadScene exampleEnv (initialGame exampleEnv 0 0)

/-- The local `newPortal` of `gameOnMouseButton`: a disc of radius `0.7` at the point
`trace` returns for the look ray, moved by `rayEpsilon` along the normal it returns. -/
def placedPortal {F : Type} [LinearOrderedField F] [FloorRing F] (env : Env F) (g : Game F) :
    Portal F :=
  { pos := (trace env.sqrt g.scene env.garbage { pos := g.cameraPos, dir := g.cameraDir }).pos.add
      (Vec3.lscale rayEpsilon
        (trace env.sqrt g.scene env.garbage { pos := g.cameraPos, dir := g.cameraDir }).dir)
    normal := (trace env.sqrt g.scene env.garbage { pos := g.cameraPos, dir := g.cameraDir }).dir
    radius := 0.7 }

/-! ## The landing scenario -/

section Landing

variable {F : Type} [LinearOrderedField F] [FloorRing F]

/-- The scene of the landing scenario: the ground plane `y = 0` and the two portals that
`loadScene` pushes, no sphere and no voxel. -/
def landingScene (grow : Nat → Nat) : Scene F :=
  { planes := GpuSyncedList.push grow (GpuSyncedList.create (Plane F) 1)
      { normal := ⟨0, 1, 0⟩, pos := ⟨0, 0, 0⟩, material := 1 }
    spheres := GpuSyncedList.create (Sphere F) 3
    voxels := GpuSyncedList.create Voxel 247
    portals :=
      GpuSyncedList.push grow
        (GpuSyncedList.push grow (GpuSyncedList.create (Portal F) 2)
          { pos := ⟨1.999, 5.46093, 6.43585⟩, normal := ⟨-1, 0, 0⟩, radius := 0.6 })
        { pos := ⟨-39.999, 7.67798, -4.46772⟩, normal := ⟨1, 0, 0⟩, radius := 0.6 } }

/-- The start of the landing scenario: the initial game (Play mode, camera at
`(0, 10, 0)`) in `landingScene`, with the given vertical velocity. -/
def landingGame (env : Env F) (velocityY : F) : Game F :=
  { initialGame env 0 0 with velocityY := velocityY, scene := landingScene env.grow }

/-- No key held down. -/
def noInput : Input :=
  { leftShift := false, w := false, s := false, a := false, d := false, leftControl := false,
    space := false }

/-- The game after `n` calls of `gameOnUpdate(dt)` without input. -/
def ticks (env : Env F) (dt : F) : Nat → Game F → Option (Game F)
  | 0, g => some g
  | n + 1, g => (ticks env dt n g).bind (gameOnUpdate env dt noInput)

/-- The height of the player's feet: camera `y` minus `playerHeight`. -/
def feetHeight (g : Game F) : F := g.cameraPos.y - playerHeight

/-- Invariant of the landing scenario for `dt = 0.001` and `velocityY = -0.04`: the player
either falls at `-0.04` above camera height `1`, or hangs still just below it. -/
def SlowFall (g : Game F) : Prop :=
  g.gameMode = .PlayMode ∧
  g.scene.planes.items = [{ normal := ⟨0, 1, 0⟩, pos := ⟨0, 0, 0⟩, material := 1 }] ∧
  g.scene.spheres.items = [] ∧ g.scene.voxels.items = [] ∧
  g.scene.portals.items =
    [{ pos := ⟨1.999, 5.46093, 6.43585⟩, normal := ⟨-1, 0, 0⟩, radius := 0.6 },
      { pos := ⟨-39.999, 7.67798, -4.46772⟩, normal := ⟨1, 0, 0⟩, radius := 0.6 }] ∧
  g.scene.planes.Inv ∧ g.scene.spheres.Inv ∧ g.scene.voxels.Inv ∧ g.scene.portals.Inv ∧
  ((1 < g.cameraPos.y ∧ g.cameraPos.y ≤ 10 ∧ g.velocityY = -0.04) ∨
    (0.99996 < g.cameraPos.y ∧ g.cameraPos.y ≤ 1 ∧ g.velocityY = 0))

end Landing

/-- The four primitive lists of a scene satisfy the representation invariant. -/
def Scene.Inv {F : Type} (s : Scene F) : Prop :=
  s.planes.Inv ∧ s.spheres.Inv ∧ s.voxels.Inv ∧ s.portals.Inv

/-! ## Locals of the voxel `intersect` -/

section VoxelLocals

variable {F : Type} [LinearOrderedField F]

/-- The local `dmin` of `intersect(Ray, Voxel)`: the largest of the three slab entry
parameters. -/
def voxelDmin (r : Ray F) (v : Voxel) : F :=
  let epsilon : F := 0.001
  let dx := if r.dir.x = 0 then epsilon else r.dir.x
  let dy := if r.dir.y = 0 then epsilon else r.dir.y
  let dz := if r.dir.z = 0 then epsilon else r.dir.z
  let dir : Vec3 F := ⟨dx, dy, dz⟩
  let invDir := Vec3.scalarDiv 1 dir
  let ld := ((IVec3.toVec3 v.pos).sub r.pos).mul invDir
  let rd := (((IVec3.toVec3 v.pos).sub r.pos).mul invDir).add invDir
  let mind := Vec3.min ld rd
  Max.max (Max.max mind.x mind.y) mind.z

/-- The local `dmax` of `intersect(Ray, Voxel)`: the smallest of the three slab exit
parameters. -/
def voxelDmax (r : Ray F) (v : Voxel) : F :=
  let epsilon : F := 0.001
  let dx := if r.dir.x = 0 then epsilon else r.dir.x
  let dy := if r.dir.y = 0 then epsilon else r.dir.y
  let dz := if r.dir.z = 0 then epsilon else r.dir.z
  let dir : Vec3 F := ⟨dx, dy, dz⟩
  let invDir := Vec3.scalarDiv 1 dir
  let ld := ((IVec3.toVec3 v.pos).sub r.pos).mul invDir
  let rd := (((IVec3.toVec3 v.pos).sub r.pos).mul invDir).add invDir
  let maxd := Vec3.max ld rd
  Min.min (Min.min maxd.x maxd.y) maxd.z

end VoxelLocals

/-! ## Voxel faces -/

section VoxelFaces

variable {F : Type} [LinearOrderedField F] [FloorRing F]

/-- The vector `hitPos - vec3(voxel.pos) - 0.5f` of `trace`: the offset of a point from the
centre of the voxel's cube. A point of the cube has all three components in `[-0.5, 0.5]`,
and lies on the face with outward normal `+x` exactly when the `x` component is `0.5`. -/
def Voxel.centreOffset (v : Voxel) (hitPos : Vec3 F) : Vec3 F :=
  (hitPos.sub (IVec3.toVec3 v.pos)).subScalar 0.5

/-- A ray that enters the voxel at the origin through the point `(1, 0.99999, 0.5)` of its
face `x = 1`, at the parameter `1`. -/
def nearEdgeRay : Ray F := { pos := ⟨2, 1.99999, 1.5⟩, dir := ⟨-1, -1, -1⟩ }

/-- A scene holding one voxel, at the origin, and nothing else. -/
def oneVoxelScene : Scene F :=
  { planes := GpuSyncedList.create (Plane F) 1
    spheres := GpuSyncedList.create (Sphere F) 3
    voxels := GpuSyncedList.push (fun c => 2 * c) (GpuSyncedList.create Voxel 1)
      { pos := ⟨0, 0, 0⟩, material := 2 }
    portals := GpuSyncedList.create (Portal F) 2 }

end VoxelFaces

/-! ## Two portals on one wall -/

section SameWall

variable {F : Type} [LinearOrderedField F] [FloorRing F]

/-- An environment with the given `sqrt`; its other functions are stand-ins (the angles are
not computed, the look direction is fixed). -/
def Env.ofSqrt (sqrt : F → F) : Env F :=
  { sqrt := sqrt
    atan := fun _ => 0
    atan2 := fun _ _ => 0
    look := fun _ _ => ⟨0, 0, -1⟩
    garbage := ⟨0, 0, 0⟩
    grow := fun c => 2 * c }

/-- A portal on the wall `x = 0`, facing `+x`, its centre at the height `0.95`. -/
def wallPortalA : Portal F := { pos := ⟨0, 0.95, 0⟩, normal := ⟨1, 0, 0⟩, radius := 0.7 }

/-- A second portal on the same wall, facing `+x`, its centre at `(0, 0.95, 5)`. -/
def wallPortalB : Portal F := { pos := ⟨0, 0.95, 5⟩, normal := ⟨1, 0, 0⟩, radius := 0.7 }

/-- The scene of the walking scenario: the ground plane `y = 0`, no sphere, no voxel, and
the two portals `wallPortalA` and `wallPortalB`. -/
def wallScene (grow : Nat → Nat) : Scene F :=
  { planes := GpuSyncedList.push grow (GpuSyncedList.create (Plane F) 1)
      { normal := ⟨0, 1, 0⟩, pos := ⟨0, 0, 0⟩, material := 1 }
    spheres := GpuSyncedList.create (Sphere F) 3
    voxels := GpuSyncedList.create Voxel 247
    portals :=
      GpuSyncedList.push grow
        (GpuSyncedList.push grow (GpuSyncedList.create (Portal F) 2) wallPortalA)
        wallPortalB }

/-- The start of the walking scenario: Play mode, the camera at `(0.15, 0.95, 0.2)` with no
vertical velocity, looking along the unit direction `(-0.6, 0, -0.8)` into `wallPortalA`,
whose centre is `0.25` ahead; `cameraRight` is `normalize(cross(cameraDir, cameraUp))`, as
`gameOnMouseMove` sets it. -/
def walkGame (env : Env F) : Game F :=
  { initialGame env 0 0 with
    cameraPos := ⟨0.15, 0.95, 0.2⟩
    cameraDir := ⟨-0.6, 0, -0.8⟩
    cameraRight := ⟨0.8, 0, -0.6⟩
    scene := wallScene env.grow }

/-- The key `W` held down, no other key. -/
def walkInput : Input :=
  { leftShift := false, w := true, s := false, a := false, d := false, leftControl := false,
    space := false }

/-- The part of the state that the walking scenario keeps from tick to tick: Play mode, no
vertical velocity, the movement basis `cameraUp`, `cameraRight` of `walkGame`, and the lists
of `wallScene`. -/
def Walking (g : Game F) : Prop :=
  g.gameMode = .PlayMode ∧ g.velocityY = 0 ∧
  g.cameraUp = ⟨0, 1, 0⟩ ∧ g.cameraRight = ⟨0.8, 0, -0.6⟩ ∧
  g.scene.planes.items = [{ normal := ⟨0, 1, 0⟩, pos := ⟨0, 0, 0⟩, material := 1 }] ∧
  g.scene.spheres.items = [] ∧ g.scene.voxels.items = [] ∧
  g.scene.portals.items = [wallPortalA, wallPortalB] ∧
  g.scene.planes.Inv ∧ g.scene.spheres.Inv ∧ g.scene.voxels.Inv ∧ g.scene.portals.Inv

end SameWall

/-! ## Points inside a face of a voxel -/

section FacePoints

variable {F : Type} [LinearOrderedField F] [FloorRing F]

/-- The coordinate offset `o` (from the cube centre) of a point strictly inside the face
with outward normal `n`, on one axis: `0.5` along a normal component `1`, `-0.5` along a
normal component `-1`, strictly between `-0.5` and `0.5` on an axis the normal is zero on. -/
def faceCoordinate (n : Int) (o : F) : Prop :=
  (n = 1 ∧ o = 0.5) ∨ (n = -1 ∧ o = -0.5) ∨ (n = 0 ∧ -0.5 < o ∧ o < 0.5)

/-- The point `x` lies strictly inside the face of the voxel's cube whose outward normal is
the axis-aligned unit vector `n` (one component `1` or `-1`, the other two `0`): on the
face's plane, and off its edges and corners. -/
def Voxel.StrictlyInsideFace (v : Voxel) (n : IVec3) (x : Vec3 F) : Prop :=
  n.x * n.x + n.y * n.y + n.z * n.z = 1 ∧
  faceCoordinate n.x (v.centreOffset x).x ∧
  faceCoordinate n.y (v.centreOffset x).y ∧
  faceCoordinate n.z (v.centreOffset x).z

end FacePoints

/-- The landing scenario at `velocityY = -0.04` with the double jump used up. -/
def fallingGame {F : Type} [LinearOrderedField F] [FloorRing F] (env : Env F) : Game F :=
  { landingGame env (-0.04) with doubleJumpReady := false }

/-! ## Build-mode scenarios over `ℚ` -/

/-- A Build-mode game over the bare ground plane, the camera at `(0, 10, 0)` looking along
`(0, 0, -1)`: the look ray meets nothing. -/
def skyClickGame : Game ℚ :=
  { landingGame exampleEnv 0 with gameMode := .BuildMode }

/-- A Build-mode game with one voxel, at the origin, the camera at `(0.5, 5, 0.5)` looking
straight down onto its top face. -/
def stackGame : Game ℚ :=
  { initialGame exampleEnv 0 0 with
    gameMode := .BuildMode
    cameraPos := ⟨0.5, 5, 0.5⟩
    cameraDir := ⟨0, -1, 0⟩
    scene := oneVoxelScene }

end PaintedPortal


/-! ## Lemmas on the helpers -/

namespace PaintedPortal

namespace GpuSyncedList

variable {T : Type}

theorem fillBits_length (idxs : List Nat) (v : Bool) (bits : List Bool) :
    (fillBits idxs v bits).length = bits.length := by
  induction idxs generalizing bits with
  | nil => rfl
  | cons i is ih =>
    show (fillBits is v (bits.set i v)).length = bits.length
    rw [ih, List.length_set]

theorem fillBits_getElem? (idxs : List Nat) (v : Bool) (bits : List Bool) (j : Nat) :
    (fillBits idxs v bits)[j]? = if j ∈ idxs ∧ j < bits.length then some v else bits[j]? := by
  induction idxs generalizing bits with
  | nil => simp [fillBits]
  | cons i is ih =>
    show (fillBits is v (bits.set i v))[j]? = _
    rw [ih, List.length_set, List.getElem?_set]
    by_cases hj : j < bits.length
    · by_cases hm : j ∈ is
      · simp [hm, hj]
      · by_cases hi : i = j
        · subst hi; simp [hm, hj]
        · have hji : ¬ j = i := fun h => hi h.symm
          simp [hm, hj, hi, hji]
    · have hnone : bits[j]? = none := List.getElem?_eq_none (Nat.le_of_not_lt hj)
      by_cases hi : i = j
      · subst hi; simp [hj, hnone]
      · simp [hj, hi]

theorem updateGpuBuffer_eq_some {buffer : List (Option T)} {start : Nat} {data : List T}
    (h : start + data.length ≤ buffer.length) :
    ∃ b, updateGpuBuffer buffer start data = some b ∧ b.length = buffer.length ∧
      ∀ j, b[j]? = if start ≤ j ∧ j < start + data.length then (data[j - start]?).map some
                   else buffer[j]? := by
  refine ⟨_, if_pos h, ?_, ?_⟩
  · simp only [List.length_append, List.length_take, List.length_map, List.length_drop]
    omega
  · intro j
    have hlen : (List.take start buffer).length = start := by
      rw [List.length_take]; omega
    by_cases h1 : j < start
    · rw [List.append_assoc, List.getElem?_append_left (by omega),
        List.getElem?_take_of_lt h1, if_neg (by omega)]
    · by_cases h2 : j < start + data.length
      · rw [List.getElem?_append_left
            (by rw [List.length_append, List.length_map, hlen]; exact h2),
          List.getElem?_append_right (by omega), hlen, List.getElem?_map,
          if_pos ⟨by omega, h2⟩]
      · rw [List.getElem?_append_right
            (by rw [List.length_append, List.length_map, hlen]; omega),
          List.length_append, List.length_map, hlen, List.getElem?_drop,
          if_neg (by omega)]
        congr 1
        omega

theorem bindLoopBody_start {items : List T} {st : BindLoop T} {i : Nat}
    (hdirty : (if i < items.length then st.dirtyBits.getD i false else false) = true)
    (hstart : st.startIdx < 0) :
    bindLoopBody items st i = some { st with startIdx := (i : Int) } := by
  unfold bindLoopBody
  simp only [hdirty, decide_eq_true hstart, Bool.and_self, if_true]

theorem bindLoopBody_run {items : List T} {st : BindLoop T} {i : Nat}
    (hdirty : (if i < items.length then st.dirtyBits.getD i false else false) = true)
    (hstart : ¬ st.startIdx < 0) :
    bindLoopBody items st i = some st := by
  unfold bindLoopBody
  simp only [hdirty, decide_eq_false hstart, Bool.and_false, Bool.not_true, Bool.false_and,
    Bool.false_eq_true, if_false]

theorem bindLoopBody_idle {items : List T} {st : BindLoop T} {i : Nat}
    (hdirty : (if i < items.length then st.dirtyBits.getD i false else false) = false)
    (hstart : ¬ st.startIdx ≥ 0) :
    bindLoopBody items st i = some st := by
  unfold bindLoopBody
  simp only [hdirty, decide_eq_false hstart, Bool.false_and, Bool.and_false,
    Bool.false_eq_true, if_false]

theorem bindLoopBody_flush {items : List T} {st : BindLoop T} {i : Nat}
    (hdirty : (if i < items.length then st.dirtyBits.getD i false else false) = false)
    (hstart : st.startIdx ≥ 0) :
    bindLoopBody items st i =
      (updateGpuBuffer st.gpuBuffer st.startIdx.toNat
          ((items.drop st.startIdx.toNat).take (i - st.startIdx.toNat))).map fun buffer =>
        { st with
          gpuBuffer := buffer
          calls := st.calls ++ [.update st.startIdx.toNat (i - st.startIdx.toNat)]
          dirtyBits := fillBits
            ((List.range (i - st.startIdx.toNat)).map fun j => st.startIdx.toNat + j) false
            st.dirtyBits } := by
  unfold bindLoopBody
  simp only [hdirty, decide_eq_true hstart, Bool.false_and, Bool.not_false, Bool.and_self,
    Bool.false_eq_true, if_false, if_true]

theorem bindLoopBody_inv {items : List T} {d0 : List Bool} {b0 : List (Option T)} {k : Nat}
    {st : BindLoop T} (hd : d0.length = items.length) (hb : items.length ≤ b0.length)
    (hk : k ≤ items.length) (inv : BindInv items d0 b0 k st) :
    ∃ st', bindLoopBody items st k = some st' ∧ BindInv items d0 b0 (k + 1) st' := by
  obtain ⟨hdl, hbl, hcase⟩ := inv
  rcases hcase with ⟨hs, hdd, hbb, hcc, hclean⟩ | ⟨f, m, hs, hfm, hmn, hmk, hfk, hfn, hend, hlow,
      hf, hbuf, hbits, hcalls⟩
  · -- no dirty flag met so far
    cases hdy : (if k < items.length then st.dirtyBits.getD k false else false) with
    | true =>
      have hkn : k < items.length := by
        by_contra hc; rw [if_neg hc] at hdy; exact Bool.noConfusion hdy
      rw [if_pos hkn, hdd] at hdy
      refine ⟨{ st with startIdx := (k : Int) }, ?_, hdl, hbl, Or.inr ⟨k, k, rfl, le_refl _,
        le_of_lt hkn, Nat.le_succ _, Nat.lt_succ_self _, hkn, fun h => by omega,
        fun j hj => hclean j hj (by omega), hdy, ?_, ?_, ?_⟩⟩
      · exact bindLoopBody_start (by rw [if_pos hkn, hdd]; exact hdy) (by rw [hs]; omega)
      · intro j
        have : ¬ (k ≤ j ∧ j < k) := by omega
        simp [this, hbb]
      · intro j
        have : ¬ (k ≤ j ∧ j < k) := by omega
        simp [this, hdd]
      · intro c hc
        simp [hcc] at hc
    | false =>
      refine ⟨st, ?_, hdl, hbl, Or.inl ⟨hs, hdd, hbb, hcc, ?_⟩⟩
      · exact bindLoopBody_idle hdy (by rw [hs]; omega)
      · intro j hj hjn
        by_cases hjk : j < k
        · exact hclean j hjk hjn
        · have hjk' : j = k := by omega
          subst hjk'
          rw [if_pos hjn, hdd] at hdy
          exact hdy
  · -- `startIdx` holds the first dirty index `f`
    have hsnn : ¬ st.startIdx < 0 := by rw [hs]; omega
    have hsge : st.startIdx ≥ 0 := by rw [hs]; omega
    cases hdy : (if k < items.length then st.dirtyBits.getD k false else false) with
    | true =>
      have hkn : k < items.length := by
        by_contra hc; rw [if_neg hc] at hdy; exact Bool.noConfusion hdy
      refine ⟨st, ?_, hdl, hbl, Or.inr ⟨f, m, hs, hfm, hmn, by omega, by omega, hfn,
        fun h => by omega, hlow, hf, hbuf, hbits, hcalls⟩⟩
      exact bindLoopBody_run hdy hsnn
    | false =>
      have hlen : ((items.drop f).take (k - f)).length = k - f := by
        rw [List.length_take, List.length_drop]; omega
      have hfit : f + ((items.drop f).take (k - f)).length ≤ st.gpuBuffer.length := by
        rw [hlen, hbl]; omega
      obtain ⟨b, hb1, hb2, hb3⟩ := updateGpuBuffer_eq_some hfit
      refine ⟨{ st with
          gpuBuffer := b
          calls := st.calls ++ [.update f (k - f)]
          dirtyBits := fillBits ((List.range (k - f)).map fun j => f + j) false st.dirtyBits },
        ?_, ?_, ?_, Or.inr ⟨f, k, hs, by omega, hk, Nat.le_succ _, by omega, hfn,
          fun h => by omega, hlow, hf, ?_, ?_, ?_⟩⟩
      · rw [bindLoopBody_flush hdy hsge]
        have htn : st.startIdx.toNat = f := by rw [hs]; rfl
        rw [htn, hb1]
        rfl
      · show (fillBits _ false st.dirtyBits).length = d0.length
        rw [fillBits_length, hdl]
      · show b.length = b0.length
        rw [hb2, hbl]
      · intro j
        show b[j]? = _
        rw [hb3 j, hlen]
        by_cases hj : f ≤ j ∧ j < k
        · have hj' : f ≤ j ∧ j < f + (k - f) := by omega
          rw [if_pos hj', if_pos hj, List.getElem?_take_of_lt (by omega), List.getElem?_drop]
          congr 2
          omega
        · have hj' : ¬ (f ≤ j ∧ j < f + (k - f)) := by omega
          have hj'' : ¬ (f ≤ j ∧ j < m) := by omega
          rw [if_neg hj', if_neg hj, hbuf j, if_neg hj'']
      · intro j
        show (fillBits _ false st.dirtyBits)[j]? = _
        rw [fillBits_getElem?]
        by_cases hj : f ≤ j ∧ j < k
        · have hmem : j ∈ (List.range (k - f)).map (fun j => f + j) := by
            rw [List.mem_map]
            exact ⟨j - f, List.mem_range.mpr (by omega), by omega⟩
          rw [if_pos ⟨hmem, by omega⟩, if_pos hj]
        · have hmem : ¬ j ∈ (List.range (k - f)).map (fun j => f + j) := by
            rw [List.mem_map]
            rintro ⟨a, ha, rfl⟩
            have := List.mem_range.mp ha
            omega
          have hj'' : ¬ (f ≤ j ∧ j < m) := by omega
          rw [if_neg (fun h => hmem h.1), if_neg hj, hbits j, if_neg hj'']
      · intro c hc
        rcases List.mem_append.mp hc with hc | hc
        · exact hcalls c hc
        · rw [List.mem_singleton] at hc
          exact ⟨k, hc, by omega, hk⟩

theorem bindLoop_inv {items : List T} {d0 : List Bool} {b0 : List (Option T)}
    (hd : d0.length = items.length) (hb : items.length ≤ b0.length) :
    ∀ k, k ≤ items.length + 1 →
      ∃ st, (List.range k).foldlM (bindLoopBody items)
          { startIdx := -1, dirtyBits := d0, gpuBuffer := b0, calls := [] } = some st ∧
        BindInv items d0 b0 k st := by
  intro k
  induction k with
  | zero =>
    intro _
    exact ⟨_, rfl, rfl, rfl, Or.inl ⟨rfl, rfl, rfl, rfl, fun j hj => absurd hj (Nat.not_lt_zero j)⟩⟩
  | succ k ih =>
    intro hk
    obtain ⟨st, hst, hinv⟩ := ih (by omega)
    obtain ⟨st', hst', hinv'⟩ := bindLoopBody_inv hd hb (by omega) hinv
    refine ⟨st', ?_, hinv'⟩
    rw [List.range_succ, List.foldlM_append, hst]
    show (bindLoopBody items st k).bind _ = _
    rw [hst']
    rfl

theorem bindLoop_final {items : List T} {d0 : List Bool} {b0 : List (Option T)}
    (hd : d0.length = items.length) (hb : items.length ≤ b0.length) :
    ∃ st, (List.range (items.length + 1)).foldlM (bindLoopBody items)
        { startIdx := -1, dirtyBits := d0, gpuBuffer := b0, calls := [] } = some st ∧
      st.dirtyBits = List.replicate items.length false ∧
      st.gpuBuffer.length = b0.length ∧
      (∀ j, j < items.length → (∃ f, f ≤ j ∧ d0.getD f false = true) →
        st.gpuBuffer[j]? = (items[j]?).map some) ∧
      (∀ j, (items.length ≤ j ∨ ∀ f, f ≤ j → d0.getD f false = false) →
        st.gpuBuffer[j]? = b0[j]?) ∧
      (∀ c ∈ st.calls, ∃ a e, c = GpuCall.update a (e - a) ∧ a < e ∧ e ≤ items.length) := by
  obtain ⟨st, hst, hdl, hbl, hcase⟩ := bindLoop_inv hd hb (items.length + 1) (le_refl _)
  rcases hcase with ⟨_, hdd, hbb, hcc, hclean⟩ | ⟨f, m, _, _, _, _, _, hfn, hend, hlow,
      hf, hbuf, hbits, hcalls⟩
  · refine ⟨st, hst, ?_, hbl, ?_, ?_, ?_⟩
    · apply List.ext_getElem?
      intro j
      rw [hdd, List.getElem?_replicate]
      by_cases hj : j < items.length
      · have h1 := hclean j (by omega) hj
        rw [List.getD_eq_getElem?_getD] at h1
        have h2 : j < d0.length := by omega
        rw [if_pos hj, List.getElem?_eq_getElem h2] at *
        simpa using h1
      · rw [if_neg hj, List.getElem?_eq_none (by omega)]
    · rintro j hj ⟨f, hfj, hfd⟩
      rw [hclean f (by omega) (by omega)] at hfd
      exact Bool.noConfusion hfd
    · intro j _
      rw [hbb]
    · intro c hc
      rw [hcc] at hc
      exact absurd hc (List.not_mem_nil c)
  · have hm : m = items.length := hend (Nat.lt_succ_self _)
    subst hm
    refine ⟨st, hst, ?_, hbl, ?_, ?_, ?_⟩
    · apply List.ext_getElem?
      intro j
      rw [hbits j, List.getElem?_replicate]
      by_cases hj : j < items.length
      · by_cases hfj : f ≤ j
        · rw [if_pos ⟨hfj, hj⟩, if_pos hj]
        · have h1 := hlow j (by omega)
          rw [List.getD_eq_getElem?_getD] at h1
          have h2 : j < d0.length := by omega
          rw [if_neg (fun h => hfj h.1), if_pos hj, List.getElem?_eq_getElem h2] at *
          simpa using h1
      · rw [if_neg (fun h => hj h.2), if_neg hj, List.getElem?_eq_none (by omega)]
    · rintro j hj ⟨g, hgj, hgd⟩
      have hfg : f ≤ g := by
        by_contra hc
        rw [hlow g (by omega)] at hgd
        exact Bool.noConfusion hgd
      rw [hbuf j, if_pos ⟨by omega, hj⟩]
    · intro j hj
      rw [hbuf j, if_neg]
      rintro ⟨h1, h2⟩
      rcases hj with hj | hj
      · omega
      · rw [hj f h1] at hf
        exact Bool.noConfusion hf
    · intro c hc
      obtain ⟨e, he, h1, h2⟩ := hcalls c hc
      exact ⟨f, e, he, h1, h2⟩

/-! ## `bind` -/

theorem sync_grow {l : GpuSyncedList T} (hcap : l.gpuBufferCapacity < l.itemsCapacity)
    (hfit : l.items.length ≤ l.itemsCapacity) :
    ∃ b, sync l = some ({ l with
          gpuBuffer := b
          gpuBufferCapacity := l.itemsCapacity
          dirtyBits := List.replicate l.items.length false },
        [.recreate l.itemsCapacity, .update 0 l.items.length]) ∧
      b.length = l.itemsCapacity ∧
      ∀ j, j < l.items.length → b[j]? = (l.items[j]?).map some := by
  have hlen : (recreateGpuBuffer T l.itemsCapacity).length = l.itemsCapacity :=
    List.length_replicate _ _
  have hfit' : 0 + l.items.length ≤ (recreateGpuBuffer T l.itemsCapacity).length := by
    rw [hlen]; omega
  obtain ⟨b, hb1, hb2, hb3⟩ := updateGpuBuffer_eq_some hfit'
  refine ⟨b, ?_, by rw [hb2, hlen], ?_⟩
  · unfold sync
    rw [if_pos hcap, hb1]
    rfl
  · intro j hj
    rw [hb3 j, if_pos ⟨Nat.zero_le _, by omega⟩]
    rfl

theorem sync_scan {l : GpuSyncedList T} (hcap : ¬ l.gpuBufferCapacity < l.itemsCapacity)
    (hd : l.dirtyBits.length = l.items.length) (hb : l.items.length ≤ l.gpuBuffer.length) :
    ∃ st : BindLoop T,
      sync l = some ({ l with gpuBuffer := st.gpuBuffer, dirtyBits := st.dirtyBits }, st.calls) ∧
      st.dirtyBits = List.replicate l.items.length false ∧
      st.gpuBuffer.length = l.gpuBuffer.length ∧
      (∀ j, j < l.items.length → (∃ f, f ≤ j ∧ l.dirtyBits.getD f false = true) →
        st.gpuBuffer[j]? = (l.items[j]?).map some) ∧
      (∀ j, (l.items.length ≤ j ∨ ∀ f, f ≤ j → l.dirtyBits.getD f false = false) →
        st.gpuBuffer[j]? = l.gpuBuffer[j]?) ∧
      (∀ c ∈ st.calls, ∃ a e, c = GpuCall.update a (e - a) ∧ a < e ∧ e ≤ l.items.length) := by
  obtain ⟨st, hst, h1, h2, h3, h4, h5⟩ := bindLoop_final hd hb
  refine ⟨st, ?_, h1, h2, h3, h4, h5⟩
  unfold sync
  rw [if_neg hcap, hst]
  rfl

theorem getD_false_of_getElem? {bits : List Bool} {i : Nat} (h : bits[i]? = some false) :
    bits.getD i false = false := by
  rw [List.getD_eq_getElem?_getD, h]
  rfl

theorem getElem?_of_getD_false {bits : List Bool} {i : Nat} (hi : i < bits.length)
    (h : bits.getD i false = false) : bits[i]? = some false := by
  rw [List.getD_eq_getElem?_getD, List.getElem?_eq_getElem hi] at h
  rw [List.getElem?_eq_getElem hi]
  exact congrArg some h

theorem getD_cases (bits : List Bool) (i : Nat) :
    bits.getD i false = true ∨ bits.getD i false = false := by
  cases bits.getD i false
  · exact Or.inr rfl
  · exact Or.inl rfl

/-- What the synchronisation part of `bind` achieves from a consistent list. -/
theorem sync_spec {l : GpuSyncedList T} (hinv : Inv l) :
    ∃ l' calls, sync l = some (l', calls) ∧ l'.items = l.items ∧
      l'.itemsCapacity = l.itemsCapacity ∧
      l'.dirtyBits = List.replicate l.items.length false ∧
      l'.gpuBuffer.length = l'.gpuBufferCapacity ∧
      l'.itemsCapacity ≤ l'.gpuBufferCapacity ∧
      (∀ i, i < l.items.length → l'.gpuBuffer[i]? = (l.items[i]?).map some) := by
  obtain ⟨hd, hfit, hbc, hclean⟩ := hinv
  by_cases hcap : l.gpuBufferCapacity < l.itemsCapacity
  · obtain ⟨b, hs, hbl, hbm⟩ := sync_grow hcap hfit
    exact ⟨_, _, hs, rfl, rfl, rfl, hbl, le_refl _, hbm⟩
  · have hb : l.items.length ≤ l.gpuBuffer.length := by omega
    obtain ⟨st, hs, hdb, hbl, hup, hkeep, _⟩ := sync_scan hcap hd hb
    refine ⟨_, _, hs, rfl, rfl, hdb, ?_, ?_, ?_⟩
    · show st.gpuBuffer.length = l.gpuBufferCapacity
      rw [hbl, hbc]
    · show l.itemsCapacity ≤ l.gpuBufferCapacity
      omega
    · intro i hi
      show st.gpuBuffer[i]? = _
      by_cases hex : ∃ f, f ≤ i ∧ l.dirtyBits.getD f false = true
      · exact hup i hi hex
      · have hall : ∀ f, f ≤ i → l.dirtyBits.getD f false = false := by
          intro f hf
          rcases getD_cases l.dirtyBits f with h | h
          · exact absurd ⟨f, hf, h⟩ hex
          · exact h
        rw [hkeep i (Or.inr hall)]
        exact hclean i hi (getElem?_of_getD_false (by omega) (hall i (le_refl _)))

theorem bind_of_sync {l l' : GpuSyncedList T} {calls : List GpuCall} {slot : BufferSlot}
    (binding : Int) (hs : sync l = some (l', calls)) (hslot : slot.indexed = true) :
    bind slot binding l = some (l', calls ++
      if 0 < l'.items.length then [GpuCall.bindRange binding 0 l'.items.length] else []) := by
  unfold bind
  rw [hs]
  show (if 0 < l'.items.length then _ else _) = _
  by_cases hn : 0 < l'.items.length
  · rw [if_pos hn, if_pos hn]
    unfold bindGpuBufferRange
    rw [if_pos hslot]
    rfl
  · rw [if_neg hn, if_neg hn, List.append_nil]

theorem sync_of_bind {l l' : GpuSyncedList T} {calls : List GpuCall} {slot : BufferSlot}
    {binding : Int} (hb : bind slot binding l = some (l', calls)) :
    ∃ calls0, sync l = some (l', calls0) := by
  unfold bind at hb
  cases hs : sync l with
  | none => rw [hs] at hb; exact Option.noConfusion hb
  | some r =>
    rw [hs] at hb
    change (if 0 < r.1.items.length then _ else _) = _ at hb
    by_cases hn : 0 < r.1.items.length
    · rw [if_pos hn] at hb
      cases hc : bindGpuBufferRange slot binding 0 r.1.items.length with
      | none => rw [hc] at hb; exact Option.noConfusion hb
      | some c =>
        rw [hc] at hb
        have h : r.1 = l' := congrArg Prod.fst (Option.some.inj hb)
        exact ⟨r.2, by rw [← h]⟩
    · rw [if_neg hn] at hb
      have h := Option.some.inj hb
      exact ⟨calls, by rw [h]⟩

/-! ## The list operations -/

theorem pop_eq {l : GpuSyncedList T} (h : 0 < l.items.length) :
    ∃ item, l.items = l.items.dropLast ++ [item] ∧
      pop l = some (item,
        { l with items := l.items.dropLast, dirtyBits := l.dirtyBits.dropLast }) := by
  have hlast : l.items.getLast? = some (l.items[l.items.length - 1]) := by
    rw [List.getLast?_eq_getElem?]
    exact List.getElem?_eq_getElem (by omega)
  refine ⟨l.items[l.items.length - 1], ?_, ?_⟩
  · exact (List.dropLast_append_getLast? _ (by rw [hlast]; rfl)).symm
  · unfold pop
    rw [if_pos h, hlast]
    rfl

theorem pop_none {l : GpuSyncedList T} (h : ¬ 0 < l.items.length) : pop l = none := by
  unfold pop
  rw [if_neg h]

theorem remove_eq {l : GpuSyncedList T} {index : Nat} (h : index < l.items.length) :
    remove l index = some { l with
      items := l.items.eraseIdx index
      dirtyBits := fillBits
        (List.range' index ((l.items.eraseIdx index).length - index)) true
        l.dirtyBits.dropLast } := by
  unfold remove
  rw [if_pos h]

theorem remove_none {l : GpuSyncedList T} {index : Nat} (h : ¬ index < l.items.length) :
    remove l index = none := by
  unfold remove
  rw [if_neg h]

theorem set_eq {l : GpuSyncedList T} {index : Nat} (item : T) (h : index < l.items.length) :
    set l index item = some { l with
      items := l.items.set index item
      dirtyBits := l.dirtyBits.set index true } := by
  unfold set subscript
  rw [if_pos h]
  rfl

theorem set_none {l : GpuSyncedList T} {index : Nat} (item : T)
    (h : ¬ index < l.items.length) : set l index item = none := by
  unfold set subscript
  rw [if_neg h]
  rfl

theorem get_eq {l : GpuSyncedList T} {index : Nat} (h : index < l.items.length) :
    get l index = l.items[index]? := by
  unfold get subscript
  rw [if_pos h]
  rfl

theorem get_none {l : GpuSyncedList T} {index : Nat} (h : ¬ index < l.items.length) :
    get l index = none := by
  unfold get subscript
  rw [if_neg h]
  rfl

theorem remove_dirtyBits {l : GpuSyncedList T} {index : Nat} (h : index < l.items.length)
    (hd : l.dirtyBits.length = l.items.length) (j : Nat) :
    (fillBits (List.range' index ((l.items.eraseIdx index).length - index)) true
        l.dirtyBits.dropLast)[j]? =
      if j < index then l.dirtyBits[j]?
      else if j < l.items.length - 1 then some true else none := by
  have hlen : (l.items.eraseIdx index).length = l.items.length - 1 := by
    rw [List.length_eraseIdx, if_pos h]
  rw [fillBits_getElem?, hlen, List.length_dropLast, List.getElem?_dropLast, hd]
  by_cases h1 : j < index
  · have hmem : ¬ j ∈ List.range' index (l.items.length - 1 - index) := by
      rw [List.mem_range'_1]; omega
    rw [if_neg (fun hc => hmem hc.1), if_pos h1, if_pos (by omega)]
  · rw [if_neg h1]
    by_cases h2 : j < l.items.length - 1
    · have hmem : j ∈ List.range' index (l.items.length - 1 - index) := by
        rw [List.mem_range'_1]; omega
      rw [if_pos ⟨hmem, h2⟩, if_pos h2]
    · rw [if_neg (fun hc => h2 hc.2), if_neg h2, if_neg h2]

/-! ## The representation invariant -/

theorem inv_create (n : Nat) : Inv (create T n) := by
  refine ⟨rfl, Nat.zero_le _, List.length_replicate _ _, ?_⟩
  intro i hi
  exact absurd hi (Nat.not_lt_zero i)

theorem inv_push (grow : Nat → Nat) {l : GpuSyncedList T} (item : T) (hinv : Inv l) :
    Inv (push grow l item) := by
  obtain ⟨hd, hfit, hbc, hclean⟩ := hinv
  refine ⟨?_, ?_, hbc, ?_⟩
  · show (l.dirtyBits ++ [true]).length = (l.items ++ [item]).length
    rw [List.length_append, List.length_append, hd]
    rfl
  · show (l.items ++ [item]).length ≤ pushCapacity grow l.items.length l.itemsCapacity
    rw [List.length_append, List.length_singleton]
    unfold pushCapacity
    by_cases h : l.items.length < l.itemsCapacity
    · rw [if_pos h]; omega
    · rw [if_neg h]; exact le_max_right _ _
  · intro i hi hc
    change i < (l.items ++ [item]).length at hi
    change (l.dirtyBits ++ [true])[i]? = some false at hc
    show l.gpuBuffer[i]? = Option.map some (l.items ++ [item])[i]?
    by_cases hil : i < l.items.length
    · rw [List.getElem?_append_left (by omega)] at hc
      rw [List.getElem?_append_left hil]
      exact hclean i hil hc
    · exfalso
      rw [List.length_append, List.length_singleton] at hi
      have hi' : i = l.dirtyBits.length := by omega
      rw [List.getElem?_append_right (by omega), hi', Nat.sub_self] at hc
      exact Bool.noConfusion (Option.some.inj hc)

theorem inv_pop {l l' : GpuSyncedList T} {item : T} (hp : pop l = some (item, l'))
    (hinv : Inv l) : Inv l' := by
  obtain ⟨hd, hfit, hbc, hclean⟩ := hinv
  have hn : 0 < l.items.length := by
    by_contra hc
    rw [pop_none hc] at hp
    exact Option.noConfusion hp
  obtain ⟨a, _, hpa⟩ := pop_eq hn
  rw [hpa] at hp
  have hl : l' = { l with items := l.items.dropLast, dirtyBits := l.dirtyBits.dropLast } :=
    (congrArg Prod.snd (Option.some.inj hp)).symm
  subst hl
  refine ⟨?_, ?_, hbc, ?_⟩
  · show l.dirtyBits.dropLast.length = l.items.dropLast.length
    rw [List.length_dropLast, List.length_dropLast, hd]
  · show l.items.dropLast.length ≤ l.itemsCapacity
    rw [List.length_dropLast]; omega
  · intro i hi hc
    change i < l.items.dropLast.length at hi
    change l.dirtyBits.dropLast[i]? = some false at hc
    show l.gpuBuffer[i]? = Option.map some l.items.dropLast[i]?
    rw [List.length_dropLast] at hi
    rw [List.getElem?_dropLast, if_pos (by omega)] at hc
    rw [List.getElem?_dropLast, if_pos hi]
    exact hclean i (by omega) hc

theorem inv_remove {l l' : GpuSyncedList T} {index : Nat} (hr : remove l index = some l')
    (hinv : Inv l) : Inv l' := by
  obtain ⟨hd, hfit, hbc, hclean⟩ := hinv
  have hn : index < l.items.length := by
    by_contra hc
    rw [remove_none hc] at hr
    exact Option.noConfusion hr
  rw [remove_eq hn] at hr
  have hl := (Option.some.inj hr).symm
  subst hl
  have hlen : (l.items.eraseIdx index).length = l.items.length - 1 := by
    rw [List.length_eraseIdx, if_pos hn]
  refine ⟨?_, ?_, hbc, ?_⟩
  · show (fillBits _ true l.dirtyBits.dropLast).length = (l.items.eraseIdx index).length
    rw [fillBits_length, List.length_dropLast, hlen, hd]
  · show (l.items.eraseIdx index).length ≤ l.itemsCapacity
    rw [hlen]; omega
  · intro i hi hc
    change i < (l.items.eraseIdx index).length at hi
    change (fillBits _ true l.dirtyBits.dropLast)[i]? = some false at hc
    show l.gpuBuffer[i]? = Option.map some (l.items.eraseIdx index)[i]?
    rw [hlen] at hi
    rw [remove_dirtyBits hn hd] at hc
    by_cases h1 : i < index
    · rw [if_pos h1] at hc
      rw [List.getElem?_eraseIdx, if_pos h1]
      exact hclean i (by omega) hc
    · rw [if_neg h1, if_pos hi] at hc
      exact Bool.noConfusion (Option.some.inj hc)

theorem inv_set {l l' : GpuSyncedList T} {index : Nat} {item : T}
    (hs : set l index item = some l') (hinv : Inv l) : Inv l' := by
  obtain ⟨hd, hfit, hbc, hclean⟩ := hinv
  have hn : index < l.items.length := by
    by_contra hc
    rw [set_none item hc] at hs
    exact Option.noConfusion hs
  rw [set_eq item hn] at hs
  have hl := (Option.some.inj hs).symm
  subst hl
  refine ⟨?_, ?_, hbc, ?_⟩
  · show (l.dirtyBits.set index true).length = (l.items.set index item).length
    rw [List.length_set, List.length_set, hd]
  · show (l.items.set index item).length ≤ l.itemsCapacity
    rw [List.length_set]; exact hfit
  · intro i hi hc
    change i < (l.items.set index item).length at hi
    change (l.dirtyBits.set index true)[i]? = some false at hc
    show l.gpuBuffer[i]? = Option.map some (l.items.set index item)[i]?
    rw [List.length_set] at hi
    rw [List.getElem?_set] at hc
    by_cases h1 : index = i
    · rw [if_pos h1, if_pos (by omega)] at hc
      exact Bool.noConfusion (Option.some.inj hc)
    · rw [if_neg h1] at hc
      rw [List.getElem?_set, if_neg h1]
      exact hclean i hi hc

theorem inv_bind {l l' : GpuSyncedList T} {slot : BufferSlot} {binding : Int}
    {calls : List GpuCall} (hb : bind slot binding l = some (l', calls)) (hinv : Inv l) :
    Inv l' := by
  obtain ⟨calls0, hs0⟩ := sync_of_bind hb
  obtain ⟨l1, calls1, hs1, hit, hcap, hdb, hbl, hge, hm⟩ := sync_spec hinv
  rw [hs0] at hs1
  have hl : l' = l1 := congrArg Prod.fst (Option.some.inj hs1)
  subst hl
  refine ⟨?_, ?_, hbl, ?_⟩
  · rw [hdb, List.length_replicate, hit]
  · rw [hit, hcap]; exact hinv.2.1
  · intro i hi _
    rw [hit] at hi ⊢
    exact hm i hi

theorem reachable_inv {grow : Nat → Nat} {l : GpuSyncedList T} (hr : Reachable grow l) :
    Inv l := by
  induction hr with
  | create n => exact inv_create n
  | push item _ ih => exact inv_push grow item ih
  | pop _ hp ih => exact inv_pop hp ih
  | remove _ _ hrm ih => exact inv_remove hrm ih
  | assign _ hs ih => exact inv_set hs ih
  | bind _ _ _ _ hb ih => exact inv_bind hb ih

theorem join_map_some {α : Type} (x : Option α) : (x.map some).join = x := by
  cases x <;> rfl

theorem getLast?_append_if {α : Type} (xs : List α) (c : Prop) [Decidable c] (a : α) (hc : c) :
    (xs ++ if c then [a] else []).getLast? = some a := by
  rw [if_pos hc, List.getLast?_append]
  rfl

/-- From a consistent list and a valid slot, `bind` succeeds, keeps the records, restores
the invariant, mirrors every record, and ends by binding the range `[0, length())`. -/
theorem bind_spec {l : GpuSyncedList T} (hinv : Inv l) {slot : BufferSlot} (binding : Int)
    (hslot : slot.indexed = true) :
    ∃ l' calls, bind slot binding l = some (l', calls) ∧ l'.items = l.items ∧ Inv l' ∧
      l'.dirtyBits = List.replicate l.items.length false ∧
      l'.itemsCapacity = l.itemsCapacity ∧
      l'.itemsCapacity ≤ l'.gpuBufferCapacity ∧
      (∀ i, i < l.items.length → l'.gpuBuffer[i]? = (l.items[i]?).map some) ∧
      (0 < l.items.length →
        calls.getLast? = some (GpuCall.bindRange binding 0 l.items.length)) := by
  obtain ⟨l1, calls1, hs1, hit, hcap, hdb, hbl, hge, hm⟩ := sync_spec hinv
  have hb := bind_of_sync binding hs1 hslot
  refine ⟨l1, _, hb, hit, inv_bind hb hinv, hdb, hcap, hge, hm, ?_⟩
  intro hn
  rw [hit]
  exact getLast?_append_if _ _ _ hn

end GpuSyncedList

/-! ## The scan of `trace` -/

theorem traceHit_eq_foldl {F : Type} [LinearOrderedField F] [FloorRing F] (sqrt : F → F) (scene : Scene F) (garbage : Vec3 F) (ray : Ray F) :
    traceHit sqrt scene garbage ray =
      (candidates sqrt scene ray).foldl closer { hitDist := floatMax, hitNormal := garbage } := by
  unfold traceHit candidates
  rw [List.foldl_append, List.foldl_append, List.foldl_map, List.foldl_map, List.foldl_map]
  rfl

/-- Outcome of the scan over a prefix `cs` of the candidates, started at distance `M`. -/
theorem foldl_closer {F : Type} [LinearOrderedField F] (h0 : Hit F) (cs : List (F × Vec3 F)) :
    (∀ c ∈ cs, 0 < c.1 → (cs.foldl closer h0).hitDist ≤ c.1) ∧
    (cs.foldl closer h0).hitDist ≤ h0.hitDist ∧
    ((cs.foldl closer h0 = h0 ∧ ∀ c ∈ cs, ¬ (0 < c.1 ∧ c.1 < h0.hitDist)) ∨
      ∃ (i : Nat) (d : F) (n : Vec3 F), cs[i]? = some (d, n) ∧
        cs.foldl closer h0 = { hitDist := d, hitNormal := n } ∧
        0 < d ∧ d < h0.hitDist ∧ ∀ j, j < i → ∀ c : F × Vec3 F, cs[j]? = some c → c.1 ≠ d) := by
  induction cs using List.reverseRecOn with
  | nil =>
    refine ⟨fun c hc => absurd hc (List.not_mem_nil c), le_refl _, Or.inl ⟨rfl, ?_⟩⟩
    exact fun c hc => absurd hc (List.not_mem_nil c)
  | append_singleton cs c ih =>
    obtain ⟨hmin, hle, hcase⟩ := ih
    rw [List.foldl_append]
    show (∀ c' ∈ cs ++ [c], 0 < c'.1 → (closer (cs.foldl closer h0) c).hitDist ≤ c'.1) ∧
      (closer (cs.foldl closer h0) c).hitDist ≤ h0.hitDist ∧
      ((closer (cs.foldl closer h0) c = h0 ∧ _) ∨
        ∃ i d n, (cs ++ [c])[i]? = some (d, n) ∧
          closer (cs.foldl closer h0) c = { hitDist := d, hitNormal := n } ∧ _)
    by_cases hc : c.1 > 0 ∧ c.1 < (cs.foldl closer h0).hitDist
    · have hcl : closer (cs.foldl closer h0) c = { hitDist := c.1, hitNormal := c.2 } :=
        if_pos hc
      rw [hcl]
      refine ⟨?_, ?_, Or.inr ⟨cs.length, c.1, c.2, ?_, rfl, hc.1, lt_of_lt_of_le hc.2 hle, ?_⟩⟩
      · intro c' hc' hpos
        rcases List.mem_append.mp hc' with h | h
        · exact le_trans (le_of_lt hc.2) (hmin c' h hpos)
        · rw [List.mem_singleton.mp h]
      · exact le_trans (le_of_lt hc.2) hle
      · rw [List.getElem?_append_right (le_refl _), Nat.sub_self]
        rfl
      · intro j hj c' hc'
        rw [List.getElem?_append_left hj] at hc'
        have hmem : c' ∈ cs := List.getElem?_mem hc'
        by_cases hpos : 0 < c'.1
        · exact ne_of_gt (lt_of_lt_of_le hc.2 (hmin c' hmem hpos))
        · exact ne_of_lt (lt_of_le_of_lt (not_lt.mp hpos) hc.1)
    · have hcl : closer (cs.foldl closer h0) c = cs.foldl closer h0 := if_neg hc
      rw [hcl]
      refine ⟨?_, hle, ?_⟩
      · intro c' hc' hpos
        rcases List.mem_append.mp hc' with h | h
        · exact hmin c' h hpos
        · rw [List.mem_singleton.mp h] at hpos ⊢
          exact not_lt.mp fun hlt => hc ⟨hpos, hlt⟩
      · rcases hcase with ⟨heq, hnone⟩ | ⟨i, d, n, hi, heq, hd0, hdM, hfirst⟩
        · refine Or.inl ⟨heq, ?_⟩
          intro c' hc'
          rcases List.mem_append.mp hc' with h | h
          · exact hnone c' h
          · rw [List.mem_singleton.mp h]
            rw [heq] at hc
            exact hc
        · have hil : i < cs.length := by
            by_contra hcon
            rw [List.getElem?_eq_none (not_lt.mp hcon)] at hi
            exact Option.noConfusion hi
          refine Or.inr ⟨i, d, n, ?_, heq, hd0, hdM, ?_⟩
          · rw [List.getElem?_append_left hil]
            exact hi
          · intro j hj c' hc'
            rw [List.getElem?_append_left (lt_trans hj hil)] at hc'
            exact hfirst j hj c' hc'

/-! ## Claims on `GpuSyncedList` -/

open GpuSyncedList

/-- C1: in every state reachable from `create` by `push`, `pop`, `remove`, element assignment
and `bind`, a `bind` to a valid slot succeeds, keeps the records, and leaves mirror record
`i` equal to local record `i` for every `i < length()`; and for every valid `index`,
`remove(index)` followed by `bind` binds a range one record shorter in which every mirror
record from `index` onward equals the post-removal local record (the old record one
place further on). -/
theorem C1_mirror_equals_local_after_bind {T : Type} (grow : Nat → Nat) (l : GpuSyncedList T)
    (hr : Reachable grow l) (slot : BufferSlot) (binding : Int) (hslot : slot.indexed = true) :
    (∃ l' calls, bind slot binding l = some (l', calls) ∧ l'.items = l.items ∧
        ∀ i, i < l'.length → l'.mirror i = l'.items[i]?) ∧
    (∀ index, index < l.length →
      ∃ l1 l2 calls, remove l index = some l1 ∧ bind slot binding l1 = some (l2, calls) ∧
        l2.length + 1 = l.length ∧
        (0 < l2.length → calls.getLast? = some (GpuCall.bindRange binding 0 l2.length)) ∧
        ∀ j, index ≤ j → j < l2.length →
          l2.mirror j = l1.items[j]? ∧ l1.items[j]? = l.items[j + 1]?) := by
  have hinv := reachable_inv hr
  constructor
  · obtain ⟨l', calls, hb, hit, _, _, _, _, hm, _⟩ := bind_spec hinv binding hslot
    refine ⟨l', calls, hb, hit, ?_⟩
    intro i hi
    unfold GpuSyncedList.length at hi
    unfold mirror
    rw [hit] at hi ⊢
    rw [hm i hi, join_map_some]
  · intro index hidx
    unfold GpuSyncedList.length at hidx
    have hrm := remove_eq hidx
    have hinv1 := inv_remove hrm hinv
    obtain ⟨l2, calls, hb, hit, _, _, _, _, hm, hlast⟩ := bind_spec hinv1 binding hslot
    have hlen : (l.items.eraseIdx index).length = l.items.length - 1 := by
      rw [List.length_eraseIdx, if_pos hidx]
    change l2.items = l.items.eraseIdx index at hit
    refine ⟨_, l2, calls, hrm, hb, ?_, ?_, ?_⟩
    · unfold GpuSyncedList.length
      rw [hit, hlen]
      omega
    · unfold GpuSyncedList.length
      rw [hit]
      exact hlast
    · intro j hij hj
      unfold GpuSyncedList.length at hj
      rw [hit] at hj
      constructor
      · unfold mirror
        rw [hm j hj, join_map_some]
      · show (l.items.eraseIdx index)[j]? = l.items[j + 1]?
        rw [List.getElem?_eraseIdx, if_neg (by omega)]

/-- Witness of C1: three records pushed into a fresh list of capacity 1. -/
theorem C1_mirror_equals_local_after_bind_witness :
    Reachable (fun c => 2 * c)
        (push (fun c => 2 * c) (push (fun c => 2 * c) (push (fun c => 2 * c)
          (create Nat 1) 7) 8) 9) ∧
      BufferSlot.shaderStorage.indexed = true ∧
      ((∃ l' calls, bind .shaderStorage 4 (push (fun c => 2 * c) (push (fun c => 2 * c)
            (push (fun c => 2 * c) (create Nat 1) 7) 8) 9) = some (l', calls) ∧
          l'.items = [7, 8, 9] ∧ ∀ i, i < l'.length → l'.mirror i = l'.items[i]?) ∧
        (∀ index, index < 3 →
          ∃ l1 l2 calls, remove (push (fun c => 2 * c) (push (fun c => 2 * c)
              (push (fun c => 2 * c) (create Nat 1) 7) 8) 9) index = some l1 ∧
            bind .shaderStorage 4 l1 = some (l2, calls) ∧ l2.length + 1 = 3 ∧
            (0 < l2.length → calls.getLast? = some (GpuCall.bindRange 4 0 l2.length)) ∧
            ∀ j, index ≤ j → j < l2.length →
              l2.mirror j = l1.items[j]? ∧ l1.items[j]? = [7, 8, 9][j + 1]?)) :=
  ⟨Reachable.push 9 (Reachable.push 8 (Reachable.push 7 (Reachable.create 1))), rfl,
    C1_mirror_equals_local_after_bind (fun c => 2 * c) _
      (Reachable.push 9 (Reachable.push 8 (Reachable.push 7 (Reachable.create 1))))
      .shaderStorage 4 rfl⟩

/-- C2 (evaluation at the failing input): on the dirty pattern `_ D D D _ _ D D` of the
comment in `bind`, the flags are as drawn, and `bind` issues three uploads, over the
ranges `[1,4)`, `[1,5)` and `[1,8)`, not the two ranges `[1,4)` and `[6,8)`: once set,
`startIdx` is never reset. -/
theorem C2_bind_uploads_on_dirty_pattern :
    dirtyPattern.map (fun l => l.dirtyBits)
        = some [false, true, true, true, false, false, true, true] ∧
      (dirtyPattern.bind (bind .shaderStorage 0)).map (fun r => uploads r.2)
        = some [(1, 4), (1, 5), (1, 8)] ∧
      (dirtyPattern.bind (bind .shaderStorage 0)).map (fun r => uploads r.2)
        ≠ some [(1, 4), (6, 8)] := by
  decide

/-- C3: let a reachable list be bound (flushed), giving `l1`; assigning a record `r` to one
index `k < length()` and binding again succeeds and changes the mirror buffer at index `k`
only: mirror record `k` becomes `r` and every other slot of the buffer is what it was
after the first bind. -/
theorem C3_single_assignment_changes_one_mirror_record {T : Type} (grow : Nat → Nat)
    (l0 l1 : GpuSyncedList T) (calls1 : List GpuCall) (slot slot2 : BufferSlot)
    (binding binding2 : Int) (k : Nat) (r : T)
    (hr : Reachable grow l0) (hb : bind slot binding l0 = some (l1, calls1))
    (hk : k < l1.length) (hslot : slot2.indexed = true) :
    ∃ l2 l3 calls, set l1 k r = some l2 ∧ bind slot2 binding2 l2 = some (l3, calls) ∧
      l3.mirror k = some r ∧ l3.gpuBuffer.length = l1.gpuBuffer.length ∧
      ∀ j, j ≠ k → l3.gpuBuffer[j]? = l1.gpuBuffer[j]? := by
  unfold GpuSyncedList.length at hk
  have hinv0 := reachable_inv hr
  -- the state after the first bind
  obtain ⟨l1', calls1', hb', hit1, hinv1, hdb1, _, hge1, hm1, _⟩ :=
    @bind_spec T l0 hinv0 slot binding (by
      by_contra hc
      obtain ⟨c0, hs0⟩ := sync_of_bind hb
      have hpos : 0 < l1.items.length := by omega
      unfold GpuSyncedList.bind at hb
      rw [hs0] at hb
      change (if 0 < l1.items.length then _ else _) = _ at hb
      rw [if_pos hpos] at hb
      unfold bindGpuBufferRange at hb
      rw [if_neg hc] at hb
      exact Option.noConfusion hb)
  rw [hb] at hb'
  have hl1 : l1 = l1' := congrArg Prod.fst (Option.some.inj hb')
  subst hl1
  have hset := set_eq r hk
  have hinv2 := inv_set hset hinv1
  have hcap2 : ¬ l1.gpuBufferCapacity < l1.itemsCapacity := by omega
  have hd2 : (l1.dirtyBits.set k true).length = (l1.items.set k r).length := hinv2.1
  have hb2 : (l1.items.set k r).length ≤ l1.gpuBuffer.length := by
    rw [List.length_set]
    have := hinv1.2.1
    have := hinv1.2.2.1
    omega
  obtain ⟨st, hs, _, hbl, hup, hkeep, _⟩ :=
    sync_scan (l := { l1 with
      items := l1.items.set k r
      dirtyBits := l1.dirtyBits.set k true }) hcap2 hd2 hb2
  have hb3 := bind_of_sync binding2 hs hslot
  have hkd : k < l1.dirtyBits.length := by rw [hinv1.1]; exact hk
  have hdirty : (l1.dirtyBits.set k true).getD k false = true := by
    rw [List.getD_eq_getElem?_getD, List.getElem?_set, if_pos rfl, if_pos hkd]
    rfl
  have hclean : ∀ f, f ≠ k → (l1.dirtyBits.set k true).getD f false = false := by
    intro f hf
    rw [List.getD_eq_getElem?_getD, List.getElem?_set, if_neg (fun h => hf h.symm), hdb1,
      List.getElem?_replicate]
    by_cases h : f < l0.items.length
    · rw [if_pos h]; rfl
    · rw [if_neg h]; rfl
  refine ⟨_, _, _, hset, hb3, ?_, hbl, ?_⟩
  · show (st.gpuBuffer[k]?).join = some r
    rw [hup k (by rw [List.length_set]; exact hk) ⟨k, le_refl _, hdirty⟩]
    show (Option.map some (l1.items.set k r)[k]?).join = some r
    rw [join_map_some, List.getElem?_set, if_pos rfl, if_pos hk]
  · intro j hj
    show st.gpuBuffer[j]? = l1.gpuBuffer[j]?
    by_cases hjk : j < k
    · exact hkeep j (Or.inr fun f hf => hclean f (by omega))
    · by_cases hjn : j < l1.items.length
      · rw [hup j (by rw [List.length_set]; exact hjn) ⟨k, by omega, hdirty⟩]
        show Option.map some (l1.items.set k r)[j]? = l1.gpuBuffer[j]?
        rw [List.getElem?_set, if_neg (fun h => hj h.symm), hm1 j (by rw [← hit1]; exact hjn),
          ← hit1]
      · exact hkeep j (Or.inl (by
          show (l1.items.set k r).length ≤ j
          rw [List.length_set]; omega))

/-- Witness of C3: two records pushed and bound, then record 1 reassigned. -/
theorem C3_single_assignment_changes_one_mirror_record_witness :
    ∃ l1 calls1,
      bind .shaderStorage 0 (push (fun c => 2 * c) (push (fun c => 2 * c) (create Nat 2) 7) 8)
        = some (l1, calls1) ∧ 1 < l1.length ∧
      ∃ l2 l3 calls, set l1 1 5 = some l2 ∧ bind .uniform 3 l2 = some (l3, calls) ∧
        l3.mirror 1 = some 5 ∧ l3.gpuBuffer.length = l1.gpuBuffer.length ∧
        ∀ j, j ≠ 1 → l3.gpuBuffer[j]? = l1.gpuBuffer[j]? :=
  ⟨_, _, rfl, by decide,
    C3_single_assignment_changes_one_mirror_record (fun c => 2 * c) _ _ _ .shaderStorage
      .uniform 0 3 1 5 (Reachable.push 8 (Reachable.push 7 (Reachable.create 2))) rfl
      (by decide) rfl⟩

/-- C4: when `bind` (to a valid slot) is called while the vector capacity exceeds the
recorded mirror capacity, it succeeds, reallocates the mirror to the vector capacity,
issues exactly one upload, over the whole range `[0, length())`, then binds that range if
it is not empty, records the new mirror capacity, keeps the records and leaves every
dirty flag false. -/
theorem C4_bind_growth_branch {T : Type} (l : GpuSyncedList T) (slot : BufferSlot)
    (binding : Int) (hfit : l.length ≤ l.itemsCapacity)
    (hcap : l.gpuBufferCapacity < l.itemsCapacity) (hslot : slot.indexed = true) :
    ∃ l', bind slot binding l = some (l',
        [GpuCall.recreate l.itemsCapacity, GpuCall.update 0 l.length] ++
          if 0 < l.length then [GpuCall.bindRange binding 0 l.length] else []) ∧
      uploads ([GpuCall.recreate l.itemsCapacity, GpuCall.update 0 l.length] ++
          if 0 < l.length then [GpuCall.bindRange binding 0 l.length] else [])
        = [(0, l.length)] ∧
      l'.gpuBuffer.length = l.itemsCapacity ∧ l'.gpuBufferCapacity = l.itemsCapacity ∧
      l'.items = l.items ∧ l'.dirtyBits = List.replicate l.length false := by
  unfold GpuSyncedList.length at *
  obtain ⟨b, hs, hbl, _⟩ := sync_grow hcap hfit
  refine ⟨{ l with
      gpuBuffer := b
      gpuBufferCapacity := l.itemsCapacity
      dirtyBits := List.replicate l.items.length false },
    bind_of_sync binding hs hslot, ?_, hbl, rfl, rfl, rfl⟩
  by_cases hn : 0 < l.items.length
  · rw [if_pos hn]
    simp [uploads]
  · rw [if_neg hn]
    simp [uploads]

/-- Witness of C4: a list created with capacity 1 after two pushes. -/
theorem C4_bind_growth_branch_witness :
    ∃ l', bind .shaderStorage 2 (push (fun c => 2 * c) (push (fun c => 2 * c)
          (create Nat 1) 7) 8)
        = some (l', [GpuCall.recreate 2, GpuCall.update 0 2, GpuCall.bindRange 2 0 2]) ∧
      uploads [GpuCall.recreate 2, GpuCall.update 0 2, GpuCall.bindRange 2 0 2] = [(0, 2)] ∧
      l'.gpuBuffer.length = 2 ∧ l'.gpuBufferCapacity = 2 ∧
      l'.items = [7, 8] ∧ l'.dirtyBits = [false, false] :=
  C4_bind_growth_branch (push (fun c => 2 * c) (push (fun c => 2 * c) (create Nat 1) 7) 8)
    .shaderStorage 2 (by decide) (by decide) rfl

/-- C5: for every reachable list and every index with `index < length()`, `remove(index)`
succeeds, yields the records before `index` followed by the records after it (one record
erased, order kept), reduces `length()` by one, sets the flag of every position from
`index` up to the new end to dirty, and leaves the flags below `index` unchanged. -/
theorem C5_remove_erases_and_marks_shifted {T : Type} (grow : Nat → Nat)
    (l : GpuSyncedList T) (index : Nat) (hr : Reachable grow l) (hidx : index < l.length) :
    ∃ l', remove l index = some l' ∧
      l'.items = l.items.take index ++ l.items.drop (index + 1) ∧
      l'.length + 1 = l.length ∧
      (∀ j, index ≤ j → j < l'.length → l'.dirtyBits[j]? = some true) ∧
      (∀ j, j < index → l'.dirtyBits[j]? = l.dirtyBits[j]?) := by
  have hd : l.dirtyBits.length = l.items.length := (reachable_inv hr).1
  unfold GpuSyncedList.length at *
  have hlen : (l.items.eraseIdx index).length = l.items.length - 1 := by
    rw [List.length_eraseIdx, if_pos hidx]
  refine ⟨_, remove_eq hidx, List.eraseIdx_eq_take_drop_succ _ _, ?_, ?_, ?_⟩
  · show (l.items.eraseIdx index).length + 1 = l.items.length
    rw [hlen]; omega
  · intro j hij hj
    change j < (l.items.eraseIdx index).length at hj
    show (fillBits _ true l.dirtyBits.dropLast)[j]? = some true
    rw [hlen] at hj
    rw [remove_dirtyBits hidx hd, if_neg (by omega), if_pos hj]
  · intro j hj
    show (fillBits _ true l.dirtyBits.dropLast)[j]? = l.dirtyBits[j]?
    rw [remove_dirtyBits hidx hd, if_pos hj]

/-- Witness of C5: removing index 1 of a bound (clean) four-record list. -/
theorem C5_remove_erases_and_marks_shifted_witness :
    Reachable (fun c => 2 * c)
        (⟨[some 4, some 5, some 6, some 7], 4, [4, 5, 6, 7], 4,
          [false, false, false, false]⟩ : GpuSyncedList Nat) ∧
      ∃ l', remove (⟨[some 4, some 5, some 6, some 7], 4, [4, 5, 6, 7], 4,
          [false, false, false, false]⟩ : GpuSyncedList Nat) 1 = some l' ∧
        l'.items = [4] ++ [6, 7] ∧ l'.length + 1 = 4 ∧
        (∀ j, 1 ≤ j → j < l'.length → l'.dirtyBits[j]? = some true) ∧
        (∀ j, j < 1 → l'.dirtyBits[j]? = [false, false, false, false][j]?) :=
  have hr : Reachable (fun c => 2 * c)
      (⟨[some 4, some 5, some 6, some 7], 4, [4, 5, 6, 7], 4,
        [false, false, false, false]⟩ : GpuSyncedList Nat) :=
    Reachable.bind .shaderStorage 0 [GpuCall.update 0 4, GpuCall.bindRange 0 0 4]
      (Reachable.push 7 (Reachable.push 6 (Reachable.push 5 (Reachable.push 4
        (Reachable.create 4))))) rfl
  ⟨hr, C5_remove_erases_and_marks_shifted (fun c => 2 * c) _ 1 hr (by decide)⟩

/-- C6: in every state reachable from `create` by `push`, `pop`, `remove`, element
assignment and `bind`, the dirty-flag array has the same length as the record array. -/
theorem C6_dirtyBits_length_eq_items_length {T : Type} (grow : Nat → Nat)
    (l : GpuSyncedList T) (hr : Reachable grow l) :
    l.dirtyBits.length = l.items.length :=
  (reachable_inv hr).1

/-- Witness of C6: a push, a remove and a bind after `create`. -/
theorem C6_dirtyBits_length_eq_items_length_witness :
    ∃ l : GpuSyncedList Nat, Reachable (fun c => c + 1) l ∧ l.items = [8] ∧
      l.dirtyBits.length = l.items.length :=
  have hr : Reachable (fun c => c + 1)
      (⟨[some 8, none], 2, [8], 2, [false]⟩ : GpuSyncedList Nat) :=
    Reachable.bind .shaderStorage 0
      [GpuCall.recreate 2, GpuCall.update 0 1, GpuCall.bindRange 0 0 1]
      (Reachable.remove 0
        (Reachable.push 8 (Reachable.push 7 (Reachable.create 1))) rfl) rfl
  ⟨_, hr, rfl, C6_dirtyBits_length_eq_items_length _ _ hr⟩

/-- C7: CPU reads see the latest write, whatever the mirror holds. In every reachable list,
assigning `r` at an index `i < length()` succeeds; afterwards index `i` reads `r`, every
other index reads what it read before, `length()` is unchanged, flag `i` is dirty and no other
flag changed. After `push(r)`, `length()` is one more, the last index reads `r` and its flag
is dirty, and all earlier records and flags are unchanged. Neither touches the mirror. -/
theorem C7_reads_see_latest_write {T : Type} (grow : Nat → Nat) (l : GpuSyncedList T)
    (i : Nat) (r : T) (hr : Reachable grow l) :
    (i < l.length →
      ∃ l', set l i r = some l' ∧ get l' i = some r ∧ (∀ j, j ≠ i → get l' j = get l j) ∧
        l'.length = l.length ∧ l'.dirtyBits[i]? = some true ∧
        (∀ j, j ≠ i → l'.dirtyBits[j]? = l.dirtyBits[j]?) ∧ l'.gpuBuffer = l.gpuBuffer) ∧
    ((push grow l r).length = l.length + 1 ∧ get (push grow l r) l.length = some r ∧
      (push grow l r).dirtyBits[l.length]? = some true ∧
      (∀ j, j < l.length → get (push grow l r) j = get l j ∧
        (push grow l r).dirtyBits[j]? = l.dirtyBits[j]?) ∧
      (push grow l r).gpuBuffer = l.gpuBuffer) := by
  have hd : l.dirtyBits.length = l.items.length := (reachable_inv hr).1
  unfold GpuSyncedList.length
  constructor
  · intro hi
    have hlen : (l.items.set i r).length = l.items.length := List.length_set _ _ _
    refine ⟨_, set_eq r hi, ?_, ?_, hlen, ?_, ?_, rfl⟩
    · rw [get_eq (by rw [hlen]; exact hi)]
      show (l.items.set i r)[i]? = some r
      rw [List.getElem?_set, if_pos rfl, if_pos hi]
    · intro j hj
      by_cases hjn : j < l.items.length
      · rw [get_eq (by rw [hlen]; exact hjn), get_eq hjn]
        show (l.items.set i r)[j]? = l.items[j]?
        rw [List.getElem?_set, if_neg (fun h => hj h.symm)]
      · rw [get_none (by rw [hlen]; exact hjn), get_none hjn]
    · show (l.dirtyBits.set i true)[i]? = some true
      rw [List.getElem?_set, if_pos rfl, if_pos (by omega)]
    · intro j hj
      show (l.dirtyBits.set i true)[j]? = l.dirtyBits[j]?
      rw [List.getElem?_set, if_neg (fun h => hj h.symm)]
  · have hlen : (l.items ++ [r]).length = l.items.length + 1 := by
      rw [List.length_append, List.length_singleton]
    refine ⟨hlen, ?_, ?_, ?_, rfl⟩
    · rw [get_eq (by show l.items.length < (l.items ++ [r]).length; omega)]
      show (l.items ++ [r])[l.items.length]? = some r
      rw [List.getElem?_append_right (le_refl _), Nat.sub_self]
      rfl
    · show (l.dirtyBits ++ [true])[l.items.length]? = some true
      rw [List.getElem?_append_right (by omega), hd, Nat.sub_self]
      rfl
    · intro j hj
      constructor
      · rw [get_eq (by show j < (l.items ++ [r]).length; omega), get_eq hj]
        show (l.items ++ [r])[j]? = l.items[j]?
        rw [List.getElem?_append_left hj]
      · show (l.dirtyBits ++ [true])[j]? = l.dirtyBits[j]?
        rw [List.getElem?_append_left (by omega)]

/-- Witness of C7: a bound two-record list, written at index 1 and pushed to. -/
theorem C7_reads_see_latest_write_witness :
    Reachable (fun c => 2 * c)
        (⟨[some 7, some 8], 2, [7, 8], 2, [false, false]⟩ : GpuSyncedList Nat) ∧
      (∃ l', set (⟨[some 7, some 8], 2, [7, 8], 2, [false, false]⟩ : GpuSyncedList Nat) 1 5
          = some l' ∧ get l' 1 = some 5 ∧ l'.dirtyBits = [false, true]) ∧
      get (push (fun c => 2 * c)
        (⟨[some 7, some 8], 2, [7, 8], 2, [false, false]⟩ : GpuSyncedList Nat) 5) 2 = some 5 :=
  have hr : Reachable (fun c => 2 * c)
      (⟨[some 7, some 8], 2, [7, 8], 2, [false, false]⟩ : GpuSyncedList Nat) :=
    Reachable.bind .shaderStorage 0 [GpuCall.update 0 2, GpuCall.bindRange 0 0 2]
      (Reachable.push 8 (Reachable.push 7 (Reachable.create 2))) rfl
  have h := C7_reads_see_latest_write (fun c => 2 * c) _ 1 5 hr
  ⟨hr,
    (h.1 (by decide)).elim fun l' hl' =>
      ⟨l', hl'.1, hl'.2.1, (Option.some.inj (hl'.1.symm.trans (set_eq 5 (by decide)))) ▸ rfl⟩,
    h.2.2.1⟩

/-- C8: element access (read or assignment) and `remove` at an index `>= length()`, and
`pop` on an empty list, fail their assertion (no value, no clamped index); they succeed for
every index `< length()` and every non-empty list, and `pop` on a non-empty list returns
the last record and removes exactly it (and the last flag). -/
theorem C8_out_of_bounds_fails_in_bounds_succeeds {T : Type} (l : GpuSyncedList T)
    (index : Nat) (item : T) :
    (l.length ≤ index →
      subscript l index = none ∧ get l index = none ∧ set l index item = none ∧
        remove l index = none) ∧
    (l.length = 0 → pop l = none) ∧
    (index < l.length →
      (∃ x, get l index = some x ∧ l.items[index]? = some x) ∧
        (∃ l', set l index item = some l') ∧ ∃ l', remove l index = some l') ∧
    (0 < l.length →
      ∃ x l', pop l = some (x, l') ∧ l.items = l'.items ++ [x] ∧
        l'.dirtyBits = l.dirtyBits.dropLast) := by
  unfold GpuSyncedList.length
  refine ⟨?_, ?_, ?_, ?_⟩
  · intro h
    have h' : ¬ index < l.items.length := by omega
    refine ⟨?_, get_none h', set_none item h', remove_none h'⟩
    unfold subscript
    rw [if_neg h']
  · intro h
    exact pop_none (by omega)
  · intro h
    refine ⟨⟨l.items[index], ?_, List.getElem?_eq_getElem h⟩, ⟨_, set_eq item h⟩,
      ⟨_, remove_eq h⟩⟩
    rw [get_eq h]
    exact List.getElem?_eq_getElem h
  · intro h
    obtain ⟨x, hx, hp⟩ := pop_eq h
    exact ⟨x, _, hp, hx, rfl⟩

/-- Witness of C8: a two-record list at indices 1 and 2, and the empty list. -/
theorem C8_out_of_bounds_fails_in_bounds_succeeds_witness :
    (get (push id (push id (create Nat 2) 7) 8) 2 = none ∧
      set (push id (push id (create Nat 2) 7) 8) 2 5 = none ∧
      remove (push id (push id (create Nat 2) 7) 8) 2 = none) ∧
    pop (create Nat 2) = none ∧
    (∃ x l', pop (push id (push id (create Nat 2) 7) 8) = some (x, l') ∧
      [7, 8] = l'.items ++ [x] ∧ l'.dirtyBits = [true]) :=
  ⟨((C8_out_of_bounds_fails_in_bounds_succeeds
      (push id (push id (create Nat 2) 7) 8) 2 5).1 (by decide)).2,
    (C8_out_of_bounds_fails_in_bounds_succeeds (create Nat 2) 0 5).2.1 rfl,
    (C8_out_of_bounds_fails_in_bounds_succeeds
      (push id (push id (create Nat 2) 7) 8) 0 5).2.2.2 (by decide)⟩

/-! ## Claims on the intersection routines and `trace` -/

/-- C9: `trace` scans the planes, then the spheres, then the voxels, each list in order, and
ignores the portals. If some primitive has an `intersect` distance `d` with
`0 < d < floatMax`, the ray origin is advanced by the least strictly positive distance of
all primitives and the direction returned is the normal of the first primitive in scan
order that attains it; otherwise the origin is advanced by `floatMax` (and the direction
returned is the uninitialised local). -/
theorem C9_trace_advances_to_nearest_hit {F : Type} [LinearOrderedField F] [FloorRing F]
    (sqrt : F → F) (scene : Scene F) (garbage : Vec3 F) (ray : Ray F) :
    ((∃ c ∈ candidates sqrt scene ray, 0 < c.1 ∧ c.1 < floatMax) →
      ∃ (i : Nat) (d : F) (n : Vec3 F), (candidates sqrt scene ray)[i]? = some (d, n) ∧
        0 < d ∧ d < floatMax ∧
        (∀ c ∈ candidates sqrt scene ray, 0 < c.1 → d ≤ c.1) ∧
        (∀ j, j < i → ∀ c : F × Vec3 F, (candidates sqrt scene ray)[j]? = some c → c.1 ≠ d) ∧
        trace sqrt scene garbage ray = { pos := ray.pos.add (ray.dir.scale d), dir := n }) ∧
    ((∀ c ∈ candidates sqrt scene ray, ¬ (0 < c.1 ∧ c.1 < floatMax)) →
      trace sqrt scene garbage ray =
        { pos := ray.pos.add (ray.dir.scale floatMax), dir := garbage }) ∧
    (∀ portals : GpuSyncedList (Portal F),
      trace sqrt { scene with portals := portals } garbage ray =
        trace sqrt scene garbage ray) := by
  have hfold := foldl_closer (F := F) { hitDist := floatMax, hitNormal := garbage }
    (candidates sqrt scene ray)
  rw [← traceHit_eq_foldl] at hfold
  obtain ⟨hmin, _, hcase⟩ := hfold
  refine ⟨?_, ?_, fun _ => rfl⟩
  · rintro ⟨c, hc, hc0, hcM⟩
    rcases hcase with ⟨_, hnone⟩ | ⟨i, d, n, hi, heq, hd0, hdM, hfirst⟩
    · exact absurd ⟨hc0, hcM⟩ (hnone c hc)
    · refine ⟨i, d, n, hi, hd0, hdM, ?_, hfirst, ?_⟩
      · intro c' hc' hpos
        have := hmin c' hc' hpos
        rw [heq] at this
        exact this
      · unfold trace
        rw [heq]
  · intro hnone
    rcases hcase with ⟨heq, _⟩ | ⟨i, d, n, hi, _, hd0, hdM, _⟩
    · unfold trace
      rw [heq]
    · exact absurd ⟨hd0, hdM⟩ (hnone (d, n) (List.getElem?_mem hi))

/-- C10: with `denom = dot(dir, normal)` and `t = dot(anchor - origin, normal) / denom`, the
plane `intersect` returns `t` when `|denom| > 0.001` and `t > 0.001`, and then the point
`origin + t * dir` lies on the plane; in every other case it returns `floatMax`. -/
theorem C10_plane_intersect_solves_plane_equation {F : Type} [LinearOrderedField F]
    (r : Ray F) (p : Plane F) :
    (abs (Vec3.dot r.dir p.normal) > 0.001 ∧
        Vec3.dot (p.pos.sub r.pos) p.normal / Vec3.dot r.dir p.normal > 0.001 →
      intersectPlane r p = Vec3.dot (p.pos.sub r.pos) p.normal / Vec3.dot r.dir p.normal ∧
        Vec3.dot ((r.pos.add (r.dir.scale (intersectPlane r p))).sub p.pos) p.normal = 0) ∧
    (¬ (abs (Vec3.dot r.dir p.normal) > 0.001 ∧
        Vec3.dot (p.pos.sub r.pos) p.normal / Vec3.dot r.dir p.normal > 0.001) →
      intersectPlane r p = floatMax) := by
  constructor
  · rintro ⟨h1, h2⟩
    have heq : intersectPlane r p
        = Vec3.dot (p.pos.sub r.pos) p.normal / Vec3.dot r.dir p.normal := by
      unfold intersectPlane
      simp only [if_pos h1, if_pos h2]
    have hne : Vec3.dot r.dir p.normal ≠ 0 := by
      intro h0
      rw [h0, abs_zero] at h1
      norm_num at h1
    refine ⟨heq, ?_⟩
    rw [heq]
    unfold Vec3.dot Vec3.sub Vec3.add Vec3.scale at *
    simp only
    field_simp
    ring
  · intro h
    unfold intersectPlane
    by_cases h1 : abs (Vec3.dot r.dir p.normal) > 0.001
    · have h2 : ¬ Vec3.dot (p.pos.sub r.pos) p.normal / Vec3.dot r.dir p.normal > 0.001 :=
        fun h2 => h ⟨h1, h2⟩
      simp only [if_pos h1, if_neg h2]
    · simp only [if_neg h1]

theorem intersectPlane_downRay_groundPlane : intersectPlane downRay groundPlane = 10 := by
  norm_num [intersectPlane, downRay, groundPlane, Vec3.dot, Vec3.sub]

/-- Witness of C9: the ray from `(0, 10, 0)` straight down onto the ground plane. -/
theorem C9_trace_advances_to_nearest_hit_witness :
    ∃ (i : Nat) (d : ℚ) (n : Vec3 ℚ),
      (candidates (fun x => x) groundScene downRay)[i]? = some (d, n) ∧
        0 < d ∧ d < floatMax ∧
        (∀ c ∈ candidates (fun x => x) groundScene downRay, 0 < c.1 → d ≤ c.1) ∧
        (∀ j, j < i → ∀ c : ℚ × Vec3 ℚ,
          (candidates (fun x => x) groundScene downRay)[j]? = some c → c.1 ≠ d) ∧
        trace (fun x => x) groundScene ⟨0, 0, 0⟩ downRay =
          { pos := downRay.pos.add (downRay.dir.scale d), dir := n } :=
  (C9_trace_advances_to_nearest_hit (fun x => x) groundScene ⟨0, 0, 0⟩ downRay).1
    ⟨(intersectPlane downRay groundPlane, groundPlane.normal), List.mem_cons_self _ _,
      by rw [intersectPlane_downRay_groundPlane]; norm_num,
      by rw [intersectPlane_downRay_groundPlane]; norm_num [floatMax]⟩

/-- Witness of C10: the ray from `(0, 10, 0)` straight down meets the ground plane at `t = 10`. -/
theorem C10_plane_intersect_solves_plane_equation_witness :
    intersectPlane downRay groundPlane
        = Vec3.dot (groundPlane.pos.sub downRay.pos) groundPlane.normal
          / Vec3.dot downRay.dir groundPlane.normal ∧
      Vec3.dot ((downRay.pos.add (downRay.dir.scale (intersectPlane downRay groundPlane))).sub
        groundPlane.pos) groundPlane.normal = 0 :=
  (C10_plane_intersect_solves_plane_equation downRay groundPlane).1
    ⟨by norm_num [downRay, groundPlane, Vec3.dot],
      by norm_num [downRay, groundPlane, Vec3.dot, Vec3.sub]⟩

/-- C14: the portal `intersect` is the plane `intersect` against the plane with the portal's
normal and centre whenever the hit point `p` at that distance satisfies
`|p - centre|^2 <= radius^2`, and `floatMax` otherwise. -/
theorem C14_portal_intersect_is_plane_intersect_in_radius {F : Type} [LinearOrderedField F]
    (r : Ray F) (p : Portal F) :
    intersectPortal r p =
      if Vec3.dot ((r.point (intersectPlane r p.plane)).sub p.pos)
          ((r.point (intersectPlane r p.plane)).sub p.pos) ≤ p.radius * p.radius
      then intersectPlane r p.plane else floatMax := by
  unfold intersectPortal intersectPlane Portal.plane Ray.point
  simp only
  by_cases h1 : abs (Vec3.dot r.dir p.normal) > 0.001
  · by_cases h2 : Vec3.dot (p.pos.sub r.pos) p.normal / Vec3.dot r.dir p.normal > 0.001
    · simp only [if_pos h1, if_pos h2]
    · simp only [if_pos h1, if_neg h2, ite_self]
  · simp only [if_neg h1, ite_self]

/-! ## The sphere quadratic -/

theorem intersectSphere_eq {F : Type} [LinearOrderedField F] (sqrt : F → F) (r : Ray F)
    (s : Sphere F) :
    intersectSphere sqrt r s =
      if sphereDiscriminant r s < 0 then floatMax
      else -0.5 * (2 * Vec3.dot (r.pos.sub s.pos) r.dir + sqrt (sphereDiscriminant r s)) :=
  rfl

/-- Along a ray with unit direction, `|origin + t * dir - centre|^2 - radius^2` is the
quadratic `t^2 + b t + c` of `intersect(Ray, Sphere)`, here with the square completed. -/
theorem sphere_quadratic {F : Type} [LinearOrderedField F] (r : Ray F) (s : Sphere F)
    (hunit : Vec3.dot r.dir r.dir = 1) (t : F) :
    4 * (Vec3.dot ((r.point t).sub s.pos) ((r.point t).sub s.pos) - s.radius * s.radius) =
      (2 * t + 2 * Vec3.dot (r.pos.sub s.pos) r.dir) ^ 2 - sphereDiscriminant r s := by
  unfold sphereDiscriminant Ray.point Vec3.dot Vec3.sub Vec3.add Vec3.scale Vec3.lscale at *
  simp only at *
  linear_combination (4 * t ^ 2) * hunit

theorem isSqrt_sq {F : Type} [LinearOrderedField F] {sqrt : F → F} (hsqrt : IsSqrt sqrt)
    (x : F) : sqrt (x * x) = abs x := by
  obtain ⟨h0, h1⟩ := hsqrt (x * x) (mul_self_nonneg x)
  have h2 : sqrt (x * x) * sqrt (x * x) = abs x * abs x := by rw [h1, abs_mul_abs_self]
  exact (mul_self_inj h0 (abs_nonneg x)).mp h2

/-- With an exact square root and a unit direction, the value returned for a non-negative
discriminant is a root of the sphere quadratic. -/
theorem intersectSphere_root {F : Type} [LinearOrderedField F] {sqrt : F → F}
    (hsqrt : IsSqrt sqrt) (r : Ray F) (s : Sphere F) (hunit : Vec3.dot r.dir r.dir = 1)
    (hd : 0 ≤ sphereDiscriminant r s) :
    s.Contains (r.point (intersectSphere sqrt r s)) := by
  obtain ⟨_, h1⟩ := hsqrt _ hd
  have hq := sphere_quadratic r s hunit (intersectSphere sqrt r s)
  rw [intersectSphere_eq, if_neg (not_lt.mpr hd)] at hq ⊢
  unfold Sphere.Contains
  have h2 : (2 * (-0.5 * (2 * Vec3.dot (r.pos.sub s.pos) r.dir + sqrt (sphereDiscriminant r s)))
      + 2 * Vec3.dot (r.pos.sub s.pos) r.dir) ^ 2 = sphereDiscriminant r s := by
    norm_num
    linear_combination h1
  rw [h2, sub_self] at hq
  have h3 := (mul_eq_zero.mp hq).resolve_left (by norm_num)
  exact sub_eq_zero.mp h3

/-- C11: with an exact square root and a unit ray direction, the sphere `intersect` returns
`floatMax` when the discriminant is negative, and then the whole line misses the sphere;
otherwise it returns `-0.5 * (b + sqrt(discriminant))`, a parameter `t` at which
`origin + t * dir` lies on the sphere and the least such parameter. For a radius `>= 0`, an
origin outside the sphere and the direction `normalize(centre - origin)`, it returns
`distance(origin, centre) - radius`. -/
theorem C11_sphere_intersect_near_root {F : Type} [LinearOrderedField F] (sqrt : F → F)
    (r : Ray F) (s : Sphere F) (hsqrt : IsSqrt sqrt) (hunit : Vec3.dot r.dir r.dir = 1) :
    (sphereDiscriminant r s < 0 →
      intersectSphere sqrt r s = floatMax ∧ ∀ t, ¬ s.Contains (r.point t)) ∧
    (0 ≤ sphereDiscriminant r s →
      intersectSphere sqrt r s =
          -0.5 * (2 * Vec3.dot (r.pos.sub s.pos) r.dir + sqrt (sphereDiscriminant r s)) ∧
        s.Contains (r.point (intersectSphere sqrt r s)) ∧
        ∀ t, s.Contains (r.point t) → intersectSphere sqrt r s ≤ t) ∧
    (0 ≤ s.radius → s.radius < Vec3.distance sqrt r.pos s.pos →
      r.dir = Vec3.normalize sqrt (s.pos.sub r.pos) →
      intersectSphere sqrt r s = Vec3.distance sqrt r.pos s.pos - s.radius) := by
  refine ⟨?_, ?_, ?_⟩
  · intro hd
    refine ⟨by rw [intersectSphere_eq, if_pos hd], ?_⟩
    intro t ht
    have hq := sphere_quadratic r s hunit t
    unfold Sphere.Contains at ht
    rw [ht, sub_self, mul_zero] at hq
    nlinarith [sq_nonneg (2 * t + 2 * Vec3.dot (r.pos.sub s.pos) r.dir)]
  · intro hd
    obtain ⟨h0, h1⟩ := hsqrt _ hd
    have heq : intersectSphere sqrt r s =
        -0.5 * (2 * Vec3.dot (r.pos.sub s.pos) r.dir + sqrt (sphereDiscriminant r s)) := by
      rw [intersectSphere_eq, if_neg (not_lt.mpr hd)]
    refine ⟨heq, intersectSphere_root hsqrt r s hunit hd, ?_⟩
    intro t ht
    have hq := sphere_quadratic r s hunit t
    unfold Sphere.Contains at ht
    rw [ht, sub_self, mul_zero] at hq
    rw [heq]
    have h2 : (2 * t + 2 * Vec3.dot (r.pos.sub s.pos) r.dir) ^ 2
        = sqrt (sphereDiscriminant r s) ^ 2 := by
      rw [sq (sqrt _), h1]
      linear_combination -hq
    have h3 := abs_le_of_sq_le_sq' (le_of_eq h2) h0
    norm_num
    linarith [h3.1]
  · intro hr hout hdir
    set L := Vec3.distance sqrt r.pos s.pos with hL
    have hLpos : 0 < L := lt_of_le_of_lt hr hout
    have hLL : L * L = Vec3.dot (s.pos.sub r.pos) (s.pos.sub r.pos) := by
      have hnn : 0 ≤ Vec3.dot (s.pos.sub r.pos) (s.pos.sub r.pos) :=
        add_nonneg (add_nonneg (mul_self_nonneg _) (mul_self_nonneg _)) (mul_self_nonneg _)
      exact (hsqrt _ hnn).2
    have hLne : L ≠ 0 := ne_of_gt hLpos
    have hb : Vec3.dot (r.pos.sub s.pos) r.dir = -L := by
      rw [hdir]
      unfold Vec3.normalize
      change Vec3.dot (r.pos.sub s.pos) ((s.pos.sub r.pos).scale (1 / L)) = -L
      unfold Vec3.dot Vec3.sub Vec3.scale at *
      simp only at *
      field_simp
      linear_combination hLL
    have hdisc : sphereDiscriminant r s = (2 * s.radius) * (2 * s.radius) := by
      have hq := sphere_quadratic r s hunit 0
      have hp : r.point 0 = r.pos := by
        unfold Ray.point Vec3.add Vec3.scale
        simp
      rw [hp, hb] at hq
      have hsym : Vec3.dot (r.pos.sub s.pos) (r.pos.sub s.pos) = L * L := by
        rw [hLL]
        unfold Vec3.dot Vec3.sub
        simp only
        ring
      rw [hsym] at hq
      linear_combination hq
    rw [intersectSphere_eq, if_neg (not_lt.mpr (by rw [hdisc]; positivity)), hb, hdisc,
      isSqrt_sq hsqrt, abs_of_nonneg (by linarith)]
    norm_num
    ring

theorem isSqrt_real : IsSqrt Real.sqrt :=
  fun x hx => ⟨Real.sqrt_nonneg x, Real.mul_self_sqrt hx⟩

/-- Witness of C11: over the reals, the ray from the origin along `(0, 0, 1)` and the unit
sphere centred at `(0, 0, 5)`. -/
theorem C11_sphere_intersect_near_root_witness :
    IsSqrt Real.sqrt ∧ Vec3.dot (⟨0, 0, 1⟩ : Vec3 ℝ) ⟨0, 0, 1⟩ = 1 ∧
      intersectSphere Real.sqrt ⟨⟨0, 0, 0⟩, ⟨0, 0, 1⟩⟩ ⟨⟨0, 0, 5⟩, 1, 0⟩
        = Vec3.distance Real.sqrt ⟨0, 0, 0⟩ ⟨0, 0, 5⟩ - 1 ∧
      Sphere.Contains (⟨⟨0, 0, 5⟩, 1, 0⟩ : Sphere ℝ)
        (Ray.point ⟨⟨0, 0, 0⟩, ⟨0, 0, 1⟩⟩
          (intersectSphere Real.sqrt ⟨⟨0, 0, 0⟩, ⟨0, 0, 1⟩⟩ ⟨⟨0, 0, 5⟩, 1, 0⟩)) :=
  have h25 : Real.sqrt 25 = 5 := by
    rw [show (25 : ℝ) = 5 * 5 by norm_num, isSqrt_sq isSqrt_real]
    norm_num
  have hunit : Vec3.dot (⟨0, 0, 1⟩ : Vec3 ℝ) ⟨0, 0, 1⟩ = 1 := by norm_num [Vec3.dot]
  have h := C11_sphere_intersect_near_root Real.sqrt ⟨⟨0, 0, 0⟩, ⟨0, 0, 1⟩⟩ ⟨⟨0, 0, 5⟩, 1, 0⟩
    isSqrt_real hunit
  ⟨isSqrt_real, hunit,
    h.2.2 (by norm_num)
      (by norm_num [Vec3.distance, Vec3.length, Vec3.sub, Vec3.dot, h25])
      (by norm_num [Vec3.normalize, Vec3.sub, Vec3.scale, Vec3.dot, h25]),
    (h.2.1 (by norm_num [sphereDiscriminant, Vec3.dot, Vec3.sub, Vec3.lscale])).2.1⟩

/-! ## The voxel slab test -/

/-- One axis of the slab test: a parameter between the two plane distances of the axis
puts the coordinate `o + d * t` inside `[v, v + 1]`. -/
theorem slab_contains {F : Type} [LinearOrderedField F] {o d v t : F} (hd : d ≠ 0)
    (h1 : Min.min ((v - o) * (1 / d)) ((v - o) * (1 / d) + 1 / d) ≤ t)
    (h2 : t ≤ Max.max ((v - o) * (1 / d)) ((v - o) * (1 / d) + 1 / d)) :
    v ≤ o + d * t ∧ o + d * t ≤ v + 1 := by
  have hk : (v - o) * (1 / d) * d = v - o := by field_simp
  have hk1 : ((v - o) * (1 / d) + 1 / d) * d = v - o + 1 := by field_simp
  rcases lt_or_gt_of_ne hd with hneg | hpos
  · have hi : 1 / d < 0 := one_div_neg.mpr hneg
    rw [min_eq_right (by linarith)] at h1
    rw [max_eq_left (by linarith)] at h2
    have h3 := mul_le_mul_of_nonpos_right h1 (le_of_lt hneg)
    have h4 := mul_le_mul_of_nonpos_right h2 (le_of_lt hneg)
    rw [hk1] at h3
    rw [hk] at h4
    constructor <;> linarith
  · have hi : 0 < 1 / d := one_div_pos.mpr hpos
    rw [min_eq_left (by linarith)] at h1
    rw [max_eq_right (by linarith)] at h2
    have h3 := mul_le_mul_of_nonneg_right h1 (le_of_lt hpos)
    have h4 := mul_le_mul_of_nonneg_right h2 (le_of_lt hpos)
    rw [hk] at h3
    rw [hk1] at h4
    constructor <;> linarith

theorem intersectVoxel_rayAbove {F : Type} [LinearOrderedField F] (x y z : Int) (m : Nat) :
    intersectVoxel (rayAbove x y z : Ray F) ⟨⟨x, y, z⟩, m⟩ = 4 := by
  have hx : ((x : F) - ((x : F) + 0.5)) = -0.5 := by ring
  have hy : ((y : F) - ((y : F) + 5)) = -5 := by ring
  have hz : ((z : F) - ((z : F) + 0.5)) = -0.5 := by ring
  simp only [intersectVoxel, rayAbove, Vec3.min, Vec3.max, Vec3.mul, Vec3.sub, Vec3.add,
    Vec3.scalarDiv, IVec3.toVec3, hx, hy, hz]
  norm_num

theorem truncate_zero {F : Type} [LinearOrderedField F] [FloorRing F] :
    truncate (0 : F) = 0 := by
  unfold truncate
  rw [if_pos (le_refl _), Int.floor_zero]

theorem truncate_of_mem_Ico {F : Type} [LinearOrderedField F] [FloorRing F] {a : F}
    (h1 : 1 ≤ a) (h2 : a < 2) : truncate a = 1 := by
  unfold truncate
  rw [if_pos (by linarith), Int.floor_eq_iff]
  constructor
  · simpa using h1
  · norm_num
    linarith

theorem voxelNormal_rayAbove {F : Type} [LinearOrderedField F] [FloorRing F] (sqrt : F → F)
    (hs1 : sqrt 1 = 1) (x y z : Int) (m : Nat) :
    voxelNormal sqrt (rayAbove x y z : Ray F) ⟨⟨x, y, z⟩, m⟩ 4 = ⟨0, 1, 0⟩ := by
  have hx : ((x : F) + 0.5 + 0 * 4 - (x : F) - 0.5) = 0 := by ring
  have hy : 2.0001 * ((y : F) + 5 + -1 * 4 - (y : F) - 0.5) = 1.00005 := by ring
  have hz : ((z : F) + 0.5 + 0 * 4 - (z : F) - 0.5) = 0 := by ring
  have ht : truncate (1.00005 : F) = 1 := truncate_of_mem_Ico (by norm_num) (by norm_num)
  simp only [voxelNormal, rayAbove, Vec3.normalize, Vec3.lscale, Vec3.subScalar, Vec3.sub,
    Vec3.add, Vec3.scale, Vec3.dot, IVec3.toVec3, IVec3.ofVec3, hx, hy, hz, mul_zero,
    truncate_zero, ht]
  norm_num [hs1]

/-- C13: for every grid cell `(x, y, z)`, the ray from `(x + 0.5, y + 5, z + 0.5)` along
`(0, -1, 0)` gets voxel `intersect` distance `4` against the voxel at `(x, y, z)`; and in a
scene holding that voxel in which no plane, no sphere and no voxel of another cell is hit at
a distance in `(0, 4]`, `trace` returns the hit point `(x + 0.5, y + 1, z + 0.5)` with
normal `(0, 1, 0)` (exact arithmetic, `sqrt 1 = 1`). -/
theorem C13_ray_down_hits_voxel_top {F : Type} [LinearOrderedField F] [FloorRing F]
    (sqrt : F → F) (x y z : Int) (m : Nat) (scene : Scene F) (garbage : Vec3 F)
    (hs1 : sqrt 1 = 1)
    (hv : (⟨⟨x, y, z⟩, m⟩ : Voxel) ∈ scene.voxels.items)
    (hp : ∀ p ∈ scene.planes.items,
      ¬ (0 < intersectPlane (rayAbove x y z) p ∧ intersectPlane (rayAbove x y z) p ≤ 4))
    (hs : ∀ s ∈ scene.spheres.items,
      ¬ (0 < intersectSphere sqrt (rayAbove x y z) s ∧
        intersectSphere sqrt (rayAbove x y z) s ≤ 4))
    (hw : ∀ w ∈ scene.voxels.items, w.pos ≠ ⟨x, y, z⟩ →
      ¬ (0 < intersectVoxel (rayAbove x y z : Ray F) w ∧
        intersectVoxel (rayAbove x y z : Ray F) w ≤ 4)) :
    intersectVoxel (rayAbove x y z : Ray F) ⟨⟨x, y, z⟩, m⟩ = 4 ∧
      trace sqrt scene garbage (rayAbove x y z) =
        { pos := ⟨(x : F) + 0.5, (y : F) + 1, (z : F) + 0.5⟩, dir := ⟨0, 1, 0⟩ } := by
  refine ⟨intersectVoxel_rayAbove x y z m, ?_⟩
  have hfold := foldl_closer (F := F) { hitDist := floatMax, hitNormal := garbage }
    (candidates sqrt scene (rayAbove x y z))
  rw [← traceHit_eq_foldl] at hfold
  obtain ⟨hmin, _, hcase⟩ := hfold
  -- the candidate of the voxel itself
  have hcv : ((4 : F), (⟨0, 1, 0⟩ : Vec3 F)) ∈ candidates sqrt scene (rayAbove x y z) := by
    unfold candidates
    refine List.mem_append_right _ (List.mem_map.mpr ⟨⟨⟨x, y, z⟩, m⟩, hv, ?_⟩)
    rw [intersectVoxel_rayAbove, voxelNormal_rayAbove sqrt hs1]
  have h4 : (4 : F) < floatMax := by norm_num [floatMax]
  -- every candidate hit within distance 4 is that of the voxel
  have honly : ∀ c ∈ candidates sqrt scene (rayAbove x y z), 0 < c.1 → c.1 ≤ 4 →
      c = ((4 : F), (⟨0, 1, 0⟩ : Vec3 F)) := by
    intro c hc h0 hle
    unfold candidates at hc
    rcases List.mem_append.mp hc with hc | hc
    · rcases List.mem_append.mp hc with hc | hc
      · obtain ⟨p, hpm, rfl⟩ := List.mem_map.mp hc
        exact absurd ⟨h0, hle⟩ (hp p hpm)
      · obtain ⟨s, hsm, rfl⟩ := List.mem_map.mp hc
        exact absurd ⟨h0, hle⟩ (hs s hsm)
    · obtain ⟨w, hwm, rfl⟩ := List.mem_map.mp hc
      by_cases hpos : w.pos = ⟨x, y, z⟩
      · have hweq : w = ⟨⟨x, y, z⟩, w.material⟩ := by
          cases w
          simp only at hpos
          rw [hpos]
        rw [hweq, intersectVoxel_rayAbove, voxelNormal_rayAbove sqrt hs1]
      · exact absurd ⟨h0, hle⟩ (hw w hwm hpos)
  rcases hcase with ⟨_, hnone⟩ | ⟨i, d, n, hi, heq, hd0, _, _⟩
  · exact absurd ⟨by norm_num, h4⟩ (hnone _ hcv)
  · have hd4 : d ≤ 4 := by
      have := hmin _ hcv (by norm_num)
      rw [heq] at this
      exact this
    have hdn := honly (d, n) (List.getElem?_mem hi) hd0 hd4
    have hd : d = 4 := congrArg Prod.fst hdn
    have hn : n = ⟨0, 1, 0⟩ := congrArg Prod.snd hdn
    unfold trace
    rw [heq, hd, hn]
    simp only [rayAbove, Vec3.add, Vec3.scale]
    norm_num
    ring

/-- Witness of C13: over the reals, the cell `(3, 3, 3)` in a scene holding only that
voxel. -/
theorem C13_ray_down_hits_voxel_top_witness :
    intersectVoxel (rayAbove 3 3 3 : Ray ℝ) ⟨⟨3, 3, 3⟩, 2⟩ = 4 ∧
      trace Real.sqrt
          { planes := GpuSyncedList.create (Plane ℝ) 1
            spheres := GpuSyncedList.create (Sphere ℝ) 3
            voxels := GpuSyncedList.push id (GpuSyncedList.create Voxel 247) ⟨⟨3, 3, 3⟩, 2⟩
            portals := GpuSyncedList.create (Portal ℝ) 2 }
          ⟨0, 0, 0⟩ (rayAbove 3 3 3) =
        { pos := ⟨(3 : ℝ) + 0.5, (3 : ℝ) + 1, (3 : ℝ) + 0.5⟩, dir := ⟨0, 1, 0⟩ } :=
  C13_ray_down_hits_voxel_top Real.sqrt 3 3 3 2 _ ⟨0, 0, 0⟩ Real.sqrt_one
    (List.mem_cons_self _ _)
    (fun p hp => absurd hp (List.not_mem_nil p))
    (fun s hs => absurd hs (List.not_mem_nil s))
    (fun _ hw hne => absurd (congrArg Voxel.pos (List.mem_singleton.mp hw)) hne)

/-! ## Vector and matrix algebra -/

theorem Vec3.dot_comm {F : Type} [LinearOrderedField F] (a b : Vec3 F) :
    Vec3.dot a b = Vec3.dot b a := by
  unfold Vec3.dot
  ring

theorem Vec3.dot_self_nonneg {F : Type} [LinearOrderedField F] (a : Vec3 F) :
    0 ≤ Vec3.dot a a :=
  add_nonneg (add_nonneg (mul_self_nonneg _) (mul_self_nonneg _)) (mul_self_nonneg _)

theorem Vec3.dot_self_pos {F : Type} [LinearOrderedField F] {a : Vec3 F}
    (h : a ≠ ⟨0, 0, 0⟩) : 0 < Vec3.dot a a := by
  rcases lt_or_eq_of_le (Vec3.dot_self_nonneg a) with hlt | heq
  · exact hlt
  · exfalso
    apply h
    unfold Vec3.dot at heq
    have hx : a.x = 0 := by nlinarith [mul_self_nonneg a.x, mul_self_nonneg a.y, mul_self_nonneg a.z]
    have hy : a.y = 0 := by nlinarith [mul_self_nonneg a.x, mul_self_nonneg a.y, mul_self_nonneg a.z]
    have hz : a.z = 0 := by nlinarith [mul_self_nonneg a.x, mul_self_nonneg a.y, mul_self_nonneg a.z]
    cases a
    simp only at hx hy hz
    rw [hx, hy, hz]

theorem Vec3.dot_scale_left {F : Type} [LinearOrderedField F] (a b : Vec3 F) (k : F) :
    Vec3.dot (a.scale k) b = Vec3.dot a b * k := by
  unfold Vec3.dot Vec3.scale
  simp only
  ring

theorem Vec3.dot_cross_left {F : Type} [LinearOrderedField F] (a b : Vec3 F) :
    Vec3.dot (Vec3.cross a b) a = 0 := by
  unfold Vec3.dot Vec3.cross
  simp only
  ring

theorem Vec3.dot_cross_right {F : Type} [LinearOrderedField F] (a b : Vec3 F) :
    Vec3.dot (Vec3.cross a b) b = 0 := by
  unfold Vec3.dot Vec3.cross
  simp only
  ring

/-- Lagrange's identity `|a x b|^2 = |a|^2 |b|^2 - (a . b)^2`. -/
theorem Vec3.dot_cross_self {F : Type} [LinearOrderedField F] (a b : Vec3 F) :
    Vec3.dot (Vec3.cross a b) (Vec3.cross a b)
      = Vec3.dot a a * Vec3.dot b b - Vec3.dot a b * Vec3.dot a b := by
  unfold Vec3.dot Vec3.cross
  simp only
  ring

/-- With an exact square root, `normalize` of a non-zero vector has unit length. -/
theorem Vec3.dot_normalize_self {F : Type} [LinearOrderedField F] {sqrt : F → F}
    (hsqrt : IsSqrt sqrt) {v : Vec3 F} (hv : 0 < Vec3.dot v v) :
    Vec3.dot (Vec3.normalize sqrt v) (Vec3.normalize sqrt v) = 1 := by
  obtain ⟨h0, h1⟩ := hsqrt _ (le_of_lt hv)
  have hne : sqrt (Vec3.dot v v) ≠ 0 := by
    intro h
    rw [h, mul_zero] at h1
    exact absurd h1 (ne_of_lt hv)
  unfold Vec3.normalize
  rw [Vec3.dot_scale_left, Vec3.dot_comm, Vec3.dot_scale_left]
  field_simp
  linear_combination -h1

theorem Vec3.dot_normalize_left {F : Type} [LinearOrderedField F] (sqrt : F → F)
    (v w : Vec3 F) :
    Vec3.dot (Vec3.normalize sqrt v) w = Vec3.dot v w * (1 / sqrt (Vec3.dot v v)) :=
  Vec3.dot_scale_left v w _

theorem Mat3.mulVec_mul {F : Type} [LinearOrderedField F] (a b : Mat3 F) (v : Vec3 F) :
    (a.mul b).mulVec v = a.mulVec (b.mulVec v) := by
  unfold Mat3.mul Mat3.mulVec Vec3.add Vec3.scale
  simp only [Vec3.mk.injEq]
  refine ⟨?_, ?_, ?_⟩ <;> ring

theorem Mat3.identity_mulVec {F : Type} [LinearOrderedField F] (v : Vec3 F) :
    (Mat3.identity : Mat3 F).mulVec v = v := by
  unfold Mat3.identity Mat3.mulVec Vec3.add Vec3.scale
  cases v
  simp

theorem Mat3.inverse_mul_self {F : Type} [LinearOrderedField F] (m : Mat3 F)
    (hdet : m.determinant ≠ 0) : (Mat3.inverse m).mul m = Mat3.identity := by
  unfold Mat3.determinant at hdet
  unfold Mat3.inverse Mat3.mul Mat3.mulVec Mat3.identity Mat3.determinant Vec3.add Vec3.scale
  simp only [Mat3.mk.injEq, Vec3.mk.injEq]
  refine ⟨⟨?_, ?_, ?_⟩, ⟨?_, ?_, ?_⟩, ⟨?_, ?_, ?_⟩⟩ <;> field_simp <;> ring

theorem Mat3.mul_inverse_self {F : Type} [LinearOrderedField F] (m : Mat3 F)
    (hdet : m.determinant ≠ 0) : m.mul (Mat3.inverse m) = Mat3.identity := by
  unfold Mat3.determinant at hdet
  unfold Mat3.inverse Mat3.mul Mat3.mulVec Mat3.identity Mat3.determinant Vec3.add Vec3.scale
  simp only [Mat3.mk.injEq, Vec3.mk.injEq]
  refine ⟨⟨?_, ?_, ?_⟩, ⟨?_, ?_, ?_⟩, ⟨?_, ?_, ?_⟩⟩ <;> field_simp <;> ring

theorem Mat3.determinant_mul {F : Type} [LinearOrderedField F] (a b : Mat3 F) :
    (a.mul b).determinant = a.determinant * b.determinant := by
  unfold Mat3.mul Mat3.mulVec Mat3.determinant Vec3.add Vec3.scale
  simp only
  ring

theorem Mat3.determinant_identity {F : Type} [LinearOrderedField F] :
    (Mat3.identity : Mat3 F).determinant = 1 := by
  unfold Mat3.identity Mat3.determinant
  simp

/-! ## The portal basis -/

/-- The matrix with rows `t`, `b`, `n` times its transpose is the identity when the rows
are orthonormal. -/
theorem Mat3.rows_mul_transpose {F : Type} [LinearOrderedField F] (t b n : Vec3 F)
    (htt : Vec3.dot t t = 1) (hbb : Vec3.dot b b = 1) (hnn : Vec3.dot n n = 1)
    (htb : Vec3.dot t b = 0) (htn : Vec3.dot t n = 0) (hbn : Vec3.dot b n = 0) :
    (Mat3.transpose ⟨t, b, n⟩).mul (Mat3.transpose (Mat3.transpose ⟨t, b, n⟩))
      = Mat3.identity := by
  unfold Vec3.dot at *
  unfold Mat3.transpose Mat3.mul Mat3.mulVec Mat3.identity Vec3.add Vec3.scale
  simp only [Mat3.mk.injEq, Vec3.mk.injEq]
  refine ⟨⟨?_, ?_, ?_⟩, ⟨?_, ?_, ?_⟩, ⟨?_, ?_, ?_⟩⟩
  · linear_combination htt
  · linear_combination htb
  · linear_combination htn
  · linear_combination htb
  · linear_combination hbb
  · linear_combination hbn
  · linear_combination htn
  · linear_combination hbn
  · linear_combination hnn

theorem Mat3.rows_mulVec {F : Type} [LinearOrderedField F] (t b n v : Vec3 F) :
    (Mat3.transpose ⟨t, b, n⟩).mulVec v = ⟨Vec3.dot t v, Vec3.dot b v, Vec3.dot n v⟩ := by
  rfl

/-- With an exact square root and a non-zero normal, `getPortalMatrix` is the matrix whose
rows are an orthonormal triple `t`, `b`, `n`, with `n` the normalized normal. -/
theorem getPortalMatrix_rows {F : Type} [LinearOrderedField F] {sqrt : F → F}
    (hsqrt : IsSqrt sqrt) (portal : Portal F) (hn : portal.normal ≠ ⟨0, 0, 0⟩) :
    ∃ t b : Vec3 F,
      getPortalMatrix sqrt portal
        = Mat3.transpose ⟨t, b, Vec3.normalize sqrt portal.normal⟩ ∧
      Vec3.dot t t = 1 ∧ Vec3.dot b b = 1 ∧
      Vec3.dot (Vec3.normalize sqrt portal.normal) (Vec3.normalize sqrt portal.normal) = 1 ∧
      Vec3.dot t b = 0 ∧ Vec3.dot t (Vec3.normalize sqrt portal.normal) = 0 ∧
      Vec3.dot b (Vec3.normalize sqrt portal.normal) = 0 := by
  have hnn := Vec3.dot_normalize_self hsqrt (Vec3.dot_self_pos hn)
  simp only [getPortalMatrix]
  generalize Vec3.normalize sqrt portal.normal = n at hnn
  -- the helper vector is not parallel to `n`
  have hc : 0 < Vec3.dot
      (Vec3.cross n (if abs (Vec3.dot n ⟨0, 1, 0⟩) > 0.99 then (⟨1, 0, 0⟩ : Vec3 F)
        else ⟨0, 1, 0⟩))
      (Vec3.cross n (if abs (Vec3.dot n ⟨0, 1, 0⟩) > 0.99 then (⟨1, 0, 0⟩ : Vec3 F)
        else ⟨0, 1, 0⟩)) := by
    rw [Vec3.dot_cross_self, hnn]
    have hy : Vec3.dot n ⟨0, 1, 0⟩ = n.y := by
      unfold Vec3.dot
      simp
    rw [hy]
    have habs : abs n.y * abs n.y = n.y * n.y := abs_mul_abs_self n.y
    have h0 : 0 ≤ abs n.y := abs_nonneg _
    unfold Vec3.dot at hnn
    split_ifs with h
    · unfold Vec3.dot
      simp only
      nlinarith [mul_self_nonneg n.z, mul_self_nonneg n.x]
    · unfold Vec3.dot
      simp only
      have h' : abs n.y ≤ 0.99 := not_lt.mp h
      nlinarith [mul_self_nonneg n.z, mul_self_nonneg n.x]
  generalize (if abs (Vec3.dot n ⟨0, 1, 0⟩) > 0.99 then (⟨1, 0, 0⟩ : Vec3 F)
    else ⟨0, 1, 0⟩) = b1 at hc
  have htt := Vec3.dot_normalize_self hsqrt hc
  have htn : Vec3.dot (Vec3.normalize sqrt (Vec3.cross n b1)) n = 0 := by
    rw [Vec3.dot_normalize_left, Vec3.dot_cross_left, zero_mul]
  have hc2 : 0 < Vec3.dot (Vec3.cross (Vec3.normalize sqrt (Vec3.cross n b1)) n)
      (Vec3.cross (Vec3.normalize sqrt (Vec3.cross n b1)) n) := by
    rw [Vec3.dot_cross_self, htt, hnn, htn]
    norm_num
  have hbb := Vec3.dot_normalize_self hsqrt hc2
  refine ⟨Vec3.normalize sqrt (Vec3.cross n b1),
    Vec3.normalize sqrt (Vec3.cross (Vec3.normalize sqrt (Vec3.cross n b1)) n),
    ?_, htt, hbb, hnn, ?_, htn, ?_⟩
  · rfl
  · rw [Vec3.dot_comm, Vec3.dot_normalize_left, Vec3.dot_cross_left, zero_mul]
  · rw [Vec3.dot_normalize_left, Vec3.dot_cross_right, zero_mul]

theorem Mat3.transpose_transpose {F : Type} [LinearOrderedField F] (m : Mat3 F) :
    m.transpose.transpose = m := rfl

theorem getPortalMatrix_determinant_ne_zero {F : Type} [LinearOrderedField F] {sqrt : F → F}
    (hsqrt : IsSqrt sqrt) (portal : Portal F) (hn : portal.normal ≠ ⟨0, 0, 0⟩) :
    (getPortalMatrix sqrt portal).determinant ≠ 0 := by
  obtain ⟨t, b, hM, htt, hbb, hnn, htb, htn, hbn⟩ := getPortalMatrix_rows hsqrt portal hn
  have h := Mat3.rows_mul_transpose t b _ htt hbb hnn htb htn hbn
  have hdet := congrArg Mat3.determinant h
  rw [Mat3.determinant_mul, Mat3.determinant_identity, ← hM] at hdet
  intro h0
  rw [h0, zero_mul] at hdet
  exact zero_ne_one hdet

/-- C15: with an exact square root, for every portal with a non-zero normal
`getPortalMatrix` returns a matrix `M` with `M * transpose(M)` the identity, whose third row
is the normalized portal normal and whose first two rows (tangent, bitangent) are
orthogonal to the normal; `M` maps the normalized normal to `(0, 0, 1)`. -/
theorem C15_portal_matrix_orthonormal {F : Type} [LinearOrderedField F] (sqrt : F → F)
    (portal : Portal F) (hsqrt : IsSqrt sqrt) (hn : portal.normal ≠ ⟨0, 0, 0⟩) :
    (getPortalMatrix sqrt portal).mul (getPortalMatrix sqrt portal).transpose
        = Mat3.identity ∧
      (getPortalMatrix sqrt portal).transpose.c2 = Vec3.normalize sqrt portal.normal ∧
      Vec3.dot (getPortalMatrix sqrt portal).transpose.c0 portal.normal = 0 ∧
      Vec3.dot (getPortalMatrix sqrt portal).transpose.c1 portal.normal = 0 ∧
      (getPortalMatrix sqrt portal).mulVec (Vec3.normalize sqrt portal.normal)
        = ⟨0, 0, 1⟩ := by
  obtain ⟨t, b, hM, htt, hbb, hnn, htb, htn, hbn⟩ := getPortalMatrix_rows hsqrt portal hn
  have hpos := Vec3.dot_self_pos hn
  obtain ⟨h0, h1⟩ := hsqrt _ (le_of_lt hpos)
  have hk : (1 / sqrt (Vec3.dot portal.normal portal.normal)) ≠ 0 := by
    apply one_div_ne_zero
    intro h
    rw [h, mul_zero] at h1
    exact absurd h1 (ne_of_lt hpos)
  have hplane : ∀ v : Vec3 F, Vec3.dot v (Vec3.normalize sqrt portal.normal) = 0 →
      Vec3.dot v portal.normal = 0 := by
    intro v hv
    rw [Vec3.dot_comm, Vec3.dot_normalize_left] at hv
    rcases mul_eq_zero.mp hv with h | h
    · rw [Vec3.dot_comm]; exact h
    · exact absurd h hk
  rw [hM]
  refine ⟨Mat3.rows_mul_transpose t b _ htt hbb hnn htb htn hbn, rfl, hplane t htn,
    hplane b hbn, ?_⟩
  rw [Mat3.rows_mulVec, htn, hbn, hnn]

/-- Witness of C15: over the reals, a portal with normal `(1, 0, 0)`. -/
theorem C15_portal_matrix_orthonormal_witness :
    IsSqrt Real.sqrt ∧
      (getPortalMatrix Real.sqrt ⟨⟨-39.999, 7.67798, -4.46772⟩, ⟨1, 0, 0⟩, 0.6⟩).mul
          (getPortalMatrix Real.sqrt
            ⟨⟨-39.999, 7.67798, -4.46772⟩, ⟨1, 0, 0⟩, 0.6⟩).transpose = Mat3.identity :=
  ⟨isSqrt_real,
    (C15_portal_matrix_orthonormal Real.sqrt ⟨⟨-39.999, 7.67798, -4.46772⟩, ⟨1, 0, 0⟩, 0.6⟩
      isSqrt_real (fun h => one_ne_zero (congrArg Vec3.x h))).1⟩

/-- C16: with an exact square root, for all portals `A` and `B` with non-zero normals and
every position `p`, mapping `p` from `A` to `B` by
`B.pos + inverse(basis_B) * basis_A * (p - A.pos)` and the result back by
`A.pos + inverse(basis_A) * basis_B * (q - B.pos)` returns `p`. -/
theorem C16_portal_round_trip {F : Type} [LinearOrderedField F] (sqrt : F → F)
    (A B : Portal F) (p : Vec3 F) (hsqrt : IsSqrt sqrt)
    (hA : A.normal ≠ ⟨0, 0, 0⟩) (hB : B.normal ≠ ⟨0, 0, 0⟩) :
    teleportPosition (getPortalMatrix sqrt B) (getPortalMatrix sqrt A) B A
        (teleportPosition (getPortalMatrix sqrt A) (getPortalMatrix sqrt B) A B p) = p := by
  have hdA := getPortalMatrix_determinant_ne_zero hsqrt A hA
  have hdB := getPortalMatrix_determinant_ne_zero hsqrt B hB
  have hsub : ∀ a b : Vec3 F, (a.add b).sub a = b := by
    intro a b
    unfold Vec3.add Vec3.sub
    cases b
    simp
  have hadd : ∀ a b : Vec3 F, a.add (b.sub a) = b := by
    intro a b
    unfold Vec3.add Vec3.sub
    cases b
    simp
  unfold teleportPosition
  rw [hsub, Mat3.mulVec_mul, Mat3.mulVec_mul, ← Mat3.mulVec_mul (getPortalMatrix sqrt B),
    Mat3.mul_inverse_self _ hdB, Mat3.identity_mulVec, ← Mat3.mulVec_mul,
    Mat3.inverse_mul_self _ hdA, Mat3.identity_mulVec, hadd]

/-- Witness of C16: over the reals, the two portals of `loadScene` and the point
`(0, 10, 0)`. -/
theorem C16_portal_round_trip_witness :
    IsSqrt Real.sqrt ∧
      teleportPosition
        (getPortalMatrix Real.sqrt ⟨⟨-39.999, 7.67798, -4.46772⟩, ⟨1, 0, 0⟩, 0.6⟩)
        (getPortalMatrix Real.sqrt ⟨⟨1.999, 5.46093, 6.43585⟩, ⟨-1, 0, 0⟩, 0.6⟩)
        ⟨⟨-39.999, 7.67798, -4.46772⟩, ⟨1, 0, 0⟩, 0.6⟩
        ⟨⟨1.999, 5.46093, 6.43585⟩, ⟨-1, 0, 0⟩, 0.6⟩
        (teleportPosition
          (getPortalMatrix Real.sqrt ⟨⟨1.999, 5.46093, 6.43585⟩, ⟨-1, 0, 0⟩, 0.6⟩)
          (getPortalMatrix Real.sqrt ⟨⟨-39.999, 7.67798, -4.46772⟩, ⟨1, 0, 0⟩, 0.6⟩)
          ⟨⟨1.999, 5.46093, 6.43585⟩, ⟨-1, 0, 0⟩, 0.6⟩
          ⟨⟨-39.999, 7.67798, -4.46772⟩, ⟨1, 0, 0⟩, 0.6⟩ ⟨0, 10, 0⟩) = ⟨0, 10, 0⟩ :=
  ⟨isSqrt_real,
    C16_portal_round_trip Real.sqrt ⟨⟨1.999, 5.46093, 6.43585⟩, ⟨-1, 0, 0⟩, 0.6⟩
      ⟨⟨-39.999, 7.67798, -4.46772⟩, ⟨1, 0, 0⟩, 0.6⟩ ⟨0, 10, 0⟩ isSqrt_real
      (fun h => one_ne_zero (neg_eq_zero.mp (congrArg Vec3.x h)))
      (fun h => one_ne_zero (congrArg Vec3.x h))⟩

/-! ## Collision probing -/

/-- The distance stored by `trace` is positive: `floatMax` or a hit distance `d > 0`. -/
theorem traceHit_hitDist_pos {F : Type} [LinearOrderedField F] [FloorRing F] (sqrt : F → F)
    (scene : Scene F) (garbage : Vec3 F) (ray : Ray F) :
    0 < (traceHit sqrt scene garbage ray).hitDist := by
  have hfold := foldl_closer (F := F) { hitDist := floatMax, hitNormal := garbage }
    (candidates sqrt scene ray)
  rw [← traceHit_eq_foldl] at hfold
  rcases hfold.2.2 with ⟨heq, _⟩ | ⟨i, d, n, _, heq, hd0, _, _⟩
  · rw [heq]
    norm_num [floatMax]
  · rw [heq]
    exact hd0

/-- For a unit direction and an exact square root, the distance from the ray origin to the
point `trace` returns is the stored hit distance. -/
theorem distance_trace_pos {F : Type} [LinearOrderedField F] [FloorRing F] {sqrt : F → F}
    (hsqrt : IsSqrt sqrt) (scene : Scene F) (garbage : Vec3 F) (ray : Ray F)
    (hunit : Vec3.dot ray.dir ray.dir = 1) :
    Vec3.distance sqrt (trace sqrt scene garbage ray).pos ray.pos
        = (traceHit sqrt scene garbage ray).hitDist ∧
      Vec3.distance sqrt ray.pos (trace sqrt scene garbage ray).pos
        = (traceHit sqrt scene garbage ray).hitDist := by
  have hpos := traceHit_hitDist_pos sqrt scene garbage ray
  unfold Vec3.distance Vec3.length trace
  simp only
  generalize (traceHit sqrt scene garbage ray).hitDist = d at hpos ⊢
  have hsq : ∀ v : Vec3 F, Vec3.dot v v = d * d → sqrt (Vec3.dot v v) = d := by
    intro v hv
    rw [hv, isSqrt_sq hsqrt, abs_of_pos hpos]
  constructor
  · apply hsq
    unfold Vec3.dot Vec3.sub Vec3.add Vec3.scale at *
    simp only
    linear_combination (d * d) * hunit
  · apply hsq
    unfold Vec3.dot Vec3.sub Vec3.add Vec3.scale at *
    simp only
    linear_combination (d * d) * hunit

/-- C17: with an exact square root, for every start point, non-zero displacement `dir` and
clearance `epsilon`, `moveWithCollisionCheck` returns
`from + min(|dir|, max(0, h - epsilon)) * normalize(dir)`, where `h` is the distance `trace`
reports along `dir` (equal to the hit distance it stored). The direction is a unit vector,
and the factor is `>= 0` (never backwards), `<= |dir|` (never longer than requested), and
`<= h - epsilon` whenever `h >= epsilon` (at least `epsilon` short of the hit point). -/
theorem C17_move_with_collision_check_clamps {F : Type} [LinearOrderedField F] [FloorRing F]
    (sqrt : F → F) (scene : Scene F) (garbage : Vec3 F) (start dir : Vec3 F) (epsilon : F)
    (hsqrt : IsSqrt sqrt) (hdir : dir ≠ ⟨0, 0, 0⟩) :
    moveWithCollisionCheck sqrt scene garbage start dir epsilon =
        start.add (Vec3.lscale
          (Min.min (Vec3.length sqrt dir)
            (Max.max 0 (reportedDistance sqrt scene garbage start dir - epsilon)))
          (Vec3.normalize sqrt dir)) ∧
      reportedDistance sqrt scene garbage start dir
        = (traceHit sqrt scene garbage
            { pos := start, dir := Vec3.normalize sqrt dir }).hitDist ∧
      Vec3.dot (Vec3.normalize sqrt dir) (Vec3.normalize sqrt dir) = 1 ∧
      0 ≤ Min.min (Vec3.length sqrt dir)
        (Max.max 0 (reportedDistance sqrt scene garbage start dir - epsilon)) ∧
      Min.min (Vec3.length sqrt dir)
        (Max.max 0 (reportedDistance sqrt scene garbage start dir - epsilon))
          ≤ Vec3.length sqrt dir ∧
      (epsilon ≤ reportedDistance sqrt scene garbage start dir →
        Min.min (Vec3.length sqrt dir)
          (Max.max 0 (reportedDistance sqrt scene garbage start dir - epsilon))
            ≤ reportedDistance sqrt scene garbage start dir - epsilon) := by
  have hunit := Vec3.dot_normalize_self hsqrt (Vec3.dot_self_pos hdir)
  refine ⟨rfl, ?_, hunit, ?_, min_le_left _ _, ?_⟩
  · exact (distance_trace_pos hsqrt scene garbage
      { pos := start, dir := Vec3.normalize sqrt dir } hunit).1
  · exact le_min (hsqrt _ (Vec3.dot_self_nonneg dir)).1 (le_max_left _ _)
  · intro h
    exact le_trans (min_le_right _ _) (max_le (by linarith) (le_refl _))

/-- Witness of C17: over the reals, a step of length 20 straight down from `(0, 10, 0)`
in an empty scene. -/
theorem C17_move_with_collision_check_clamps_witness :
    IsSqrt Real.sqrt ∧
      0 ≤ Min.min (Vec3.length Real.sqrt (⟨0, -20, 0⟩ : Vec3 ℝ))
        (Max.max 0 (reportedDistance Real.sqrt
          { planes := GpuSyncedList.create (Plane ℝ) 1
            spheres := GpuSyncedList.create (Sphere ℝ) 3
            voxels := GpuSyncedList.create Voxel 247
            portals := GpuSyncedList.create (Portal ℝ) 2 }
          ⟨0, 0, 0⟩ ⟨0, 10, 0⟩ ⟨0, -20, 0⟩ - 0.01)) :=
  ⟨isSqrt_real,
    (C17_move_with_collision_check_clamps Real.sqrt _ ⟨0, 0, 0⟩ ⟨0, 10, 0⟩ ⟨0, -20, 0⟩ 0.01
      isSqrt_real (fun h => by
        have := congrArg Vec3.y h
        norm_num at this)).2.2.2.1⟩

/-! ## Build mode: the right-click search -/

theorem GpuSyncedList.sync_items {T : Type} {l l' : GpuSyncedList T} {calls : List GpuCall}
    (h : GpuSyncedList.sync l = some (l', calls)) : l'.items = l.items := by
  unfold GpuSyncedList.sync at h
  split_ifs at h
  · cases hu : updateGpuBuffer (recreateGpuBuffer T l.itemsCapacity) 0 l.items with
    | none => rw [hu] at h; exact Option.noConfusion h
    | some b =>
      rw [hu, Option.map_some'] at h
      have h1 := congrArg Prod.fst (Option.some.inj h)
      simp only at h1
      rw [← h1]
  · cases hf : (List.range (l.items.length + 1)).foldlM (GpuSyncedList.bindLoopBody l.items)
        { startIdx := -1, dirtyBits := l.dirtyBits, gpuBuffer := l.gpuBuffer, calls := [] } with
    | none => rw [hf] at h; exact Option.noConfusion h
    | some st =>
      rw [hf, Option.map_some'] at h
      have h1 := congrArg Prod.fst (Option.some.inj h)
      simp only at h1
      rw [← h1]

theorem GpuSyncedList.bind_items {T : Type} {l l' : GpuSyncedList T} {calls : List GpuCall}
    {slot : BufferSlot} {binding : Int}
    (h : GpuSyncedList.bind slot binding l = some (l', calls)) : l'.items = l.items := by
  obtain ⟨calls0, hs⟩ := GpuSyncedList.sync_of_bind h
  exact GpuSyncedList.sync_items hs

theorem bindScene_items {F : Type} [LinearOrderedField F] [FloorRing F] {s s' : Scene F}
    (h : bindScene s = some s') :
    s'.planes.items = s.planes.items ∧ s'.spheres.items = s.spheres.items ∧
      s'.voxels.items = s.voxels.items ∧ s'.portals.items = s.portals.items := by
  unfold bindScene at h
  cases h1 : s.planes.bind .shaderStorage 2 with
  | none => rw [h1] at h; exact Option.noConfusion h
  | some r1 =>
    cases h2 : s.spheres.bind .shaderStorage 3 with
    | none => rw [h1, h2] at h; exact Option.noConfusion h
    | some r2 =>
      cases h3 : s.voxels.bind .shaderStorage 4 with
      | none => rw [h1, h2, h3] at h; exact Option.noConfusion h
      | some r3 =>
        cases h4 : s.portals.bind .shaderStorage 5 with
        | none => rw [h1, h2, h3, h4] at h; exact Option.noConfusion h
        | some r4 =>
          rw [h1, h2, h3, h4] at h
          have hs := Option.some.inj h
          rw [← hs]
          exact ⟨GpuSyncedList.bind_items h1, GpuSyncedList.bind_items h2,
            GpuSyncedList.bind_items h3, GpuSyncedList.bind_items h4⟩

theorem verticalMove_scene {F : Type} [LinearOrderedField F] [FloorRing F] (env : Env F)
    (dt : F) (g : Game F) : (verticalMove env dt g).scene = g.scene := by
  unfold verticalMove
  simp only
  split_ifs <;> rfl

theorem horizontalMove_scene {F : Type} [LinearOrderedField F] [FloorRing F] (env : Env F)
    (deltaPos : Vec3 F) (g : Game F) : (horizontalMove env deltaPos g).scene = g.scene := by
  unfold horizontalMove
  simp only
  split_ifs <;> rfl

theorem groundCheck_scene {F : Type} [LinearOrderedField F] [FloorRing F] (env : Env F)
    (dt : F) (g : Game F) : (groundCheck env dt g).scene = g.scene := by
  unfold groundCheck
  simp only
  split_ifs <;> rfl

theorem playUpdate_scene {F : Type} [LinearOrderedField F] [FloorRing F] {env : Env F}
    {dt : F} {deltaPos : Vec3 F} {g g' : Game F} (h : playUpdate env dt deltaPos g = some g') :
    g'.scene = g.scene := by
  unfold playUpdate at h
  simp only at h
  cases h1 : getClosestPortal env g.scene.portals g.cameraPos with
  | none => rw [h1] at h; exact Option.noConfusion h
  | some idx =>
    rw [h1] at h
    cases h2 : g.scene.portals.get idx with
    | none =>
      rw [Option.some_bind, h2] at h
      exact Option.noConfusion h
    | some portalIn =>
      rw [Option.some_bind, h2] at h
      cases h3 : g.scene.portals.get (1 - idx) with
      | none =>
        rw [Option.some_bind, h3] at h
        exact Option.noConfusion h
      | some portalOut =>
        rw [Option.some_bind, h3] at h
        have hs := Option.some.inj h
        rw [← hs, groundCheck_scene, horizontalMove_scene, verticalMove_scene]
        split_ifs <;> rfl

theorem gameOnUpdate_items {F : Type} [LinearOrderedField F] [FloorRing F] {env : Env F}
    {dt : F} {input : Input} {g g' : Game F} (h : gameOnUpdate env dt input g = some g') :
    g'.scene.planes.items = g.scene.planes.items ∧
      g'.scene.spheres.items = g.scene.spheres.items ∧
      g'.scene.voxels.items = g.scene.voxels.items ∧
      g'.scene.portals.items = g.scene.portals.items := by
  unfold gameOnUpdate at h
  simp only at h
  split_ifs at h with hmode
  all_goals
    first
    | (cases h1 : playUpdate env dt _ g with
        | none => rw [h1] at h; exact Option.noConfusion h
        | some g1 =>
          rw [h1, Option.some_bind] at h
          cases h2 : bindScene g1.scene with
          | none => rw [h2] at h; exact Option.noConfusion h
          | some s =>
            rw [h2] at h
            have hs := Option.some.inj h
            rw [← hs, ← playUpdate_scene h1]
            exact bindScene_items h2)
    | (rw [Option.some_bind] at h
       cases h2 : bindScene g.scene with
        | none =>
          simp only at h
          rw [h2] at h
          exact Option.noConfusion h
        | some s =>
          simp only at h
          rw [h2] at h
          have hs := Option.some.inj h
          rw [← hs]
          exact bindScene_items h2)

theorem GpuSyncedList.set_items {T : Type} {l l' : GpuSyncedList T} {index : Nat} {item : T}
    (h : GpuSyncedList.set l index item = some l') :
    index < l.items.length ∧ l'.items = l.items.set index item := by
  by_cases hi : index < l.items.length
  · rw [GpuSyncedList.set_eq item hi] at h
    rw [← Option.some.inj h]
    exact ⟨hi, rfl⟩
  · rw [GpuSyncedList.set_none item hi] at h
    exact Option.noConfusion h

theorem gameOnMouseButton_play {F : Type} [LinearOrderedField F] [FloorRing F]
    (env : Env F) (g : Game F) (hm : g.gameMode = .PlayMode) :
    gameOnMouseButton env .left .press g =
        (g.scene.portals.set 0 (placedPortal env g)).map
          (fun p => { g with scene := { g.scene with portals := p } }) ∧
      gameOnMouseButton env .right .press g =
        (g.scene.portals.set 1 (placedPortal env g)).map
          (fun p => { g with scene := { g.scene with portals := p } }) ∧
      gameOnMouseButton env .other .press g = some g := by
  cases g
  simp only at hm
  subst hm
  refine ⟨?_, rfl, rfl⟩
  unfold gameOnMouseButton placedPortal
  simp only [if_true]
  cases GpuSyncedList.set _ 0 _ <;> rfl

theorem gameOnMouseButton_portals_length {F : Type} [LinearOrderedField F] [FloorRing F]
    {env : Env F} {button : MouseButton} {action : Action} {g g' : Game F}
    (h : gameOnMouseButton env button action g = some g') :
    g'.scene.portals.items.length = g.scene.portals.items.length := by
  cases action with
  | notPress =>
    have h' : some g = some g' := h
    rw [← Option.some.inj h']
  | press =>
    cases hm : g.gameMode with
    | PlayMode =>
      obtain ⟨hl, hr, ho⟩ := gameOnMouseButton_play env g hm
      cases button with
      | left =>
        rw [hl, Option.map_eq_some'] at h
        obtain ⟨p, hp, hg⟩ := h
        rw [← hg]
        show p.items.length = _
        rw [(GpuSyncedList.set_items hp).2, List.length_set]
      | right =>
        rw [hr, Option.map_eq_some'] at h
        obtain ⟨p, hp, hg⟩ := h
        rw [← hg]
        show p.items.length = _
        rw [(GpuSyncedList.set_items hp).2, List.length_set]
      | other =>
        rw [ho] at h
        rw [← Option.some.inj h]
    | BuildMode =>
      unfold gameOnMouseButton at h
      simp only [hm, if_true] at h
      rw [Option.map_eq_some'] at h
      obtain ⟨v2, _, hg⟩ := h
      rw [← hg]

theorem handle_portals_length {F : Type} [LinearOrderedField F] [FloorRing F] {env : Env F}
    {e : Event F} {g g' : Game F} (h : handle env e g = some g') :
    g'.scene.portals.items.length = g.scene.portals.items.length := by
  cases e with
  | key k a =>
    rw [← Option.some.inj h]
    show (gameOnKey k a g).scene.portals.items.length = _
    unfold gameOnKey
    split_ifs <;> (try cases k) <;> simp only <;> (try split_ifs) <;> rfl
  | mouseMove x y =>
    rw [← Option.some.inj h]
    rfl
  | mouseButton b a => exact gameOnMouseButton_portals_length h
  | mouseWheel dY =>
    rw [← Option.some.inj h]
    show (gameOnMouseWheel dY g).scene.portals.items.length = _
    unfold gameOnMouseWheel
    cases g.gameMode <;> rfl
  | update dt input =>
    have h' : gameOnUpdate env dt input g = some g' := h
    rw [(gameOnUpdate_items h').2.2.2]

theorem playable_portals_length {F : Type} [LinearOrderedField F] [FloorRing F] {env : Env F}
    {g : Game F} (hp : Playable env g) : g.scene.portals.items.length = 2 := by
  induction hp with
  | start x y => rfl
  | step e _ h ih => rw [handle_portals_length h, ih]

/-- The binds at the end of a tick succeed on consistent lists and keep them consistent. -/
theorem bindScene_spec {F : Type} [LinearOrderedField F] [FloorRing F] (s : Scene F)
    (h1 : s.planes.Inv) (h2 : s.spheres.Inv) (h3 : s.voxels.Inv) (h4 : s.portals.Inv) :
    ∃ s', bindScene s = some s' ∧
      s'.planes.items = s.planes.items ∧ s'.spheres.items = s.spheres.items ∧
      s'.voxels.items = s.voxels.items ∧ s'.portals.items = s.portals.items ∧
      s'.planes.Inv ∧ s'.spheres.Inv ∧ s'.voxels.Inv ∧ s'.portals.Inv := by
  obtain ⟨l1, c1, hb1, hi1, hv1, _⟩ :=
    GpuSyncedList.bind_spec h1 2 (rfl : BufferSlot.shaderStorage.indexed = true)
  obtain ⟨l2, c2, hb2, hi2, hv2, _⟩ :=
    GpuSyncedList.bind_spec h2 3 (rfl : BufferSlot.shaderStorage.indexed = true)
  obtain ⟨l3, c3, hb3, hi3, hv3, _⟩ :=
    GpuSyncedList.bind_spec h3 4 (rfl : BufferSlot.shaderStorage.indexed = true)
  obtain ⟨l4, c4, hb4, hi4, hv4, _⟩ :=
    GpuSyncedList.bind_spec h4 5 (rfl : BufferSlot.shaderStorage.indexed = true)
  refine ⟨⟨l1, l2, l3, l4⟩, ?_, hi1, hi2, hi3, hi4, hv1, hv2, hv3, hv4⟩
  unfold bindScene
  rw [hb1, hb2, hb3, hb4]
  rfl

theorem GpuSyncedList.inv_foldl_push {T : Type} (grow : Nat → Nat) (items : List T)
    (l : GpuSyncedList T) (hinv : l.Inv) :
    (items.foldl (GpuSyncedList.push grow) l).Inv := by
  induction items generalizing l with
  | nil => exact hinv
  | cons a as ih => exact ih _ (GpuSyncedList.inv_push grow a hinv)

theorem bindScene_inv {F : Type} [LinearOrderedField F] [FloorRing F] {s s' : Scene F}
    (h : bindScene s = some s') (hinv : s.Inv) : s'.Inv := by
  obtain ⟨t, ht, _, _, _, _, j1, j2, j3, j4⟩ :=
    bindScene_spec s hinv.1 hinv.2.1 hinv.2.2.1 hinv.2.2.2
  rw [ht] at h
  rw [← Option.some.inj h]
  exact ⟨j1, j2, j3, j4⟩

/-- A tick that returns leaves the scene that the binds make of the old one. -/
theorem gameOnUpdate_bindScene {F : Type} [LinearOrderedField F] [FloorRing F] {env : Env F}
    {dt : F} {input : Input} {g g' : Game F} (h : gameOnUpdate env dt input g = some g') :
    bindScene g.scene = some g'.scene := by
  unfold gameOnUpdate at h
  simp only at h
  split_ifs at h with hmode
  all_goals
    first
    | (cases h1 : playUpdate env dt _ g with
        | none => rw [h1] at h; exact Option.noConfusion h
        | some g1 =>
          rw [h1, Option.some_bind] at h
          cases h2 : bindScene g1.scene with
          | none => rw [h2] at h; exact Option.noConfusion h
          | some s =>
            rw [h2] at h
            have hs := Option.some.inj h
            rw [← hs, ← playUpdate_scene h1]
            exact h2)
    | (rw [Option.some_bind] at h
       cases h2 : bindScene g.scene with
        | none =>
          simp only at h
          rw [h2] at h
          exact Option.noConfusion h
        | some s =>
          simp only at h
          rw [h2] at h
          have hs := Option.some.inj h
          rw [← hs])

/-- With two portals in the list, the Play-mode branch of a tick passes its index
assertions. -/
theorem playUpdate_total {F : Type} [LinearOrderedField F] [FloorRing F] (env : Env F)
    (dt : F) (deltaPos : Vec3 F) (g : Game F) (hlen : g.scene.portals.items.length = 2) :
    ∃ g1, playUpdate env dt deltaPos g = some g1 := by
  obtain ⟨P1, P2, hportals⟩ := List.length_eq_two.mp hlen
  have hg0 : g.scene.portals.get 0 = some P1 := by
    rw [GpuSyncedList.get_eq (by rw [hportals]; exact Nat.zero_lt_succ _), hportals]
    rfl
  have hg1 : g.scene.portals.get 1 = some P2 := by
    rw [GpuSyncedList.get_eq (by rw [hportals]; exact Nat.lt_succ_self _), hportals]
    rfl
  unfold playUpdate getClosestPortal
  simp only [hg0, hg1, Option.some_bind, Option.map_some']
  split_ifs
  · simp only [hg0, hg1, Option.some_bind, Option.map_some']
    exact ⟨_, rfl⟩
  · simp only [hg0, hg1, Option.some_bind, Option.map_some']
    exact ⟨_, rfl⟩

/-- With two portals in the list and consistent lists, a tick passes all its assertions. -/
theorem gameOnUpdate_total {F : Type} [LinearOrderedField F] [FloorRing F] (env : Env F)
    (dt : F) (input : Input) (g : Game F) (hlen : g.scene.portals.items.length = 2)
    (hinv : g.scene.Inv) : ∃ g', gameOnUpdate env dt input g = some g' := by
  have hb : ∀ g1 : Game F, g1.scene = g.scene →
      ∃ g', ((bindScene g1.scene).map fun scene => { g1 with scene := scene }) = some g' := by
    intro g1 hs
    obtain ⟨t, ht, _⟩ := bindScene_spec g.scene hinv.1 hinv.2.1 hinv.2.2.1 hinv.2.2.2
    rw [hs, ht]
    exact ⟨_, rfl⟩
  unfold gameOnUpdate
  simp only
  split_ifs with hmode
  all_goals
    first
    | (obtain ⟨g1, h1⟩ := playUpdate_total env dt _ g hlen
       rw [h1, Option.some_bind]
       exact hb g1 (playUpdate_scene h1))
    | (rw [Option.some_bind]
       exact hb _ rfl)

/-- A mouse click passes its assertions when the portal list holds two records. -/
theorem gameOnMouseButton_total {F : Type} [LinearOrderedField F] [FloorRing F] (env : Env F)
    (button : MouseButton) (action : Action) (g : Game F)
    (hlen : g.scene.portals.items.length = 2) :
    ∃ g', gameOnMouseButton env button action g = some g' := by
  cases action with
  | notPress => exact ⟨g, rfl⟩
  | press =>
    cases hm : g.gameMode with
    | PlayMode =>
      obtain ⟨hl, hr, ho⟩ := gameOnMouseButton_play env g hm
      cases button with
      | left =>
        rw [hl, GpuSyncedList.set_eq _ (by rw [hlen]; exact Nat.zero_lt_succ _)]
        exact ⟨_, rfl⟩
      | right =>
        rw [hr, GpuSyncedList.set_eq _ (by rw [hlen]; exact Nat.lt_succ_self _)]
        exact ⟨_, rfl⟩
      | other => exact ⟨g, ho⟩
    | BuildMode =>
      unfold gameOnMouseButton
      simp only [hm, if_true]
      cases button with
      | left => exact ⟨_, rfl⟩
      | other => exact ⟨_, rfl⟩
      | right =>
        simp only [reduceCtorEq, if_false, if_true]
        split_ifs with hidx
        · rw [GpuSyncedList.remove_eq hidx]
          exact ⟨_, rfl⟩
        · exact ⟨_, rfl⟩

theorem gameOnMouseButton_inv {F : Type} [LinearOrderedField F] [FloorRing F]
    {env : Env F} {button : MouseButton} {action : Action} {g g' : Game F}
    (h : gameOnMouseButton env button action g = some g') (hinv : g.scene.Inv) :
    g'.scene.Inv := by
  cases action with
  | notPress =>
    have h' : some g = some g' := h
    rw [← Option.some.inj h']
    exact hinv
  | press =>
    cases hm : g.gameMode with
    | PlayMode =>
      obtain ⟨hl, hr, ho⟩ := gameOnMouseButton_play env g hm
      cases button with
      | left =>
        rw [hl, Option.map_eq_some'] at h
        obtain ⟨p, hp, hg⟩ := h
        rw [← hg]
        exact ⟨hinv.1, hinv.2.1, hinv.2.2.1, GpuSyncedList.inv_set hp hinv.2.2.2⟩
      | right =>
        rw [hr, Option.map_eq_some'] at h
        obtain ⟨p, hp, hg⟩ := h
        rw [← hg]
        exact ⟨hinv.1, hinv.2.1, hinv.2.2.1, GpuSyncedList.inv_set hp hinv.2.2.2⟩
      | other =>
        rw [ho] at h
        rw [← Option.some.inj h]
        exact hinv
    | BuildMode =>
      unfold gameOnMouseButton at h
      simp only [hm, if_true] at h
      rw [Option.map_eq_some'] at h
      obtain ⟨v2, hv2, hg⟩ := h
      rw [← hg]
      refine ⟨hinv.1, hinv.2.1, ?_, hinv.2.2.2⟩
      show v2.Inv
      cases button with
      | left =>
        simp only [if_true] at hv2
        have hv := Option.some.inj hv2
        simp only [reduceCtorEq, if_false] at hv
        rw [← hv]
        exact GpuSyncedList.inv_push env.grow _ hinv.2.2.1
      | other =>
        have hv := Option.some.inj hv2
        rw [← hv]
        exact hinv.2.2.1
      | right =>
        simp only [if_true, reduceCtorEq, if_false] at hv2
        split_ifs at hv2 with hidx
        · exact GpuSyncedList.inv_remove hv2 hinv.2.2.1
        · rw [← Option.some.inj hv2]
          exact hinv.2.2.1

theorem handle_inv {F : Type} [LinearOrderedField F] [FloorRing F] {env : Env F}
    {e : Event F} {g g' : Game F} (h : handle env e g = some g') (hinv : g.scene.Inv) :
    g'.scene.Inv := by
  cases e with
  | key k a =>
    rw [← Option.some.inj h]
    have hs : (gameOnKey k a g).scene = g.scene := by
      unfold gameOnKey
      split_ifs <;> (try cases k) <;> simp only <;> (try split_ifs) <;> rfl
    rw [hs]
    exact hinv
  | mouseMove x y =>
    rw [← Option.some.inj h]
    exact hinv
  | mouseButton b a => exact gameOnMouseButton_inv h hinv
  | mouseWheel dY =>
    rw [← Option.some.inj h]
    have hs : (gameOnMouseWheel dY g).scene = g.scene := by
      unfold gameOnMouseWheel
      cases g.gameMode <;> rfl
    rw [hs]
    exact hinv
  | update dt input =>
    have h' : gameOnUpdate env dt input g = some g' := h
    exact bindScene_inv (gameOnUpdate_bindScene h') hinv

theorem playable_inv {F : Type} [LinearOrderedField F] [FloorRing F] {env : Env F}
    {g : Game F} (hp : Playable env g) : g.scene.Inv := by
  induction hp with
  | start x y =>
    refine ⟨?_, ?_, ?_, ?_⟩
    · exact GpuSyncedList.inv_push env.grow _ (GpuSyncedList.inv_create 1)
    · exact GpuSyncedList.inv_push env.grow _ (GpuSyncedList.inv_push env.grow _
        (GpuSyncedList.inv_push env.grow _ (GpuSyncedList.inv_create 3)))
    · unfold loadScene
      simp only
      exact GpuSyncedList.inv_foldl_push env.grow loadSceneVoxels
        (GpuSyncedList.create Voxel 247) (GpuSyncedList.inv_create 247)
    · exact GpuSyncedList.inv_push env.grow _
        (GpuSyncedList.inv_push env.grow _ (GpuSyncedList.inv_create 2))
  | step e _ h ih => exact handle_inv h ih

/-- From a state with two portals and consistent lists, every handler returns. -/
theorem handle_total {F : Type} [LinearOrderedField F] [FloorRing F] (env : Env F)
    (e : Event F) (g : Game F) (hlen : g.scene.portals.items.length = 2)
    (hinv : g.scene.Inv) : ∃ g', handle env e g = some g' := by
  cases e with
  | key k a => exact ⟨_, rfl⟩
  | mouseMove x y => exact ⟨_, rfl⟩
  | mouseButton b a => exact gameOnMouseButton_total env b a g hlen
  | mouseWheel dY => exact ⟨_, rfl⟩
  | update dt input => exact gameOnUpdate_total env dt input g hlen hinv

/-- C20: after `loadScene` and any sequence of events (key, mouse move, mouse button, wheel,
update tick), the portal list has exactly 2 records, and every handler returns (passes its
assertions) with the portal list still at 2 records. In Play mode a left-click overwrites
portal 0 only, a right-click overwrites portal 1 only: the other record reads as before. -/
theorem C20_portal_list_keeps_two_records {F : Type} [LinearOrderedField F] [FloorRing F]
    (env : Env F) (g : Game F) (hp : Playable env g) :
    g.scene.portals.length = 2 ∧
    (∀ e : Event F, ∃ g', handle env e g = some g' ∧ g'.scene.portals.length = 2) ∧
    (g.gameMode = .PlayMode →
      ∃ g', gameOnMouseButton env .left .press g = some g' ∧
        g'.scene.portals.length = 2 ∧
        g'.scene.portals.get 0 = some (placedPortal env g) ∧
        g'.scene.portals.get 1 = g.scene.portals.get 1) ∧
    (g.gameMode = .PlayMode →
      ∃ g', gameOnMouseButton env .right .press g = some g' ∧
        g'.scene.portals.length = 2 ∧
        g'.scene.portals.get 1 = some (placedPortal env g) ∧
        g'.scene.portals.get 0 = g.scene.portals.get 0) := by
  have hlen : g.scene.portals.items.length = 2 := playable_portals_length hp
  have hclick : ∀ i, i < 2 → ∀ j, j < 2 → j ≠ i →
      ∃ l', g.scene.portals.set i (placedPortal env g) = some l' ∧ l'.length = 2 ∧
        l'.get i = some (placedPortal env g) ∧ l'.get j = g.scene.portals.get j := by
    intro i hi j hj hji
    have hi' : i < g.scene.portals.items.length := by omega
    have hj' : j < g.scene.portals.items.length := by omega
    have hl : (g.scene.portals.items.set i (placedPortal env g)).length = 2 := by
      rw [List.length_set, hlen]
    refine ⟨_, GpuSyncedList.set_eq _ hi', hl, ?_, ?_⟩
    · rw [GpuSyncedList.get_eq (by rw [hl]; exact hi)]
      show (g.scene.portals.items.set i (placedPortal env g))[i]? = _
      rw [List.getElem?_set, if_pos rfl, if_pos hi']
    · rw [GpuSyncedList.get_eq (by rw [hl]; exact hj), GpuSyncedList.get_eq hj']
      show (g.scene.portals.items.set i (placedPortal env g))[j]? = _
      rw [List.getElem?_set, if_neg (fun h => hji h.symm)]
  refine ⟨hlen, ?_, ?_, ?_⟩
  · intro e
    obtain ⟨g', h⟩ := handle_total env e g hlen (playable_inv hp)
    exact ⟨g', h, (handle_portals_length h).trans hlen⟩
  · intro hm
    obtain ⟨l', hs, h2, h0, h1⟩ := hclick 0 (by omega) 1 (by omega) (by omega)
    refine ⟨{ g with scene := { g.scene with portals := l' } }, ?_, h2, h0, h1⟩
    rw [(gameOnMouseButton_play env g hm).1, hs]
    rfl
  · intro hm
    obtain ⟨l', hs, h2, h1, h0⟩ := hclick 1 (by omega) 0 (by omega) (by omega)
    refine ⟨{ g with scene := { g.scene with portals := l' } }, ?_, h2, h1, h0⟩
    rw [(gameOnMouseButton_play env g hm).2.1, hs]
    rfl

/-- Witness of C20: the loaded game over `ℚ` after a key press and a mouse move. -/
theorem C20_portal_list_keeps_two_records_witness :
    Playable exampleEnv (gameOnMouseMove exampleEnv 3 4 (gameOnKey Key.space Action.press
        exampleGame)) ∧
      (gameOnMouseMove exampleEnv 3 4 (gameOnKey Key.space Action.press
        exampleGame)).scene.portals.length = 2 :=
  have hp : Playable exampleEnv (gameOnMouseMove exampleEnv 3 4
      (gameOnKey Key.space Action.press exampleGame)) :=
    Playable.step (Event.mouseMove 3 4)
      (Playable.step (Event.key Key.space Action.press) (Playable.start 0 0) rfl) rfl
  ⟨hp, (C20_portal_list_keeps_two_records exampleEnv _ hp).1⟩

/-! ## The landing scenario: probing along the vertical axis -/

theorem sqrt_axis {F : Type} [LinearOrderedField F] {sqrt : F → F} (hsqrt : IsSqrt sqrt)
    (a : F) : sqrt (0 * 0 + a * a + 0 * 0) = abs a := by
  rw [mul_zero, zero_add, add_zero, isSqrt_sq hsqrt]

theorem normalize_axis_neg {F : Type} [LinearOrderedField F] {sqrt : F → F}
    (hsqrt : IsSqrt sqrt) {a : F} (ha : a < 0) :
    Vec3.normalize sqrt ⟨0, a, 0⟩ = ⟨0, -1, 0⟩ := by
  unfold Vec3.normalize Vec3.scale Vec3.dot
  simp only
  rw [sqrt_axis hsqrt, abs_of_neg ha]
  simp only [zero_mul, Vec3.mk.injEq, true_and, and_true]
  field_simp [ne_of_lt ha]

theorem normalize_axis_pos {F : Type} [LinearOrderedField F] {sqrt : F → F}
    (hsqrt : IsSqrt sqrt) {a : F} (ha : 0 < a) :
    Vec3.normalize sqrt ⟨0, a, 0⟩ = ⟨0, 1, 0⟩ := by
  unfold Vec3.normalize Vec3.scale Vec3.dot
  simp only
  rw [sqrt_axis hsqrt, abs_of_pos ha]
  simp only [zero_mul, Vec3.mk.injEq, true_and, and_true]
  field_simp [ne_of_gt ha]

theorem normalize_zero {F : Type} [LinearOrderedField F] (sqrt : F → F) :
    Vec3.normalize sqrt ⟨0, 0, 0⟩ = ⟨0, 0, 0⟩ := by
  unfold Vec3.normalize Vec3.scale
  simp only [zero_mul]

theorem length_axis {F : Type} [LinearOrderedField F] {sqrt : F → F} (hsqrt : IsSqrt sqrt)
    (a : F) : Vec3.length sqrt ⟨0, a, 0⟩ = abs a := by
  unfold Vec3.length Vec3.dot
  exact sqrt_axis hsqrt a

theorem distance_axis {F : Type} [LinearOrderedField F] {sqrt : F → F} (hsqrt : IsSqrt sqrt)
    (x a b z : F) : Vec3.distance sqrt ⟨x, a, z⟩ ⟨x, b, z⟩ = abs (b - a) := by
  unfold Vec3.distance Vec3.length Vec3.dot Vec3.sub
  simp only [sub_self]
  exact sqrt_axis hsqrt (b - a)

theorem intersectPlane_ground_down {F : Type} [LinearOrderedField F] (x h z : F) (m : Nat)
    (h1 : 0.001 < h) :
    intersectPlane ⟨⟨x, h, z⟩, ⟨0, -1, 0⟩⟩
      { normal := ⟨0, 1, 0⟩, pos := ⟨0, 0, 0⟩, material := m } = h := by
  unfold intersectPlane Vec3.dot Vec3.sub
  simp only
  have hd : (0 : F) * 0 + -1 * 1 + 0 * 0 = -1 := by norm_num
  have ht : ((0 - x) * 0 + (0 - h) * 1 + (0 - z) * 0) / (-1 : F) = h := by
    field_simp
  rw [hd, ht, if_pos (by norm_num), if_pos h1]

theorem intersectPlane_ground_up {F : Type} [LinearOrderedField F] (x h z : F) (m : Nat)
    (h1 : 0 ≤ h) :
    intersectPlane ⟨⟨x, h, z⟩, ⟨0, 1, 0⟩⟩
      { normal := ⟨0, 1, 0⟩, pos := ⟨0, 0, 0⟩, material := m } = floatMax := by
  unfold intersectPlane Vec3.dot Vec3.sub
  simp only
  have hd : (0 : F) * 0 + 1 * 1 + 0 * 0 = 1 := by norm_num
  have ht : ((0 - x) * 0 + (0 - h) * 1 + (0 - z) * 0) / (1 : F) = -h := by
    field_simp
  have hn : ¬ (-h > 0.001) := by
    have : (0 : F) < 0.001 := by norm_num
    intro hc
    linarith
  rw [hd, ht, if_pos (by norm_num), if_neg hn]

/-- In a scene holding only the ground plane, `trace` straight down from a height in
`(0.001, floatMax)` returns the point on the ground and the ground normal. -/
theorem trace_ground_down {F : Type} [LinearOrderedField F] [FloorRing F] (sqrt : F → F)
    (scene : Scene F) (garbage : Vec3 F) (x h z : F)
    (hpl : scene.planes.items = [{ normal := ⟨0, 1, 0⟩, pos := ⟨0, 0, 0⟩, material := 1 }])
    (hsp : scene.spheres.items = []) (hvx : scene.voxels.items = [])
    (h1 : 0.001 < h) (h2 : h < floatMax) :
    trace sqrt scene garbage ⟨⟨x, h, z⟩, ⟨0, -1, 0⟩⟩ = ⟨⟨x, 0, z⟩, ⟨0, 1, 0⟩⟩ := by
  have hpos : (0 : F) < h := lt_trans (by norm_num) h1
  unfold trace traceHit
  rw [hpl, hsp, hvx]
  simp only [List.foldl, tracePlane, intersectPlane_ground_down x h z 1 h1]
  rw [if_pos ⟨hpos, h2⟩]
  simp only [Vec3.add, Vec3.scale, Ray.mk.injEq, Vec3.mk.injEq, and_true]
  refine ⟨?_, ?_, ?_⟩ <;> ring

/-- In a scene holding only the ground plane, `trace` straight up from a height `>= 0`
hits nothing: the point returned is `floatMax` higher. -/
theorem trace_ground_up {F : Type} [LinearOrderedField F] [FloorRing F] (sqrt : F → F)
    (scene : Scene F) (garbage : Vec3 F) (x h z : F)
    (hpl : scene.planes.items = [{ normal := ⟨0, 1, 0⟩, pos := ⟨0, 0, 0⟩, material := 1 }])
    (hsp : scene.spheres.items = []) (hvx : scene.voxels.items = [])
    (h1 : 0 ≤ h) :
    trace sqrt scene garbage ⟨⟨x, h, z⟩, ⟨0, 1, 0⟩⟩ = ⟨⟨x, h + floatMax, z⟩, garbage⟩ := by
  unfold trace traceHit
  rw [hpl, hsp, hvx]
  simp only [List.foldl, tracePlane, intersectPlane_ground_up x h z 1 h1]
  rw [if_neg (fun hc => lt_irrefl _ hc.2)]
  simp only [Vec3.add, Vec3.scale, Ray.mk.injEq, Vec3.mk.injEq, and_true]
  refine ⟨?_, ?_, ?_⟩ <;> ring

theorem getDistance_ground_down {F : Type} [LinearOrderedField F] [FloorRing F] {sqrt : F → F}
    (hsqrt : IsSqrt sqrt) (scene : Scene F) (garbage : Vec3 F) (x h z : F)
    (hpl : scene.planes.items = [{ normal := ⟨0, 1, 0⟩, pos := ⟨0, 0, 0⟩, material := 1 }])
    (hsp : scene.spheres.items = []) (hvx : scene.voxels.items = [])
    (h1 : 0.001 < h) (h2 : h < floatMax) :
    getDistanceToNearestObject sqrt scene garbage ⟨x, h, z⟩ ⟨0, -1, 0⟩ = h := by
  have hpos : (0 : F) < h := lt_trans (by norm_num) h1
  unfold getDistanceToNearestObject
  simp only
  rw [normalize_axis_neg hsqrt (by norm_num : (-1 : F) < 0),
    trace_ground_down sqrt scene garbage x h z hpl hsp hvx h1 h2, distance_axis hsqrt,
    zero_sub, abs_neg, abs_of_pos hpos]

theorem getDistance_ground_up {F : Type} [LinearOrderedField F] [FloorRing F] {sqrt : F → F}
    (hsqrt : IsSqrt sqrt) (scene : Scene F) (garbage : Vec3 F) (x h z : F)
    (hpl : scene.planes.items = [{ normal := ⟨0, 1, 0⟩, pos := ⟨0, 0, 0⟩, material := 1 }])
    (hsp : scene.spheres.items = []) (hvx : scene.voxels.items = [])
    (h1 : 0 ≤ h) :
    getDistanceToNearestObject sqrt scene garbage ⟨x, h, z⟩ ⟨0, 1, 0⟩ = floatMax := by
  unfold getDistanceToNearestObject
  simp only
  rw [normalize_axis_pos hsqrt (by norm_num : (0 : F) < 1),
    trace_ground_up sqrt scene garbage x h z hpl hsp hvx h1, distance_axis hsqrt,
    add_sub_cancel_left, abs_of_pos (by norm_num [floatMax])]

/-- In a scene holding only the ground plane, a downward move from a height in
`(0.001, floatMax)` goes down by `min(|a|, max(0, height - epsilon))`. -/
theorem moveWithCollisionCheck_ground_down {F : Type} [LinearOrderedField F] [FloorRing F]
    {sqrt : F → F} (hsqrt : IsSqrt sqrt) (scene : Scene F) (garbage : Vec3 F)
    (x f z a epsilon : F)
    (hpl : scene.planes.items = [{ normal := ⟨0, 1, 0⟩, pos := ⟨0, 0, 0⟩, material := 1 }])
    (hsp : scene.spheres.items = []) (hvx : scene.voxels.items = [])
    (ha : a < 0) (h1 : 0.001 < f) (h2 : f < floatMax) :
    moveWithCollisionCheck sqrt scene garbage ⟨x, f, z⟩ ⟨0, a, 0⟩ epsilon =
      ⟨x, f - Min.min (-a) (Max.max 0 (f - epsilon)), z⟩ := by
  have hpos : (0 : F) < f := lt_trans (by norm_num) h1
  unfold moveWithCollisionCheck
  simp only
  rw [normalize_axis_neg hsqrt ha, trace_ground_down sqrt scene garbage x f z hpl hsp hvx h1 h2,
    distance_axis hsqrt, length_axis hsqrt, sub_zero, abs_of_pos hpos, abs_of_neg ha]
  simp only [Vec3.add, Vec3.lscale, Vec3.mk.injEq]
  refine ⟨?_, ?_, ?_⟩ <;> ring

theorem intersectPortal_axis {F : Type} [LinearOrderedField F] (pos : Vec3 F) (a : F)
    (p : Portal F) (hn : p.normal.y = 0) :
    intersectPortal ⟨pos, ⟨0, a, 0⟩⟩ p = floatMax := by
  unfold intersectPortal Vec3.dot
  simp only [hn, zero_mul, mul_zero, add_zero, abs_zero]
  rw [if_neg (by norm_num)]

theorem normalize_axis {F : Type} [LinearOrderedField F] (sqrt : F → F) (b : F) :
    ∃ a, Vec3.normalize sqrt ⟨0, b, 0⟩ = ⟨0, a, 0⟩ := by
  refine ⟨b * (1 / sqrt (Vec3.dot ⟨0, b, 0⟩ ⟨0, b, 0⟩)), ?_⟩
  unfold Vec3.normalize Vec3.scale
  simp only [zero_mul]

/-! ## The landing scenario: one tick -/

/-- Without input, a Play-mode tick is the Play-mode branch with `deltaPos = 0`, then the
binds. -/
theorem gameOnUpdate_noInput {F : Type} [LinearOrderedField F] [FloorRing F] (env : Env F)
    (dt : F) (g : Game F) (hm : g.gameMode = .PlayMode) :
    gameOnUpdate env dt noInput g =
      (playUpdate env dt ⟨0, 0, 0⟩ g).bind fun g1 =>
        (bindScene g1.scene).map fun scene => { g1 with scene := scene } := by
  have hd : ((Vec3.lscale 0 g.cameraRight).add (Vec3.lscale 0 g.cameraUp)).add
      (Vec3.lscale 0 (Vec3.cross g.cameraUp g.cameraRight)) = (⟨0, 0, 0⟩ : Vec3 F) := by
    simp only [Vec3.lscale, Vec3.add, zero_mul, add_zero]
  unfold gameOnUpdate
  simp only [hm, keyMoveDir, noInput, if_true, Bool.false_eq_true, if_false, ne_eq,
    not_true_eq_false, hd]

/-- Without teleport and without horizontal input, the Play-mode branch is the vertical
move followed by the ground check. -/
theorem playUpdate_still {F : Type} [LinearOrderedField F] [FloorRing F] (env : Env F)
    (dt : F) (g : Game F) (P1 P2 : Portal F) (hportals : g.scene.portals.items = [P1, P2])
    (h1 : P1.normal.y = 0) (h2 : P2.normal.y = 0) :
    playUpdate env dt ⟨0, 0, 0⟩ g = some (groundCheck env dt (verticalMove env dt g)) := by
  have hg0 : g.scene.portals.get 0 = some P1 := by
    rw [GpuSyncedList.get_eq (by rw [hportals]; exact Nat.zero_lt_succ _), hportals]
    rfl
  have hg1 : g.scene.portals.get 1 = some P2 := by
    rw [GpuSyncedList.get_eq (by rw [hportals]; exact Nat.lt_succ_self _), hportals]
    rfl
  obtain ⟨a, ha⟩ := normalize_axis env.sqrt (g.velocityY * dt)
  have hfar : ¬ (floatMax : F) < 0.5 := by norm_num [floatMax]
  have hh : ∀ g' : Game F, horizontalMove env ⟨0, 0, 0⟩ g' = g' := by
    intro g'
    unfold horizontalMove
    simp only [ne_eq, not_true_eq_false, if_false]
  unfold playUpdate getClosestPortal
  simp only [hg0, hg1, Option.some_bind, Option.map_some', ha]
  split_ifs with hc
  · simp only [Option.some_bind, hg0, hg1, Nat.sub_zero, Option.map_some',
      intersectPortal_axis _ _ _ h1, if_neg hfar, hh]
  · simp only [Option.some_bind, hg0, hg1, Nat.sub_self, Option.map_some',
      intersectPortal_axis _ _ _ h2, if_neg hfar, hh]

/-- The ground check of a tick in a scene holding only the ground plane, for a camera at
height `c` with `0.9 <= c < floatMax`: the camera stays, and gravity acts iff `c > 1`. -/
theorem groundCheck_ground {F : Type} [LinearOrderedField F] [FloorRing F] (env : Env F)
    (hsqrt : IsSqrt env.sqrt) (dt : F) (g : Game F)
    (hpl : g.scene.planes.items = [{ normal := ⟨0, 1, 0⟩, pos := ⟨0, 0, 0⟩, material := 1 }])
    (hsp : g.scene.spheres.items = []) (hvx : g.scene.voxels.items = [])
    (h1 : 0.9 ≤ g.cameraPos.y) (h2 : g.cameraPos.y < floatMax) :
    groundCheck env dt g =
      { g with velocityY :=
          if g.cameraPos.y > 1 then g.velocityY - dt * gravity else g.velocityY } := by
  have h0 : (0 : F) ≤ g.cameraPos.y := le_trans (by norm_num) h1
  have h3 : (0.001 : F) < g.cameraPos.y := lt_of_lt_of_le (by norm_num) h1
  have hup : getDistanceToNearestObject env.sqrt g.scene env.garbage g.cameraPos ⟨0, 1, 0⟩
      = floatMax :=
    getDistance_ground_up hsqrt g.scene env.garbage g.cameraPos.x g.cameraPos.y g.cameraPos.z
      hpl hsp hvx h0
  have hdown : ∀ x z : F,
      getDistanceToNearestObject env.sqrt g.scene env.garbage ⟨x, g.cameraPos.y, z⟩ ⟨0, -1, 0⟩
        = g.cameraPos.y :=
    fun x z => getDistance_ground_down hsqrt g.scene env.garbage x g.cameraPos.y z
      hpl hsp hvx h3 h2
  have hd0 : getDistanceToNearestObject env.sqrt g.scene env.garbage g.cameraPos ⟨0, -1, 0⟩
      = g.cameraPos.y := hdown g.cameraPos.x g.cameraPos.z
  have hfar : ¬ (floatMax : F) < 0.01 := by norm_num [floatMax]
  have hph : (playerHeight : F) + 0.1 = 1 := by norm_num [playerHeight]
  have hnf : ¬ g.cameraPos.y < playerHeight := by
    unfold playerHeight
    exact not_lt.mpr h1
  unfold groundCheck
  simp only [hup, hd0, Vec3.add, add_zero, hdown, min_self, if_neg hfar, hph, if_neg hnf]

/-- The descending branch of a tick of length `0.001` at `velocityY = -0.04` over the bare
ground plane, camera height in `(1, 10]`: the camera goes down by `0.00004`, and since that
is less than `0.001` the branch zeroes `velocityY`. -/
theorem verticalMove_slow {F : Type} [LinearOrderedField F] [FloorRing F] (env : Env F)
    (hsqrt : IsSqrt env.sqrt) (g : Game F)
    (hpl : g.scene.planes.items = [{ normal := ⟨0, 1, 0⟩, pos := ⟨0, 0, 0⟩, material := 1 }])
    (hsp : g.scene.spheres.items = []) (hvx : g.scene.voxels.items = [])
    (h1 : 1 < g.cameraPos.y) (h2 : g.cameraPos.y ≤ 10) (hv : g.velocityY = -0.04) :
    (verticalMove env 0.001 g).cameraPos.y = g.cameraPos.y - 0.00004 ∧
      (verticalMove env 0.001 g).velocityY = 0 ∧
      (verticalMove env 0.001 g).scene = g.scene ∧
      (verticalMove env 0.001 g).gameMode = g.gameMode ∧
      (verticalMove env 0.001 g).doubleJumpReady = true := by
  have hneg : ¬ g.velocityY > 0 := by rw [hv]; norm_num
  have hlt : g.velocityY < 0 := by rw [hv]; norm_num
  have ha : (0.001 : F) * g.velocityY < 0 := by rw [hv]; norm_num
  have hf1 : (0.001 : F) < g.cameraPos.y - playerHeight := by
    unfold playerHeight
    linarith
  have hf2 : g.cameraPos.y - playerHeight < floatMax := by
    unfold playerHeight floatMax
    linarith
  have hs : g.cameraPos.sub ⟨0, playerHeight, 0⟩ =
      ⟨g.cameraPos.x - 0, g.cameraPos.y - playerHeight, g.cameraPos.z - 0⟩ := rfl
  have hm := moveWithCollisionCheck_ground_down hsqrt g.scene env.garbage (g.cameraPos.x - 0)
    (g.cameraPos.y - playerHeight) (g.cameraPos.z - 0) (0.001 * g.velocityY) 0.01
    hpl hsp hvx ha hf1 hf2
  have hk : Min.min (-((0.001 : F) * g.velocityY))
      (Max.max 0 (g.cameraPos.y - playerHeight - 0.01)) = 0.00004 := by
    have hmax : Max.max (0 : F) (g.cameraPos.y - playerHeight - 0.01) =
        g.cameraPos.y - playerHeight - 0.01 := by
      apply max_eq_right
      unfold playerHeight
      linarith
    rw [hmax, hv]
    have he : -((0.001 : F) * -0.04) = 0.00004 := by norm_num
    rw [he]
    apply min_eq_left
    unfold playerHeight
    linarith
  rw [hk] at hm
  have hd : Vec3.distance env.sqrt
      (⟨g.cameraPos.x - 0, g.cameraPos.y - playerHeight, g.cameraPos.z - 0⟩ : Vec3 F)
      ⟨g.cameraPos.x - 0, g.cameraPos.y - playerHeight - 0.00004, g.cameraPos.z - 0⟩
        < 0.001 := by
    rw [distance_axis hsqrt]
    have he : g.cameraPos.y - playerHeight - 0.00004 - (g.cameraPos.y - playerHeight) =
        (-0.00004 : F) := by ring
    rw [he, abs_of_neg (by norm_num)]
    norm_num
  unfold verticalMove
  simp only [if_neg hneg, if_pos hlt, hs, hm, if_pos hd, Vec3.add, Vec3.sub]
  refine ⟨?_, trivial, trivial, trivial, trivial⟩
  ring

/-- One tick of length `0.001` without input keeps the `SlowFall` invariant. -/
theorem slowFall_step {F : Type} [LinearOrderedField F] [FloorRing F] (env : Env F)
    (hsqrt : IsSqrt env.sqrt) (g : Game F) (h : SlowFall g) :
    ∃ g', gameOnUpdate env 0.001 noInput g = some g' ∧ SlowFall g' := by
  obtain ⟨hmode, hpl, hsp, hvx, hpo, i1, i2, i3, i4, hcase⟩ := h
  have hplay := playUpdate_still env 0.001 g _ _ hpo rfl rfl
  have hupd := gameOnUpdate_noInput env 0.001 g hmode
  rw [hplay, Option.some_bind] at hupd
  have hfall : ∃ g1 : Game F, groundCheck env 0.001 (verticalMove env 0.001 g) = g1 ∧
      g1.gameMode = .PlayMode ∧ g1.scene = g.scene ∧
      ((1 < g1.cameraPos.y ∧ g1.cameraPos.y ≤ 10 ∧ g1.velocityY = -0.04) ∨
        (0.99996 < g1.cameraPos.y ∧ g1.cameraPos.y ≤ 1 ∧ g1.velocityY = 0)) := by
    rcases hcase with ⟨h1, h2, hv⟩ | ⟨h1, h2, hv⟩
    · obtain ⟨vy, vv, vs, vm, _⟩ := verticalMove_slow env hsqrt g hpl hsp hvx h1 h2 hv
      have hgc := groundCheck_ground env hsqrt 0.001 (verticalMove env 0.001 g)
        (by rw [vs]; exact hpl) (by rw [vs]; exact hsp) (by rw [vs]; exact hvx)
        (by rw [vy]; linarith) (by rw [vy]; unfold floatMax; linarith)
      refine ⟨_, hgc, by rw [← hmode, ← vm], vs, ?_⟩
      simp only [vy, vv]
      by_cases hc : g.cameraPos.y - 0.00004 > 1
      · left
        rw [if_pos hc]
        refine ⟨hc, by linarith, ?_⟩
        unfold gravity
        norm_num
      · right
        rw [if_neg hc]
        exact ⟨by linarith, not_lt.mp hc, rfl⟩
    · have hstay : verticalMove env 0.001 g = g := by
        unfold verticalMove
        rw [hv]
        simp only [gt_iff_lt, lt_self_iff_false, if_false]
      rw [hstay]
      have hgc := groundCheck_ground env hsqrt 0.001 g hpl hsp hvx (by linarith)
        (by unfold floatMax; linarith)
      refine ⟨_, hgc, hmode, rfl, ?_⟩
      right
      simp only [if_neg (not_lt.mpr h2), hv]
      exact ⟨h1, h2, trivial⟩
  obtain ⟨g1, hg1, hm1, hs1, hc1⟩ := hfall
  rw [hg1] at hupd
  obtain ⟨s', hb, e1, e2, e3, e4, j1, j2, j3, j4⟩ :=
    bindScene_spec g1.scene (by rw [hs1]; exact i1) (by rw [hs1]; exact i2)
      (by rw [hs1]; exact i3) (by rw [hs1]; exact i4)
  rw [hb, Option.map_some'] at hupd
  refine ⟨_, hupd, hm1, ?_, ?_, ?_, ?_, j1, j2, j3, j4, hc1⟩
  · rw [e1, hs1]; exact hpl
  · rw [e2, hs1]; exact hsp
  · rw [e3, hs1]; exact hvx
  · rw [e4, hs1]; exact hpo

/-- The start of the landing scenario at `velocityY = -0.04` satisfies `SlowFall`. -/
theorem slowFall_landingGame {F : Type} [LinearOrderedField F] [FloorRing F] (env : Env F) :
    SlowFall (landingGame env (-0.04)) := by
  refine ⟨rfl, rfl, rfl, rfl, rfl, ?_, ?_, ?_, ?_, Or.inl ⟨?_, ?_, rfl⟩⟩
  · exact GpuSyncedList.inv_push env.grow _ (GpuSyncedList.inv_create 1)
  · exact GpuSyncedList.inv_create 3
  · exact GpuSyncedList.inv_create 247
  · exact GpuSyncedList.inv_push env.grow _
      (GpuSyncedList.inv_push env.grow _ (GpuSyncedList.inv_create 2))
  · show (1 : F) < 10
    norm_num
  · show (10 : F) ≤ 10
    exact le_refl _

/-- Every number of ticks of length `0.001` keeps the `SlowFall` invariant. -/
theorem slowFall_ticks {F : Type} [LinearOrderedField F] [FloorRing F] (env : Env F)
    (hsqrt : IsSqrt env.sqrt) (g : Game F) (h : SlowFall g) (n : Nat) :
    ∃ g', ticks env 0.001 n g = some g' ∧ SlowFall g' := by
  induction n with
  | zero => exact ⟨g, rfl, h⟩
  | succ n ih =>
    obtain ⟨g1, hg1, hs1⟩ := ih
    obtain ⟨g2, hg2, hs2⟩ := slowFall_step env hsqrt g1 hs1
    refine ⟨g2, ?_, hs2⟩
    show (ticks env 0.001 n g).bind (gameOnUpdate env 0.001 noInput) = some g2
    rw [hg1, Option.some_bind, hg2]

/-- C18, at the input `dt = 0.001`, `velocityY = -0.04` of the landing scenario (ground plane
only, Play mode, camera at height 10, no input): after every number of `gameOnUpdate` ticks
the game is still in Play mode and the feet are more than `0.09` above the ground, so the
player never comes within the landing clearance `0.01`: each tick moves the feet by
`0.00004 < 0.001`, which the descending branch takes for a landing. -/
theorem C18_slow_fall_never_lands {F : Type} [LinearOrderedField F] [FloorRing F]
    (env : Env F) (hsqrt : IsSqrt env.sqrt) (n : Nat) :
    ∃ g, ticks env 0.001 n (landingGame env (-0.04)) = some g ∧
      g.gameMode = .PlayMode ∧ 0.09 < feetHeight g := by
  obtain ⟨g, hg, hm, _, _, _, _, _, _, _, _, hcase⟩ :=
    slowFall_ticks env hsqrt _ (slowFall_landingGame env) n
  refine ⟨g, hg, hm, ?_⟩
  unfold feetHeight playerHeight
  rcases hcase with ⟨h1, _, _⟩ | ⟨h1, _, _⟩ <;> linarith

/-- Witness of C18: over the reals with the real square root, the state after 1000 ticks
of length `0.001`. -/
theorem C18_slow_fall_never_lands_witness :
    IsSqrt Real.sqrt ∧
      ∃ g : Game ℝ,
        ticks ⟨Real.sqrt, Real.arctan, fun y x => Real.arctan (y / x), fun _ _ => ⟨0, 0, -1⟩,
            ⟨0, 0, 0⟩, fun n => 2 * n⟩ 0.001 1000
          (landingGame ⟨Real.sqrt, Real.arctan, fun y x => Real.arctan (y / x),
            fun _ _ => ⟨0, 0, -1⟩, ⟨0, 0, 0⟩, fun n => 2 * n⟩ (-0.04)) = some g ∧
        g.gameMode = .PlayMode ∧ 0.09 < feetHeight g :=
  ⟨isSqrt_real,
    C18_slow_fall_never_lands
      ⟨Real.sqrt, Real.arctan, fun y x => Real.arctan (y / x), fun _ _ => ⟨0, 0, -1⟩,
        ⟨0, 0, 0⟩, fun n => 2 * n⟩ isSqrt_real 1000⟩

/-! ## The voxel `intersect` as a slab test -/

theorem intersectVoxel_eq {F : Type} [LinearOrderedField F] (r : Ray F) (v : Voxel) :
    intersectVoxel r v = if voxelDmin r v > voxelDmax r v then floatMax else voxelDmin r v :=
  rfl

/-- One axis of the slab test, converse of `slab_contains`: a parameter that puts the
coordinate inside `[v, v + 1]` lies between the two plane distances of the axis. -/
theorem slab_of_contains {F : Type} [LinearOrderedField F] {o d v t : F} (hd : d ≠ 0)
    (h1 : v ≤ o + d * t) (h2 : o + d * t ≤ v + 1) :
    Min.min ((v - o) * (1 / d)) ((v - o) * (1 / d) + 1 / d) ≤ t ∧
      t ≤ Max.max ((v - o) * (1 / d)) ((v - o) * (1 / d) + 1 / d) := by
  have hk : (v - o) * (1 / d) * d = v - o := by field_simp
  have hk1 : ((v - o) * (1 / d) + 1 / d) * d = v - o + 1 := by field_simp
  rcases lt_or_gt_of_ne hd with hneg | hpos
  · have hi : 1 / d < 0 := one_div_neg.mpr hneg
    rw [min_eq_right (by linarith), max_eq_left (by linarith)]
    constructor
    · by_contra hc
      have h3 := mul_lt_mul_of_neg_right (not_le.mp hc) hneg
      rw [hk1] at h3
      linarith
    · by_contra hc
      have h3 := mul_lt_mul_of_neg_right (not_le.mp hc) hneg
      rw [hk] at h3
      linarith
  · have hi : 0 < 1 / d := one_div_pos.mpr hpos
    rw [min_eq_left (by linarith), max_eq_right (by linarith)]
    constructor
    · by_contra hc
      have h3 := mul_lt_mul_of_pos_right (not_le.mp hc) hpos
      rw [hk] at h3
      linarith
    · by_contra hc
      have h3 := mul_lt_mul_of_pos_right (not_le.mp hc) hpos
      rw [hk1] at h3
      linarith

/-- For a direction without zero component, the line of the ray is inside the voxel's cube
exactly at the parameters between `dmin` and `dmax`. -/
theorem voxel_contains_iff {F : Type} [LinearOrderedField F] (r : Ray F) (v : Voxel)
    (hx : r.dir.x ≠ 0) (hy : r.dir.y ≠ 0) (hz : r.dir.z ≠ 0) (t : F) :
    v.Contains (r.point t) ↔ voxelDmin r v ≤ t ∧ t ≤ voxelDmax r v := by
  unfold voxelDmin voxelDmax Voxel.Contains Ray.point
  simp only [if_neg hx, if_neg hy, if_neg hz, Vec3.min, Vec3.max, Vec3.mul, Vec3.sub, Vec3.add,
    Vec3.scalarDiv, Vec3.scale, IVec3.toVec3, max_le_iff, le_min_iff]
  constructor
  · rintro ⟨⟨a1, a2⟩, ⟨b1, b2⟩, ⟨c1, c2⟩⟩
    obtain ⟨p1, p2⟩ := slab_of_contains hx a1 a2
    obtain ⟨q1, q2⟩ := slab_of_contains hy b1 b2
    obtain ⟨s1, s2⟩ := slab_of_contains hz c1 c2
    exact ⟨⟨⟨p1, q1⟩, s1⟩, ⟨⟨p2, q2⟩, s2⟩⟩
  · rintro ⟨⟨⟨p1, q1⟩, s1⟩, ⟨⟨p2, q2⟩, s2⟩⟩
    exact ⟨slab_contains hx p1 p2, slab_contains hy q1 q2, slab_contains hz s1 s2⟩

/-- C21: for a ray whose direction has no zero component, the voxel `intersect` returns
`floatMax` when the ray's full line misses the closed cube `[pos, pos + 1]^3`; when the line
meets the cube it returns `dmin`, a parameter at which the line is in the cube and the
least such parameter. Conversely a result `floatMax` means that the line misses the cube,
unless `floatMax` is itself the entry parameter. -/
theorem C21_voxel_intersect_is_entry_parameter {F : Type} [LinearOrderedField F]
    (r : Ray F) (v : Voxel) (hx : r.dir.x ≠ 0) (hy : r.dir.y ≠ 0) (hz : r.dir.z ≠ 0) :
    ((∀ t, ¬ v.Contains (r.point t)) → intersectVoxel r v = floatMax) ∧
    ((∃ t, v.Contains (r.point t)) →
      intersectVoxel r v = voxelDmin r v ∧ v.Contains (r.point (intersectVoxel r v)) ∧
        ∀ t, v.Contains (r.point t) → intersectVoxel r v ≤ t) ∧
    (intersectVoxel r v = floatMax → ¬ v.Contains (r.point floatMax) →
      ∀ t, ¬ v.Contains (r.point t)) := by
  have hiff := voxel_contains_iff r v hx hy hz
  have hhit : (∃ t, v.Contains (r.point t)) → ¬ voxelDmin r v > voxelDmax r v := by
    rintro ⟨t, ht⟩ hgt
    obtain ⟨h1, h2⟩ := (hiff t).mp ht
    exact absurd (le_trans h1 h2) (not_le.mpr hgt)
  have hval : (∃ t, v.Contains (r.point t)) →
      intersectVoxel r v = voxelDmin r v ∧ v.Contains (r.point (intersectVoxel r v)) ∧
        ∀ t, v.Contains (r.point t) → intersectVoxel r v ≤ t := by
    intro hex
    have hle := not_lt.mp (hhit hex)
    have heq : intersectVoxel r v = voxelDmin r v := by
      rw [intersectVoxel_eq, if_neg (hhit hex)]
    rw [heq]
    exact ⟨rfl, (hiff _).mpr ⟨le_refl _, hle⟩, fun t ht => ((hiff t).mp ht).1⟩
  refine ⟨?_, hval, ?_⟩
  · intro hmiss
    rw [intersectVoxel_eq]
    by_cases hgt : voxelDmin r v > voxelDmax r v
    · rw [if_pos hgt]
    · exact absurd ((hiff _).mpr ⟨le_refl _, not_lt.mp hgt⟩) (hmiss _)
  · intro hmax hnot t ht
    have h := hval ⟨t, ht⟩
    rw [hmax] at h
    exact hnot h.2.1

/-- Witness of C21: the ray from `(2, 3, 4)` along `(-1, -2, -2)` enters the voxel at the
origin at the parameter `3/2`. -/
theorem C21_voxel_intersect_is_entry_parameter_witness :
    intersectVoxel (⟨⟨2, 3, 4⟩, ⟨-1, -2, -2⟩⟩ : Ray ℚ) ⟨⟨0, 0, 0⟩, 0⟩ = 3 / 2 ∧
      Voxel.Contains ⟨⟨0, 0, 0⟩, 0⟩
        (Ray.point (⟨⟨2, 3, 4⟩, ⟨-1, -2, -2⟩⟩ : Ray ℚ)
          (intersectVoxel (⟨⟨2, 3, 4⟩, ⟨-1, -2, -2⟩⟩ : Ray ℚ) ⟨⟨0, 0, 0⟩, 0⟩)) :=
  ⟨by norm_num [intersectVoxel, Vec3.min, Vec3.max, Vec3.mul, Vec3.sub, Vec3.add,
      Vec3.scalarDiv, IVec3.toVec3],
    ((C21_voxel_intersect_is_entry_parameter (⟨⟨2, 3, 4⟩, ⟨-1, -2, -2⟩⟩ : Ray ℚ)
        ⟨⟨0, 0, 0⟩, 0⟩ (by norm_num) (by norm_num) (by norm_num)).2.1
      ⟨3 / 2, by norm_num [Voxel.Contains, Ray.point, Vec3.add, Vec3.scale]⟩).2.1⟩

/-! ## A ray that starts inside a sphere -/

/-- C25: with an exact square root, for a ray whose origin lies strictly inside the sphere
(whatever its direction, unit or not), the sphere `intersect` returns a strictly negative
distance, and the sphere loop of `trace` leaves `hitDist` and `hitNormal` as they are. -/
theorem C25_sphere_around_origin_is_not_hit {F : Type} [LinearOrderedField F] (sqrt : F → F)
    (r : Ray F) (s : Sphere F) (hsqrt : IsSqrt sqrt)
    (hin : Vec3.dot (r.pos.sub s.pos) (r.pos.sub s.pos) < s.radius * s.radius) :
    intersectSphere sqrt r s < 0 ∧ ∀ h : Hit F, traceSphere sqrt r h s = h := by
  have hD : sphereDiscriminant r s =
      (2 * Vec3.dot (r.pos.sub s.pos) r.dir) * (2 * Vec3.dot (r.pos.sub s.pos) r.dir)
        - 4 * (Vec3.dot (r.pos.sub s.pos) (r.pos.sub s.pos) - s.radius * s.radius) := by
    unfold sphereDiscriminant Vec3.dot Vec3.sub Vec3.lscale
    simp only
    ring
  have hbb := mul_self_nonneg (2 * Vec3.dot (r.pos.sub s.pos) r.dir)
  have hgt : (2 * Vec3.dot (r.pos.sub s.pos) r.dir) * (2 * Vec3.dot (r.pos.sub s.pos) r.dir)
      < sphereDiscriminant r s := by
    rw [hD]
    linarith
  have hpos : 0 ≤ sphereDiscriminant r s := le_of_lt (lt_of_le_of_lt hbb hgt)
  obtain ⟨h0, h1⟩ := hsqrt _ hpos
  have hsum : 0 < 2 * Vec3.dot (r.pos.sub s.pos) r.dir + sqrt (sphereDiscriminant r s) := by
    by_contra hc
    have hle := not_lt.mp hc
    have hS : sqrt (sphereDiscriminant r s) ≤ -(2 * Vec3.dot (r.pos.sub s.pos) r.dir) := by
      linarith
    have hsq := mul_le_mul hS hS h0 (le_trans h0 hS)
    rw [h1] at hsq
    linarith
  have hneg : intersectSphere sqrt r s < 0 := by
    rw [intersectSphere_eq, if_neg (not_lt.mpr hpos)]
    linarith
  refine ⟨hneg, fun h => ?_⟩
  unfold traceSphere
  simp only
  rw [if_neg]
  intro hc
  exact absurd hc.1 (not_lt.mpr (le_of_lt hneg))

/-- Witness of C25: over the reals, the ray from the origin along `(0, 0, 1)` inside the
sphere of radius `2` centred at `(0, 0, 1)`. -/
theorem C25_sphere_around_origin_is_not_hit_witness :
    IsSqrt Real.sqrt ∧
      intersectSphere Real.sqrt ⟨⟨0, 0, 0⟩, ⟨0, 0, 1⟩⟩ ⟨⟨0, 0, 1⟩, 2, 0⟩ < 0 :=
  ⟨isSqrt_real,
    (C25_sphere_around_origin_is_not_hit Real.sqrt ⟨⟨0, 0, 0⟩, ⟨0, 0, 1⟩⟩ ⟨⟨0, 0, 1⟩, 2, 0⟩
      isSqrt_real (by norm_num [Vec3.dot, Vec3.sub])).1⟩

/-! ## Clean records and upload ranges in every reachable list -/

theorem mem_uploads {calls : List GpuCall} {p : Nat × Nat} (h : p ∈ uploads calls) :
    ∃ start size, GpuCall.update start size ∈ calls ∧ p = (start, start + size) := by
  induction calls with
  | nil => exact absurd h (List.not_mem_nil p)
  | cons c cs ih =>
    cases c with
    | recreate capacity =>
      obtain ⟨a, n, hm, hp⟩ := ih h
      exact ⟨a, n, List.mem_cons_of_mem _ hm, hp⟩
    | bindRange binding offset size =>
      obtain ⟨a, n, hm, hp⟩ := ih h
      exact ⟨a, n, List.mem_cons_of_mem _ hm, hp⟩
    | update start size =>
      rcases List.mem_cons.mp h with h1 | h1
      · exact ⟨start, size, List.mem_cons_self _ _, h1⟩
      · obtain ⟨a, n, hm, hp⟩ := ih h1
        exact ⟨a, n, List.mem_cons_of_mem _ hm, hp⟩

theorem uploads_append (xs ys : List GpuCall) :
    uploads (xs ++ ys) = uploads xs ++ uploads ys := by
  induction xs with
  | nil => rfl
  | cons c cs ih =>
    cases c with
    | recreate capacity => exact ih
    | bindRange binding offset size => exact ih
    | update start size =>
      show (start, start + size) :: uploads (cs ++ ys) = _
      rw [ih]
      rfl

/-- C26: in every state reachable from `create` by `push`, `pop`, `remove`, element
assignment and `bind`, every index `i < length()` whose dirty flag is false lies within the
mirror's allocated capacity, and its mirror record is the local record at `i`. -/
theorem C26_clean_implies_mirrored {T : Type} (grow : Nat → Nat) (l : GpuSyncedList T)
    (i : Nat) (hr : Reachable grow l) (hi : i < l.length) (hclean : l.dirtyBits[i]? = some false) :
    i < l.gpuBufferCapacity ∧ i < l.gpuBuffer.length ∧
      l.mirror i = l.items[i]? ∧ l.mirror i = get l i := by
  obtain ⟨_, _, hbuf, hmir⟩ := reachable_inv hr
  have hi' : i < l.items.length := hi
  have hm := hmir i hi' hclean
  have hlt : i < l.gpuBuffer.length := by
    by_contra hc
    rw [List.getElem?_eq_none (not_lt.mp hc), List.getElem?_eq_getElem hi'] at hm
    exact Option.noConfusion hm
  have hmirror : l.mirror i = l.items[i]? := by
    unfold mirror
    rw [hm, join_map_some]
  exact ⟨hbuf ▸ hlt, hlt, hmirror, by rw [hmirror, get_eq hi']⟩

/-- Witness of C26: a list bound with one record and then pushed to beyond its capacity:
index 0 is clean and mirrored while the growth of the mirror is pending. -/
theorem C26_clean_implies_mirrored_witness :
    Reachable (fun c => 2 * c) (⟨[some 7], 1, [7, 8], 2, [false, true]⟩ : GpuSyncedList Nat) ∧
      mirror (⟨[some 7], 1, [7, 8], 2, [false, true]⟩ : GpuSyncedList Nat) 0 = some 7 :=
  have hr : Reachable (fun c => 2 * c)
      (⟨[some 7], 1, [7, 8], 2, [false, true]⟩ : GpuSyncedList Nat) :=
    Reachable.push 8
      (Reachable.bind .shaderStorage 0 [GpuCall.update 0 1, GpuCall.bindRange 0 0 1]
        (Reachable.push 7 (Reachable.create 1)) rfl)
  ⟨hr, (C26_clean_implies_mirrored (fun c => 2 * c) _ 0 hr (by decide) rfl).2.2.1⟩

/-- C30: in every reachable state the synchronisation of `bind` passes the bounds assertion
of `updateGpuBuffer`: it succeeds, and every upload it issues covers a record range
`[start, start + size)` with `start + size` at most the capacity the mirror has at that
moment (the vector capacity after a reallocation, the recorded capacity otherwise, which is
the buffer's length). With a valid slot `bind` itself succeeds, with the same uploads. -/
theorem C30_uploads_within_mirror_capacity {T : Type} (grow : Nat → Nat)
    (l : GpuSyncedList T) (hr : Reachable grow l) :
    ∃ l' calls, sync l = some (l', calls) ∧
      l'.gpuBuffer.length = l'.gpuBufferCapacity ∧
      l'.gpuBufferCapacity =
        (if l.gpuBufferCapacity < l.itemsCapacity then l.itemsCapacity
          else l.gpuBufferCapacity) ∧
      (∀ p ∈ uploads calls, p.1 ≤ p.2 ∧ p.2 ≤ l'.gpuBufferCapacity) ∧
      ∀ (slot : BufferSlot) (binding : Int), slot.indexed = true →
        ∃ calls', bind slot binding l = some (l', calls') ∧ uploads calls' = uploads calls := by
  obtain ⟨hd, hfit, hbuf, _⟩ := reachable_inv hr
  have hbind : ∀ (l' : GpuSyncedList T) (calls : List GpuCall), sync l = some (l', calls) →
      ∀ (slot : BufferSlot) (binding : Int), slot.indexed = true →
        ∃ calls', bind slot binding l = some (l', calls') ∧ uploads calls' = uploads calls := by
    intro l' calls hs slot binding hslot
    refine ⟨_, bind_of_sync binding hs hslot, ?_⟩
    rw [uploads_append]
    split_ifs <;> simp [uploads]
  by_cases hcap : l.gpuBufferCapacity < l.itemsCapacity
  · obtain ⟨b, hs, hbl, _⟩ := sync_grow hcap hfit
    refine ⟨_, _, hs, hbl, (if_pos hcap).symm, ?_, hbind _ _ hs⟩
    intro p hp
    obtain ⟨a, n, hm, hpe⟩ := mem_uploads hp
    simp only [List.mem_cons, reduceCtorEq, GpuCall.update.injEq, List.mem_singleton,
      List.not_mem_nil, or_false, false_or] at hm
    obtain ⟨ha, hn⟩ := hm
    subst ha hn hpe
    exact ⟨Nat.le_add_right _ _, by simpa using hfit⟩
  · have hb : l.items.length ≤ l.gpuBuffer.length := by
      rw [hbuf]
      exact le_trans hfit (not_lt.mp hcap)
    obtain ⟨st, hs, _, hlen, _, _, hcalls⟩ := sync_scan hcap hd hb
    refine ⟨_, _, hs, hlen.trans hbuf, (if_neg hcap).symm, ?_, hbind _ _ hs⟩
    intro p hp
    obtain ⟨a, n, hm, hpe⟩ := mem_uploads hp
    obtain ⟨a', e, hc, hae, hel⟩ := hcalls _ hm
    have h1 : a = a' := (GpuCall.update.inj hc).1
    have h2 : n = e - a' := (GpuCall.update.inj hc).2
    subst hpe h1 h2
    show a ≤ a + (e - a) ∧ a + (e - a) ≤ l.gpuBufferCapacity
    rw [← hbuf]
    omega

/-- Witness of C30: the list of the C26 witness, with its pending growth. -/
theorem C30_uploads_within_mirror_capacity_witness :
    Reachable (fun c => 2 * c) (⟨[some 7], 1, [7, 8], 2, [false, true]⟩ : GpuSyncedList Nat) ∧
      ∃ l' calls,
        sync (⟨[some 7], 1, [7, 8], 2, [false, true]⟩ : GpuSyncedList Nat) = some (l', calls) ∧
        ∀ p ∈ uploads calls, p.1 ≤ p.2 ∧ p.2 ≤ l'.gpuBufferCapacity :=
  have hr : Reachable (fun c => 2 * c)
      (⟨[some 7], 1, [7, 8], 2, [false, true]⟩ : GpuSyncedList Nat) :=
    Reachable.push 8
      (Reachable.bind .shaderStorage 0 [GpuCall.update 0 1, GpuCall.bindRange 0 0 1]
        (Reachable.push 7 (Reachable.create 1)) rfl)
  ⟨hr, (C30_uploads_within_mirror_capacity (fun c => 2 * c) _ hr).elim
    fun l' h => h.elim fun calls hc => ⟨l', calls, hc.1, hc.2.2.2.1⟩⟩

/-! ## The normal of a voxel hit -/

theorem truncate_of_abs_lt_one {F : Type} [LinearOrderedField F] [FloorRing F] {a : F}
    (h : abs a < 1) : truncate a = 0 := by
  obtain ⟨h1, h2⟩ := abs_lt.mp h
  unfold truncate
  split_ifs with h0
  · rw [Int.floor_eq_iff]
    constructor
    · simpa using h0
    · simpa using h2
  · rw [Int.ceil_eq_iff]
    constructor
    · simpa using h1
    · simpa using le_of_lt (not_le.mp h0)

theorem truncate_of_mem_Ioc_neg {F : Type} [LinearOrderedField F] [FloorRing F] {a : F}
    (h1 : -2 < a) (h2 : a ≤ -1) : truncate a = -1 := by
  unfold truncate
  rw [if_neg (by linarith), Int.ceil_eq_iff]
  constructor
  · norm_num
    linarith
  · simpa using h2

theorem voxelNormal_eq {F : Type} [LinearOrderedField F] [FloorRing F] (sqrt : F → F)
    (ray : Ray F) (voxel : Voxel) (d : F) :
    voxelNormal sqrt ray voxel d =
      Vec3.normalize sqrt (IVec3.toVec3
        ⟨truncate (2.0001 * (voxel.centreOffset (ray.point d)).x),
          truncate (2.0001 * (voxel.centreOffset (ray.point d)).y),
          truncate (2.0001 * (voxel.centreOffset (ray.point d)).z)⟩) :=
  rfl

/-- With `sqrt 1 = 1`, `normalize` keeps a vector with one component `1` or `-1` and the
other two `0`. -/
theorem normalize_axis_unit {F : Type} [LinearOrderedField F] (sqrt : F → F) (hs1 : sqrt 1 = 1)
    (a b c : Int)
    (h : (a * a + b * b + c * c : Int) = 1) :
    Vec3.normalize sqrt (IVec3.toVec3 ⟨a, b, c⟩ : Vec3 F) = IVec3.toVec3 ⟨a, b, c⟩ := by
  have hF : ((a : F) * a + b * b + c * c) = 1 := by exact_mod_cast h
  unfold Vec3.normalize Vec3.scale Vec3.dot IVec3.toVec3
  simp only [hF, hs1, div_one, mul_one]

/-- C22 (counterexample): over the reals, `nearEdgeRay` enters the voxel at the origin at the
parameter `1` through the point `(1, 0.99999, 0.5)`, which is strictly inside the face
`x = 1` (`0 < 0.99999 < 1`, `0 < 0.5 < 1`), and `trace` returns the normal
`normalize (1, 1, 0)`, not the face normal `(1, 0, 0)`: `2.0001 * 0.49999 > 1`. -/
theorem C22_counterexample_normal_near_edge :
    intersectVoxel (nearEdgeRay : Ray ℝ) ⟨⟨0, 0, 0⟩, 2⟩ = 1 ∧
      (trace Real.sqrt oneVoxelScene ⟨0, 0, 0⟩ (nearEdgeRay : Ray ℝ)).pos
        = ⟨1, 0.99999, 0.5⟩ ∧
      ((0 : ℝ) < 0.99999 ∧ (0.99999 : ℝ) < 1 ∧ (0 : ℝ) < 0.5 ∧ (0.5 : ℝ) < 1) ∧
      (trace Real.sqrt oneVoxelScene ⟨0, 0, 0⟩ (nearEdgeRay : Ray ℝ)).dir
        = Vec3.normalize Real.sqrt ⟨1, 1, 0⟩ ∧
      (trace Real.sqrt oneVoxelScene ⟨0, 0, 0⟩ (nearEdgeRay : Ray ℝ)).dir ≠ ⟨1, 0, 0⟩ := by
  have hd : intersectVoxel (nearEdgeRay : Ray ℝ) ⟨⟨0, 0, 0⟩, 2⟩ = 1 := by
    norm_num [intersectVoxel, nearEdgeRay, Vec3.min, Vec3.max, Vec3.mul, Vec3.sub, Vec3.add,
      Vec3.scalarDiv, IVec3.toVec3]
  have hx : truncate (2.0001 * ((2 : ℝ) + -1 * 1 - 0 - 0.5)) = 1 :=
    truncate_of_mem_Ico (by norm_num) (by norm_num)
  have hy : truncate (2.0001 * ((1.99999 : ℝ) + -1 * 1 - 0 - 0.5)) = 1 :=
    truncate_of_mem_Ico (by norm_num) (by norm_num)
  have hz : truncate (2.0001 * ((1.5 : ℝ) + -1 * 1 - 0 - 0.5)) = 0 :=
    truncate_of_abs_lt_one (by norm_num)
  have hn : voxelNormal Real.sqrt (nearEdgeRay : Ray ℝ) ⟨⟨0, 0, 0⟩, 2⟩ 1
      = Vec3.normalize Real.sqrt ⟨1, 1, 0⟩ := by
    simp only [voxelNormal, nearEdgeRay, Vec3.lscale, Vec3.subScalar, Vec3.sub, Vec3.add,
      Vec3.scale, IVec3.toVec3, IVec3.ofVec3, hx, hy, hz, Int.cast_one, Int.cast_zero]
  have hfm : (1 : ℝ) > 0 ∧ (1 : ℝ) < floatMax := by
    norm_num [floatMax]
  have hhit : traceHit Real.sqrt oneVoxelScene ⟨0, 0, 0⟩ (nearEdgeRay : Ray ℝ)
      = { hitDist := 1, hitNormal := Vec3.normalize Real.sqrt ⟨1, 1, 0⟩ } := by
    simp only [traceHit, oneVoxelScene, GpuSyncedList.push, GpuSyncedList.create,
      List.nil_append, List.foldl_cons, List.foldl_nil, traceVoxel, hd, hn, if_pos hfm]
  have hdir : (trace Real.sqrt oneVoxelScene ⟨0, 0, 0⟩ (nearEdgeRay : Ray ℝ)).dir
      = Vec3.normalize Real.sqrt ⟨1, 1, 0⟩ := by
    simp only [trace, hhit]
  refine ⟨hd, ?_, by norm_num, hdir, ?_⟩
  · simp only [trace, hhit]
    simp only [nearEdgeRay, Vec3.add, Vec3.scale, Vec3.mk.injEq]
    norm_num
  · rw [hdir]
    intro h
    have hy0 := congrArg Vec3.y h
    simp only [Vec3.normalize, Vec3.scale, Vec3.dot] at hy0
    have hpos : (0 : ℝ) < Real.sqrt (1 * 1 + 1 * 1 + 0 * 0) := Real.sqrt_pos.mpr (by norm_num)
    have hne : (1 : ℝ) * (1 / Real.sqrt (1 * 1 + 1 * 1 + 0 * 0)) ≠ 0 :=
      mul_ne_zero one_ne_zero (one_div_ne_zero (ne_of_gt hpos))
    exact hne hy0

/-- C22 (amended): in exact arithmetic (the hit point `origin + d * dir`, its offset from
the cube centre and the product with `2.0001` computed in an ordered field, without the
rounding of binary32) and with `sqrt 1 = 1`, when the voxel loop of `trace` takes a voxel
hit (its `intersect` distance `d` is positive and below `hitDist`) and the entry point
`origin + d * dir` lies on a face of the cube with its two in-face offsets from the face
centre below `1 / 2.0001` in absolute value (farther than `0.000025` from the edges), the
normal stored is that face's outward unit normal. The offset `o` is measured from the cube
centre: the face `+x` is `o.x = 0.5`, the face `-x` is `o.x = -0.5`, and so on. -/
theorem C22_face_normal_away_from_edges {F : Type} [LinearOrderedField F] [FloorRing F]
    (sqrt : F → F) (ray : Ray F) (voxel : Voxel) (h : Hit F) (hs1 : sqrt 1 = 1)
    (hd : 0 < intersectVoxel ray voxel) (hlt : intersectVoxel ray voxel < h.hitDist) :
    ∀ o : Vec3 F, o = voxel.centreOffset (ray.point (intersectVoxel ray voxel)) →
      (o.x = 0.5 → 2.0001 * abs o.y < 1 → 2.0001 * abs o.z < 1 →
        (traceVoxel sqrt ray h voxel).hitNormal = ⟨1, 0, 0⟩) ∧
      (o.x = -0.5 → 2.0001 * abs o.y < 1 → 2.0001 * abs o.z < 1 →
        (traceVoxel sqrt ray h voxel).hitNormal = ⟨-1, 0, 0⟩) ∧
      (o.y = 0.5 → 2.0001 * abs o.x < 1 → 2.0001 * abs o.z < 1 →
        (traceVoxel sqrt ray h voxel).hitNormal = ⟨0, 1, 0⟩) ∧
      (o.y = -0.5 → 2.0001 * abs o.x < 1 → 2.0001 * abs o.z < 1 →
        (traceVoxel sqrt ray h voxel).hitNormal = ⟨0, -1, 0⟩) ∧
      (o.z = 0.5 → 2.0001 * abs o.x < 1 → 2.0001 * abs o.y < 1 →
        (traceVoxel sqrt ray h voxel).hitNormal = ⟨0, 0, 1⟩) ∧
      (o.z = -0.5 → 2.0001 * abs o.x < 1 → 2.0001 * abs o.y < 1 →
        (traceVoxel sqrt ray h voxel).hitNormal = ⟨0, 0, -1⟩) := by
  intro o ho
  have hnormal : (traceVoxel sqrt ray h voxel).hitNormal =
      Vec3.normalize sqrt (IVec3.toVec3
        ⟨truncate (2.0001 * o.x), truncate (2.0001 * o.y), truncate (2.0001 * o.z)⟩) := by
    unfold traceVoxel
    simp only [gt_iff_lt, if_pos (And.intro hd hlt)]
    rw [voxelNormal_eq, ← ho]
  have hpos : truncate (2.0001 * (0.5 : F)) = 1 :=
    truncate_of_mem_Ico (by norm_num) (by norm_num)
  have hneg : truncate (2.0001 * (-0.5 : F)) = -1 :=
    truncate_of_mem_Ioc_neg (by norm_num) (by norm_num)
  have hzero : ∀ a : F, 2.0001 * abs a < 1 → truncate (2.0001 * a) = 0 := by
    intro a ha
    apply truncate_of_abs_lt_one
    rw [abs_mul, abs_of_pos (by norm_num : (0 : F) < 2.0001)]
    exact ha
  rw [hnormal]
  refine ⟨?_, ?_, ?_, ?_, ?_, ?_⟩
  · intro h1 h2 h3
    rw [h1, hpos, hzero _ h2, hzero _ h3, normalize_axis_unit sqrt hs1 1 0 0 (by norm_num)]
    simp [IVec3.toVec3]
  · intro h1 h2 h3
    rw [h1, hneg, hzero _ h2, hzero _ h3, normalize_axis_unit sqrt hs1 (-1) 0 0 (by norm_num)]
    simp [IVec3.toVec3]
  · intro h1 h2 h3
    rw [h1, hpos, hzero _ h2, hzero _ h3, normalize_axis_unit sqrt hs1 0 1 0 (by norm_num)]
    simp [IVec3.toVec3]
  · intro h1 h2 h3
    rw [h1, hneg, hzero _ h2, hzero _ h3, normalize_axis_unit sqrt hs1 0 (-1) 0 (by norm_num)]
    simp [IVec3.toVec3]
  · intro h1 h2 h3
    rw [h1, hpos, hzero _ h2, hzero _ h3, normalize_axis_unit sqrt hs1 0 0 1 (by norm_num)]
    simp [IVec3.toVec3]
  · intro h1 h2 h3
    rw [h1, hneg, hzero _ h2, hzero _ h3, normalize_axis_unit sqrt hs1 0 0 (-1) (by norm_num)]
    simp [IVec3.toVec3]

/-- Witness of C22 (amended): over `ℚ` (with `sqrt 1 = 1`), the ray from `(2, 1.5, 1.5)`
along `(-1, -1, -1)` enters the voxel at the origin through the centre `(1, 0.5, 0.5)` of
its face `x = 1`. -/
theorem C22_face_normal_away_from_edges_witness :
    (0 : ℚ) < intersectVoxel (⟨⟨2, 1.5, 1.5⟩, ⟨-1, -1, -1⟩⟩ : Ray ℚ) ⟨⟨0, 0, 0⟩, 2⟩ ∧
      (traceVoxel (fun x : ℚ => x) ⟨⟨2, 1.5, 1.5⟩, ⟨-1, -1, -1⟩⟩
        { hitDist := floatMax, hitNormal := ⟨0, 0, 0⟩ } ⟨⟨0, 0, 0⟩, 2⟩).hitNormal
          = ⟨1, 0, 0⟩ :=
  have hd : intersectVoxel (⟨⟨2, 1.5, 1.5⟩, ⟨-1, -1, -1⟩⟩ : Ray ℚ) ⟨⟨0, 0, 0⟩, 2⟩ = 1 := by
    norm_num [intersectVoxel, Vec3.min, Vec3.max, Vec3.mul, Vec3.sub, Vec3.add,
      Vec3.scalarDiv, IVec3.toVec3]
  ⟨by rw [hd]; norm_num,
    (C22_face_normal_away_from_edges (fun x : ℚ => x) ⟨⟨2, 1.5, 1.5⟩, ⟨-1, -1, -1⟩⟩
      ⟨⟨0, 0, 0⟩, 2⟩ { hitDist := floatMax, hitNormal := ⟨0, 0, 0⟩ } rfl
      (by rw [hd]; norm_num) (by rw [hd]; norm_num [floatMax]) _ rfl).1
      (by rw [hd]; norm_num [Voxel.centreOffset, Ray.point, Vec3.subScalar, Vec3.sub, Vec3.add,
        Vec3.scale, IVec3.toVec3])
      (by rw [hd]; norm_num [Voxel.centreOffset, Ray.point, Vec3.subScalar, Vec3.sub, Vec3.add,
        Vec3.scale, IVec3.toVec3])
      (by rw [hd]; norm_num [Voxel.centreOffset, Ray.point, Vec3.subScalar, Vec3.sub, Vec3.add,
        Vec3.scale, IVec3.toVec3])⟩

/-! ## The portal transform as an isometry -/

/-- The matrix with orthonormal columns `t`, `b`, `n` keeps dot products. -/
theorem Mat3.cols_dot {F : Type} [LinearOrderedField F] (t b n : Vec3 F)
    (htt : Vec3.dot t t = 1) (hbb : Vec3.dot b b = 1) (hnn : Vec3.dot n n = 1)
    (htb : Vec3.dot t b = 0) (htn : Vec3.dot t n = 0) (hbn : Vec3.dot b n = 0)
    (w u : Vec3 F) :
    Vec3.dot ((⟨t, b, n⟩ : Mat3 F).mulVec w) ((⟨t, b, n⟩ : Mat3 F).mulVec u) = Vec3.dot w u := by
  unfold Vec3.dot at *
  unfold Mat3.mulVec Vec3.add Vec3.scale
  simp only
  linear_combination (w.x * u.x) * htt + (w.y * u.y) * hbb + (w.z * u.z) * hnn
    + (w.x * u.y + w.y * u.x) * htb + (w.x * u.z + w.z * u.x) * htn
    + (w.y * u.z + w.z * u.y) * hbn

/-- The matrix with orthonormal columns `t`, `b`, `n` sends `w` to a vector whose component
along `n` is `w.z`. -/
theorem Mat3.cols_dot_third {F : Type} [LinearOrderedField F] (t b n : Vec3 F)
    (hnn : Vec3.dot n n = 1) (htn : Vec3.dot t n = 0) (hbn : Vec3.dot b n = 0)
    (w : Vec3 F) :
    Vec3.dot ((⟨t, b, n⟩ : Mat3 F).mulVec w) n = w.z := by
  unfold Vec3.dot at *
  unfold Mat3.mulVec Vec3.add Vec3.scale
  simp only
  linear_combination w.x * htn + w.y * hbn + w.z * hnn

/-- With an exact square root and a non-zero normal, the portal basis `M` (rows `t`, `b`
and the normalized normal `n`) is orthogonal: GLM's `inverse(M)` acts as the transpose, both
`M` and `inverse(M)` keep dot products, `(M v).z` is `n . v` and `inverse(M) w . n` is
`w.z`. -/
theorem getPortalMatrix_orthogonal {F : Type} [LinearOrderedField F] {sqrt : F → F}
    (hsqrt : IsSqrt sqrt) (portal : Portal F) (hn : portal.normal ≠ ⟨0, 0, 0⟩) :
    (∀ w u : Vec3 F,
      Vec3.dot ((Mat3.inverse (getPortalMatrix sqrt portal)).mulVec w)
        ((Mat3.inverse (getPortalMatrix sqrt portal)).mulVec u) = Vec3.dot w u) ∧
    (∀ v : Vec3 F,
      Vec3.dot ((getPortalMatrix sqrt portal).mulVec v) ((getPortalMatrix sqrt portal).mulVec v)
        = Vec3.dot v v) ∧
    (∀ v : Vec3 F, ((getPortalMatrix sqrt portal).mulVec v).z
      = Vec3.dot (Vec3.normalize sqrt portal.normal) v) ∧
    (∀ w : Vec3 F,
      Vec3.dot ((Mat3.inverse (getPortalMatrix sqrt portal)).mulVec w)
        (Vec3.normalize sqrt portal.normal) = w.z) := by
  obtain ⟨t, b, hM, htt, hbb, hnn, htb, htn, hbn⟩ := getPortalMatrix_rows hsqrt portal hn
  have hdet := getPortalMatrix_determinant_ne_zero hsqrt portal hn
  have hMMt := Mat3.rows_mul_transpose t b _ htt hbb hnn htb htn hbn
  rw [← hM] at hMMt
  have hinv : ∀ w : Vec3 F, (Mat3.inverse (getPortalMatrix sqrt portal)).mulVec w
      = (⟨t, b, Vec3.normalize sqrt portal.normal⟩ : Mat3 F).mulVec w := by
    intro w
    have h1 : (getPortalMatrix sqrt portal).mulVec
        ((getPortalMatrix sqrt portal).transpose.mulVec w) = w := by
      rw [← Mat3.mulVec_mul, hMMt, Mat3.identity_mulVec]
    have h2 : (Mat3.inverse (getPortalMatrix sqrt portal)).mulVec
        ((getPortalMatrix sqrt portal).mulVec
          ((getPortalMatrix sqrt portal).transpose.mulVec w))
        = (getPortalMatrix sqrt portal).transpose.mulVec w := by
      rw [← Mat3.mulVec_mul, Mat3.inverse_mul_self _ hdet, Mat3.identity_mulVec]
    rw [h1] at h2
    rw [h2, hM, Mat3.transpose_transpose]
  have hcols := Mat3.cols_dot t b _ htt hbb hnn htb htn hbn
  refine ⟨?_, ?_, ?_, ?_⟩
  · intro w u
    rw [hinv, hinv]
    exact hcols w u
  · intro v
    have h3 : (Mat3.inverse (getPortalMatrix sqrt portal)).mulVec
        ((getPortalMatrix sqrt portal).mulVec v) = v := by
      rw [← Mat3.mulVec_mul, Mat3.inverse_mul_self _ hdet, Mat3.identity_mulVec]
    have h4 := hcols ((getPortalMatrix sqrt portal).mulVec v)
      ((getPortalMatrix sqrt portal).mulVec v)
    rw [← hinv, h3] at h4
    exact h4.symm
  · intro v
    rw [hM, Mat3.rows_mulVec]
  · intro w
    rw [hinv]
    exact Mat3.cols_dot_third t b _ hnn htn hbn w

theorem Vec3.neg_ne_zero {F : Type} [LinearOrderedField F] [FloorRing F] {a : Vec3 F}
    (h : a ≠ ⟨0, 0, 0⟩) : Vec3.neg a ≠ ⟨0, 0, 0⟩ := by
  intro h0
  apply h
  unfold Vec3.neg at h0
  have hx := congrArg Vec3.x h0
  have hy := congrArg Vec3.y h0
  have hz := congrArg Vec3.z h0
  simp only [neg_eq_zero] at hx hy hz
  cases a
  simp only at hx hy hz
  rw [hx, hy, hz]

theorem Vec3.dot_neg_left {F : Type} [LinearOrderedField F] [FloorRing F] (a b : Vec3 F) :
    Vec3.dot (Vec3.neg a) b = -Vec3.dot a b := by
  unfold Vec3.dot Vec3.neg
  simp only
  ring

/-- With an exact square root, `normalize` leaves a unit vector as it is. -/
theorem Vec3.normalize_unit {F : Type} [LinearOrderedField F] {sqrt : F → F}
    (hsqrt : IsSqrt sqrt) {a : Vec3 F} (h : Vec3.dot a a = 1) : Vec3.normalize sqrt a = a := by
  have h1 : sqrt 1 = 1 := by
    have := isSqrt_sq hsqrt (1 : F)
    rw [mul_one, abs_one] at this
    exact this
  unfold Vec3.normalize Vec3.scale
  rw [h, h1]
  cases a
  simp

/-- The teleport matrix `inverse(M2) * M1`, with `M1` the basis of the entry portal with its
normal flipped and `M2` the basis of the exit portal: it keeps lengths, and the component of
the image along the normalized exit normal is minus the component of the argument along
the normalized entry normal. -/
theorem teleportMatrix_spec {F : Type} [LinearOrderedField F] [FloorRing F] {sqrt : F → F}
    (hsqrt : IsSqrt sqrt) (portalIn portalOut : Portal F)
    (hin : portalIn.normal ≠ ⟨0, 0, 0⟩) (hout : portalOut.normal ≠ ⟨0, 0, 0⟩) (v : Vec3 F) :
    Vec3.dot
        (((Mat3.inverse (getPortalMatrix sqrt portalOut)).mul
          (getPortalMatrix sqrt { portalIn with normal := Vec3.neg portalIn.normal })).mulVec v)
        (((Mat3.inverse (getPortalMatrix sqrt portalOut)).mul
          (getPortalMatrix sqrt { portalIn with normal := Vec3.neg portalIn.normal })).mulVec v)
      = Vec3.dot v v ∧
    Vec3.dot
        (((Mat3.inverse (getPortalMatrix sqrt portalOut)).mul
          (getPortalMatrix sqrt { portalIn with normal := Vec3.neg portalIn.normal })).mulVec v)
        (Vec3.normalize sqrt portalOut.normal)
      = Vec3.dot (Vec3.normalize sqrt (Vec3.neg portalIn.normal)) v := by
  obtain ⟨a1, _, _, a4⟩ := getPortalMatrix_orthogonal hsqrt portalOut hout
  obtain ⟨_, b2, b3, _⟩ := getPortalMatrix_orthogonal hsqrt
    { portalIn with normal := Vec3.neg portalIn.normal } (Vec3.neg_ne_zero hin)
  rw [Mat3.mulVec_mul]
  exact ⟨(a1 _ _).trans (b2 v), (a4 _).trans (b3 v)⟩

theorem Vec3.add_sub_cancel_left {F : Type} [LinearOrderedField F] (a b : Vec3 F) :
    (a.add b).sub a = b := by
  unfold Vec3.add Vec3.sub
  cases b
  simp

theorem Vec3.ne_zero_of_unit {F : Type} [LinearOrderedField F] {a : Vec3 F}
    (h : Vec3.dot a a = 1) : a ≠ ⟨0, 0, 0⟩ := by
  intro h0
  rw [h0] at h
  unfold Vec3.dot at h
  simp at h

/-- With an exact square root and `n` non-zero, a vector orthogonal to `normalize(n)` is
orthogonal to `n`. -/
theorem Vec3.dot_eq_zero_of_normalize {F : Type} [LinearOrderedField F] {sqrt : F → F}
    (hsqrt : IsSqrt sqrt) {n : Vec3 F} (hn : n ≠ ⟨0, 0, 0⟩) (x : Vec3 F)
    (h : Vec3.dot x (Vec3.normalize sqrt n) = 0) : Vec3.dot x n = 0 := by
  have hpos := Vec3.dot_self_pos hn
  obtain ⟨_, h1⟩ := hsqrt _ (le_of_lt hpos)
  have hk : (1 / sqrt (Vec3.dot n n)) ≠ 0 := by
    apply one_div_ne_zero
    intro h0
    rw [h0, mul_zero] at h1
    exact absurd h1 (ne_of_lt hpos)
  rw [Vec3.dot_comm, Vec3.dot_normalize_left] at h
  rcases mul_eq_zero.mp h with h2 | h2
  · rw [Vec3.dot_comm]
    exact h2
  · exact absurd h2 hk

/-- The position and the direction that the teleport block of `gameOnUpdate` computes. -/
theorem teleport_eq {F : Type} [LinearOrderedField F] [FloorRing F] (env : Env F)
    (cameraRay : Ray F) (portalIn portalOut : Portal F) (cameraDistanceToPortal : F)
    (g : Game F) :
    (teleport env cameraRay portalIn portalOut cameraDistanceToPortal g).cameraPos =
        ((teleportPosition
            (getPortalMatrix env.sqrt { portalIn with normal := Vec3.neg portalIn.normal })
            (getPortalMatrix env.sqrt portalOut)
            { portalIn with normal := Vec3.neg portalIn.normal } portalOut
            (cameraRay.point cameraDistanceToPortal)).add
          (cameraRay.dir.scale 0.1)).add (portalOut.normal.scale 0.1) ∧
      (teleport env cameraRay portalIn portalOut cameraDistanceToPortal g).cameraDir =
        Vec3.normalize env.sqrt
          (((Mat3.inverse (getPortalMatrix env.sqrt portalOut)).mul
            (getPortalMatrix env.sqrt
              { portalIn with normal := Vec3.neg portalIn.normal })).mulVec g.cameraDir) :=
  ⟨rfl, rfl⟩

/-- C27: with an exact square root and unit portal normals, the matrix `inverse(M2) * M1` of
the teleport (`M1` the basis of the entry portal with its normal flipped, `M2` the basis of
the exit portal) maps every direction `d` to a direction of the same length with
`dot(result, portalOut.normal) = -dot(d, portalIn.normal)`, `portalIn.normal` being the
normal before the flip; so a direction into the entry face (`dot(d, portalIn.normal) < 0`)
comes out of the exit portal. The teleport sets `cameraDir` to the normalized image of
`cameraDir`. -/
theorem C27_teleport_direction_leaves_exit {F : Type} [LinearOrderedField F] [FloorRing F]
    (env : Env F) (portalIn portalOut : Portal F) (d : Vec3 F) (hsqrt : IsSqrt env.sqrt)
    (hin : Vec3.dot portalIn.normal portalIn.normal = 1)
    (hout : Vec3.dot portalOut.normal portalOut.normal = 1) :
    Vec3.length env.sqrt
        (((Mat3.inverse (getPortalMatrix env.sqrt portalOut)).mul
          (getPortalMatrix env.sqrt
            { portalIn with normal := Vec3.neg portalIn.normal })).mulVec d)
      = Vec3.length env.sqrt d ∧
    Vec3.dot
        (((Mat3.inverse (getPortalMatrix env.sqrt portalOut)).mul
          (getPortalMatrix env.sqrt
            { portalIn with normal := Vec3.neg portalIn.normal })).mulVec d)
        portalOut.normal
      = -Vec3.dot d portalIn.normal ∧
    (Vec3.dot d portalIn.normal < 0 →
      0 < Vec3.dot
        (((Mat3.inverse (getPortalMatrix env.sqrt portalOut)).mul
          (getPortalMatrix env.sqrt
            { portalIn with normal := Vec3.neg portalIn.normal })).mulVec d)
        portalOut.normal) ∧
    ∀ (cameraRay : Ray F) (dist : F) (g : Game F),
      (teleport env cameraRay portalIn portalOut dist g).cameraDir =
        Vec3.normalize env.sqrt
          (((Mat3.inverse (getPortalMatrix env.sqrt portalOut)).mul
            (getPortalMatrix env.sqrt
              { portalIn with normal := Vec3.neg portalIn.normal })).mulVec g.cameraDir) := by
  obtain ⟨hlen, hdot⟩ := teleportMatrix_spec hsqrt portalIn portalOut
    (Vec3.ne_zero_of_unit hin) (Vec3.ne_zero_of_unit hout) d
  have hneg : Vec3.dot (Vec3.neg portalIn.normal) (Vec3.neg portalIn.normal) = 1 := by
    rw [← hin]
    unfold Vec3.dot Vec3.neg
    simp only
    ring
  rw [Vec3.normalize_unit hsqrt hout, Vec3.normalize_unit hsqrt hneg, Vec3.dot_neg_left,
    Vec3.dot_comm portalIn.normal d] at hdot
  refine ⟨?_, hdot, ?_, fun cameraRay dist g => rfl⟩
  · unfold Vec3.length
    rw [hlen]
  · intro hlt
    rw [hdot]
    linarith

/-- Witness of C27: over the reals, the two portals of `loadScene` and the direction
`(1, 0, 0)` into the first one. -/
theorem C27_teleport_direction_leaves_exit_witness :
    IsSqrt Real.sqrt ∧
      Vec3.dot
        (((Mat3.inverse (getPortalMatrix Real.sqrt
            ⟨⟨-39.999, 7.67798, -4.46772⟩, ⟨1, 0, 0⟩, 0.6⟩)).mul
          (getPortalMatrix Real.sqrt
            { (⟨⟨1.999, 5.46093, 6.43585⟩, ⟨-1, 0, 0⟩, 0.6⟩ : Portal ℝ) with
              normal := Vec3.neg (⟨-1, 0, 0⟩ : Vec3 ℝ) })).mulVec ⟨1, 0, 0⟩)
        (⟨1, 0, 0⟩ : Vec3 ℝ)
      = -Vec3.dot (⟨1, 0, 0⟩ : Vec3 ℝ) ⟨-1, 0, 0⟩ :=
  ⟨isSqrt_real,
    (C27_teleport_direction_leaves_exit
      ⟨Real.sqrt, Real.arctan, fun y x => Real.arctan (y / x), fun _ _ => ⟨0, 0, -1⟩,
        ⟨0, 0, 0⟩, fun n => 2 * n⟩
      ⟨⟨1.999, 5.46093, 6.43585⟩, ⟨-1, 0, 0⟩, 0.6⟩
      ⟨⟨-39.999, 7.67798, -4.46772⟩, ⟨1, 0, 0⟩, 0.6⟩ ⟨1, 0, 0⟩ isSqrt_real
      (by norm_num [Vec3.dot]) (by norm_num [Vec3.dot])).2.1⟩

/-- C28: with an exact square root and non-zero portal normals, the position map of the
teleport, `portalOut.pos + inverse(M2) * M1 * (p - portalIn.pos)` (`M1` the basis of the
entry portal with its normal flipped), sends every point `p` of the entry portal's plane to
a point of the exit portal's plane at the same distance from the exit centre as `p` is from
the entry centre. So a point of the entry disc lands on the exit disc when the exit radius
is not smaller than the entry radius (radii non-negative). The teleport adds its two `0.1`
nudges to the image of the hit point `origin + dist * dir`. -/
theorem C28_teleport_keeps_plane_and_distance {F : Type} [LinearOrderedField F] [FloorRing F]
    (env : Env F) (portalIn portalOut : Portal F) (p : Vec3 F) (hsqrt : IsSqrt env.sqrt)
    (hin : portalIn.normal ≠ ⟨0, 0, 0⟩) (hout : portalOut.normal ≠ ⟨0, 0, 0⟩)
    (hp : Vec3.dot (p.sub portalIn.pos) portalIn.normal = 0) :
    Vec3.dot
        ((teleportPosition
            (getPortalMatrix env.sqrt { portalIn with normal := Vec3.neg portalIn.normal })
            (getPortalMatrix env.sqrt portalOut)
            { portalIn with normal := Vec3.neg portalIn.normal } portalOut p).sub
          portalOut.pos)
        portalOut.normal = 0 ∧
    Vec3.distance env.sqrt portalOut.pos
        (teleportPosition
          (getPortalMatrix env.sqrt { portalIn with normal := Vec3.neg portalIn.normal })
          (getPortalMatrix env.sqrt portalOut)
          { portalIn with normal := Vec3.neg portalIn.normal } portalOut p)
      = Vec3.distance env.sqrt portalIn.pos p ∧
    (0 ≤ portalIn.radius → portalIn.radius ≤ portalOut.radius → portalIn.Contains p →
      portalOut.Contains
        (teleportPosition
          (getPortalMatrix env.sqrt { portalIn with normal := Vec3.neg portalIn.normal })
          (getPortalMatrix env.sqrt portalOut)
          { portalIn with normal := Vec3.neg portalIn.normal } portalOut p)) ∧
    ∀ (cameraRay : Ray F) (dist : F) (g : Game F),
      (teleport env cameraRay portalIn portalOut dist g).cameraPos =
        ((teleportPosition
            (getPortalMatrix env.sqrt { portalIn with normal := Vec3.neg portalIn.normal })
            (getPortalMatrix env.sqrt portalOut)
            { portalIn with normal := Vec3.neg portalIn.normal } portalOut
            (cameraRay.point dist)).add
          (cameraRay.dir.scale 0.1)).add (portalOut.normal.scale 0.1) := by
  obtain ⟨hlen, hdot⟩ := teleportMatrix_spec hsqrt portalIn portalOut hin hout
    (p.sub portalIn.pos)
  have hsub : (teleportPosition
      (getPortalMatrix env.sqrt { portalIn with normal := Vec3.neg portalIn.normal })
      (getPortalMatrix env.sqrt portalOut)
      { portalIn with normal := Vec3.neg portalIn.normal } portalOut p).sub portalOut.pos
      = ((Mat3.inverse (getPortalMatrix env.sqrt portalOut)).mul
          (getPortalMatrix env.sqrt
            { portalIn with normal := Vec3.neg portalIn.normal })).mulVec
          (p.sub portalIn.pos) := by
    unfold teleportPosition
    rw [Vec3.add_sub_cancel_left]
  have hplane : Vec3.dot
      (((Mat3.inverse (getPortalMatrix env.sqrt portalOut)).mul
          (getPortalMatrix env.sqrt
            { portalIn with normal := Vec3.neg portalIn.normal })).mulVec
          (p.sub portalIn.pos)) portalOut.normal = 0 := by
    apply Vec3.dot_eq_zero_of_normalize hsqrt hout
    rw [hdot, Vec3.dot_normalize_left, Vec3.dot_neg_left, Vec3.dot_comm, hp, neg_zero, zero_mul]
  refine ⟨?_, ?_, ?_, fun cameraRay dist g => rfl⟩
  · rw [hsub]
    exact hplane
  · unfold Vec3.distance Vec3.length
    rw [hsub, hlen]
  · intro h0 hle hc
    refine ⟨?_, ?_⟩
    · rw [hsub]
      exact hplane
    · rw [hsub, hlen]
      exact le_trans hc.2 (mul_self_le_mul_self h0 hle)

/-- Witness of C28: over the reals, the two portals of `loadScene` and a point of the
plane `x = 1.999` of the first one. -/
theorem C28_teleport_keeps_plane_and_distance_witness :
    IsSqrt Real.sqrt ∧
      Vec3.dot
        ((teleportPosition
            (getPortalMatrix Real.sqrt
              { (⟨⟨1.999, 5.46093, 6.43585⟩, ⟨-1, 0, 0⟩, 0.6⟩ : Portal ℝ) with
                normal := Vec3.neg (⟨-1, 0, 0⟩ : Vec3 ℝ) })
            (getPortalMatrix Real.sqrt ⟨⟨-39.999, 7.67798, -4.46772⟩, ⟨1, 0, 0⟩, 0.6⟩)
            { (⟨⟨1.999, 5.46093, 6.43585⟩, ⟨-1, 0, 0⟩, 0.6⟩ : Portal ℝ) with
              normal := Vec3.neg (⟨-1, 0, 0⟩ : Vec3 ℝ) }
            ⟨⟨-39.999, 7.67798, -4.46772⟩, ⟨1, 0, 0⟩, 0.6⟩ ⟨1.999, 5, 6⟩).sub
          ⟨-39.999, 7.67798, -4.46772⟩)
        (⟨1, 0, 0⟩ : Vec3 ℝ) = 0 :=
  ⟨isSqrt_real,
    (C28_teleport_keeps_plane_and_distance
      ⟨Real.sqrt, Real.arctan, fun y x => Real.arctan (y / x), fun _ _ => ⟨0, 0, -1⟩,
        ⟨0, 0, 0⟩, fun n => 2 * n⟩
      ⟨⟨1.999, 5.46093, 6.43585⟩, ⟨-1, 0, 0⟩, 0.6⟩
      ⟨⟨-39.999, 7.67798, -4.46772⟩, ⟨1, 0, 0⟩, 0.6⟩ ⟨1.999, 5, 6⟩ isSqrt_real
      (fun h => one_ne_zero (neg_eq_zero.mp (congrArg Vec3.x h)))
      (fun h => one_ne_zero (congrArg Vec3.x h))
      (by norm_num [Vec3.dot, Vec3.sub])).1⟩

/-! ## The camera after a teleport and the exit portal -/

/-- With an exact square root and non-zero normals, the teleport sends a point of the entry
portal's plane into the exit portal's plane. -/
theorem teleportPosition_plane {F : Type} [LinearOrderedField F] [FloorRing F] {sqrt : F → F}
    (hsqrt : IsSqrt sqrt) (portalIn portalOut : Portal F)
    (hin : portalIn.normal ≠ ⟨0, 0, 0⟩) (hout : portalOut.normal ≠ ⟨0, 0, 0⟩) (p : Vec3 F)
    (hp : Vec3.dot (p.sub portalIn.pos) portalIn.normal = 0) :
    Vec3.dot
        ((teleportPosition
            (getPortalMatrix sqrt { portalIn with normal := Vec3.neg portalIn.normal })
            (getPortalMatrix sqrt portalOut)
            { portalIn with normal := Vec3.neg portalIn.normal } portalOut p).sub
          portalOut.pos)
        portalOut.normal = 0 := by
  obtain ⟨_, hdot⟩ := teleportMatrix_spec hsqrt portalIn portalOut hin hout
    (p.sub portalIn.pos)
  unfold teleportPosition
  rw [Vec3.add_sub_cancel_left]
  apply Vec3.dot_eq_zero_of_normalize hsqrt hout
  rw [hdot, Vec3.dot_normalize_left, Vec3.dot_neg_left, Vec3.dot_comm, hp, neg_zero, zero_mul]

/-! ## Build mode: adding a voxel -/

theorem toInt32_of_fits {n : Int} (h : fitsInt32 n) : toInt32 n = n := by
  unfold toInt32
  exact if_pos h

theorem gameOnMouseButton_left_build {F : Type} [LinearOrderedField F] [FloorRing F]
    (env : Env F) (g : Game F) (hmode : g.gameMode = .BuildMode) :
    gameOnMouseButton env .left .press g =
      some { g with
        scene := { g.scene with
          voxels := GpuSyncedList.push env.grow g.scene.voxels
            { pos :=
                ⟨toInt32 ⌊((trace env.sqrt g.scene env.garbage
                      { pos := g.cameraPos, dir := g.cameraDir }).pos.add
                    (Vec3.lscale 0.5 (trace env.sqrt g.scene env.garbage
                      { pos := g.cameraPos, dir := g.cameraDir }).dir)).x⌋,
                  toInt32 ⌊((trace env.sqrt g.scene env.garbage
                      { pos := g.cameraPos, dir := g.cameraDir }).pos.add
                    (Vec3.lscale 0.5 (trace env.sqrt g.scene env.garbage
                      { pos := g.cameraPos, dir := g.cameraDir }).dir)).y⌋,
                  toInt32 ⌊((trace env.sqrt g.scene env.garbage
                      { pos := g.cameraPos, dir := g.cameraDir }).pos.add
                    (Vec3.lscale 0.5 (trace env.sqrt g.scene env.garbage
                      { pos := g.cameraPos, dir := g.cameraDir }).dir)).z⌋⟩
              material := g.material } } } := by
  cases g
  simp only at hmode
  subst hmode
  rfl

/-- One axis of the cell computation: for a point with offset `o` from the cube centre as
on a face with normal component `n`, `floor(h + 0.5 * n)` is the voxel coordinate plus
`n`. -/
theorem floor_face_coordinate {F : Type} [LinearOrderedField F] [FloorRing F] (v n : Int)
    (h : F) (hf : faceCoordinate n (h - (v : F) - 0.5)) :
    ⌊h + 0.5 * (n : F)⌋ = v + n := by
  rw [Int.floor_eq_iff]
  rcases hf with ⟨hn, ho⟩ | ⟨hn, ho⟩ | ⟨hn, h1, h2⟩
  · subst hn
    push_cast
    constructor <;> linarith
  · subst hn
    push_cast
    constructor <;> linarith
  · subst hn
    push_cast
    constructor <;> linarith

/-- The look ray of `skyClickGame` meets nothing: `trace` advances it by `floatMax` and
returns the indeterminate normal. -/
theorem trace_skyClickGame :
    trace exampleEnv.sqrt skyClickGame.scene exampleEnv.garbage
        { pos := skyClickGame.cameraPos, dir := skyClickGame.cameraDir }
      = { pos := ⟨0, 10, -floatMax⟩, dir := ⟨0, 0, 0⟩ } := by
  have hmiss : ¬ ((floatMax : ℚ) > 0 ∧ (floatMax : ℚ) < floatMax) := fun h => lt_irrefl _ h.2
  have hp : intersectPlane (⟨⟨0, 10, 0⟩, ⟨0, 0, -1⟩⟩ : Ray ℚ)
      { normal := ⟨0, 1, 0⟩, pos := ⟨0, 0, 0⟩, material := 1 } = floatMax := by
    norm_num [intersectPlane, Vec3.dot]
  have hhit : traceHit exampleEnv.sqrt skyClickGame.scene exampleEnv.garbage
      { pos := skyClickGame.cameraPos, dir := skyClickGame.cameraDir }
      = { hitDist := floatMax, hitNormal := ⟨0, 0, 0⟩ } := by
    simp only [traceHit, skyClickGame, landingGame, landingScene, initialGame, exampleEnv,
      GpuSyncedList.push, GpuSyncedList.create, List.nil_append, List.foldl_cons,
      List.foldl_nil, tracePlane, hp, if_neg hmiss]
  simp only [trace, hhit]
  simp only [skyClickGame, landingGame, initialGame, Vec3.add, Vec3.scale, Ray.mk.injEq,
    Vec3.mk.injEq]
  norm_num

/-- C29 (counterexample): in `skyClickGame` (Build mode, the look ray meets nothing) `trace`
returns the point `(0, 10, -floatMax)` with the normal `(0, 0, 0)`, so `floor(h + 0.5 * n)`
has the `z` component `-340282346600000000000000000000000000000`; the left-click pushes a
voxel at `(0, 10, -2147483648)`: the position is stored as 32-bit integers. -/
theorem C29_counterexample_sky_click :
    skyClickGame.gameMode = GameMode.BuildMode ∧
      trace exampleEnv.sqrt skyClickGame.scene exampleEnv.garbage
          { pos := skyClickGame.cameraPos, dir := skyClickGame.cameraDir }
        = { pos := ⟨0, 10, -floatMax⟩, dir := ⟨0, 0, 0⟩ } ∧
      ⌊((⟨0, 10, -floatMax⟩ : Vec3 ℚ).add (Vec3.lscale 0.5 ⟨0, 0, 0⟩)).z⌋
        = -340282346600000000000000000000000000000 ∧
      gameOnMouseButton exampleEnv .left .press skyClickGame =
        some { skyClickGame with
          scene := { skyClickGame.scene with
            voxels := GpuSyncedList.push exampleEnv.grow skyClickGame.scene.voxels
              ⟨⟨0, 10, -2147483648⟩, 2⟩ } } := by
  have hz : ⌊((⟨0, 10, -floatMax⟩ : Vec3 ℚ).add (Vec3.lscale 0.5 ⟨0, 0, 0⟩)).z⌋
      = -340282346600000000000000000000000000000 := by
    norm_num [Vec3.add, Vec3.lscale, floatMax]
  have hx : ⌊((⟨0, 10, -floatMax⟩ : Vec3 ℚ).add (Vec3.lscale 0.5 ⟨0, 0, 0⟩)).x⌋ = 0 := by
    norm_num [Vec3.add, Vec3.lscale]
  have hy : ⌊((⟨0, 10, -floatMax⟩ : Vec3 ℚ).add (Vec3.lscale 0.5 ⟨0, 0, 0⟩)).y⌋ = 10 := by
    norm_num [Vec3.add, Vec3.lscale]
  refine ⟨rfl, trace_skyClickGame, hz, ?_⟩
  rw [gameOnMouseButton_left_build exampleEnv skyClickGame rfl, trace_skyClickGame, hx, hy, hz]
  rfl

/-- C29 (amended): in Build mode a left-click succeeds and pushes exactly one voxel, with
the selected material; nothing else changes. Its position is `floor(h + 0.5 * n)`, `h` and
`n` being the position and the direction of the ray `trace` returns for the look ray, when
the three components fit a 32-bit `int` (each component is converted to `int`). When `h`
lies strictly inside a face of a voxel `V`, `n` is that face's outward axis-aligned unit
normal and `V.pos + n` fits 32 bits, the new voxel's position is `V.pos + n`. -/
theorem C29_left_click_adds_adjacent_voxel {F : Type} [LinearOrderedField F] [FloorRing F]
    (env : Env F) (g : Game F) (hmode : g.gameMode = .BuildMode) :
    ∀ r : Ray F, r = trace env.sqrt g.scene env.garbage { pos := g.cameraPos, dir := g.cameraDir } →
      ∃ newV : Voxel,
        gameOnMouseButton env .left .press g =
          some { g with
            scene := { g.scene with
              voxels := GpuSyncedList.push env.grow g.scene.voxels newV } } ∧
        (GpuSyncedList.push env.grow g.scene.voxels newV).items
          = g.scene.voxels.items ++ [newV] ∧
        (GpuSyncedList.push env.grow g.scene.voxels newV).length
          = g.scene.voxels.length + 1 ∧
        newV.material = g.material ∧
        newV.pos = ⟨toInt32 ⌊(r.pos.add (Vec3.lscale 0.5 r.dir)).x⌋,
          toInt32 ⌊(r.pos.add (Vec3.lscale 0.5 r.dir)).y⌋,
          toInt32 ⌊(r.pos.add (Vec3.lscale 0.5 r.dir)).z⌋⟩ ∧
        (fitsInt32 ⌊(r.pos.add (Vec3.lscale 0.5 r.dir)).x⌋ →
          fitsInt32 ⌊(r.pos.add (Vec3.lscale 0.5 r.dir)).y⌋ →
          fitsInt32 ⌊(r.pos.add (Vec3.lscale 0.5 r.dir)).z⌋ →
          newV.pos = ⟨⌊(r.pos.add (Vec3.lscale 0.5 r.dir)).x⌋,
            ⌊(r.pos.add (Vec3.lscale 0.5 r.dir)).y⌋,
            ⌊(r.pos.add (Vec3.lscale 0.5 r.dir)).z⌋⟩) ∧
        ∀ (V : Voxel) (n : IVec3), r.dir = IVec3.toVec3 n → V.StrictlyInsideFace n r.pos →
          fitsInt32 (V.pos.x + n.x) → fitsInt32 (V.pos.y + n.y) → fitsInt32 (V.pos.z + n.z) →
          newV.pos = ⟨V.pos.x + n.x, V.pos.y + n.y, V.pos.z + n.z⟩ := by
  intro r hr
  refine ⟨⟨⟨toInt32 ⌊(r.pos.add (Vec3.lscale 0.5 r.dir)).x⌋,
      toInt32 ⌊(r.pos.add (Vec3.lscale 0.5 r.dir)).y⌋,
      toInt32 ⌊(r.pos.add (Vec3.lscale 0.5 r.dir)).z⌋⟩, g.material⟩,
    ?_, rfl, ?_, rfl, rfl, ?_, ?_⟩
  · rw [hr]
    exact gameOnMouseButton_left_build env g hmode
  · show (g.scene.voxels.items ++ [_]).length = g.scene.voxels.items.length + 1
    rw [List.length_append, List.length_singleton]
  · intro hx hy hz
    simp only [toInt32_of_fits hx, toInt32_of_fits hy, toInt32_of_fits hz]
  · intro V n hn hface fx fy fz
    obtain ⟨_, hx, hy, hz⟩ := hface
    have hdx : r.dir.x = (n.x : F) := by rw [hn]; rfl
    have hdy : r.dir.y = (n.y : F) := by rw [hn]; rfl
    have hdz : r.dir.z = (n.z : F) := by rw [hn]; rfl
    have ex : ⌊(r.pos.add (Vec3.lscale 0.5 r.dir)).x⌋ = V.pos.x + n.x := by
      simp only [Vec3.add, Vec3.lscale, hdx]
      exact floor_face_coordinate V.pos.x n.x r.pos.x hx
    have ey : ⌊(r.pos.add (Vec3.lscale 0.5 r.dir)).y⌋ = V.pos.y + n.y := by
      simp only [Vec3.add, Vec3.lscale, hdy]
      exact floor_face_coordinate V.pos.y n.y r.pos.y hy
    have ez : ⌊(r.pos.add (Vec3.lscale 0.5 r.dir)).z⌋ = V.pos.z + n.z := by
      simp only [Vec3.add, Vec3.lscale, hdz]
      exact floor_face_coordinate V.pos.z n.z r.pos.z hz
    simp only [ex, ey, ez, toInt32_of_fits fx, toInt32_of_fits fy, toInt32_of_fits fz]

/-- The look ray of `stackGame` meets the top face of the voxel at the origin in its centre
`(0.5, 1, 0.5)`, and `trace` returns the normal `(0, 1, 0)`. -/
theorem trace_stackGame :
    trace exampleEnv.sqrt stackGame.scene exampleEnv.garbage
        { pos := stackGame.cameraPos, dir := stackGame.cameraDir }
      = { pos := ⟨0.5, 1, 0.5⟩, dir := ⟨0, 1, 0⟩ } := by
  have hd : intersectVoxel (⟨⟨0.5, 5, 0.5⟩, ⟨0, -1, 0⟩⟩ : Ray ℚ) ⟨⟨0, 0, 0⟩, 2⟩ = 4 := by
    norm_num [intersectVoxel, Vec3.min, Vec3.max, Vec3.mul, Vec3.sub, Vec3.add,
      Vec3.scalarDiv, IVec3.toVec3]
  have hx : truncate (2.0001 * ((0.5 : ℚ) + 0 * 4 - 0 - 0.5)) = 0 :=
    truncate_of_abs_lt_one (by norm_num)
  have hy : truncate (2.0001 * ((5 : ℚ) + -1 * 4 - 0 - 0.5)) = 1 :=
    truncate_of_mem_Ico (by norm_num) (by norm_num)
  have hn : voxelNormal exampleEnv.sqrt (⟨⟨0.5, 5, 0.5⟩, ⟨0, -1, 0⟩⟩ : Ray ℚ) ⟨⟨0, 0, 0⟩, 2⟩ 4
      = ⟨0, 1, 0⟩ := by
    simp only [voxelNormal, exampleEnv, Vec3.normalize, Vec3.lscale, Vec3.subScalar, Vec3.sub,
      Vec3.add, Vec3.scale, Vec3.dot, IVec3.toVec3, IVec3.ofVec3, hx, hy, Int.cast_one,
      Int.cast_zero]
    norm_num
  have hfm : (4 : ℚ) > 0 ∧ (4 : ℚ) < floatMax := by
    norm_num [floatMax]
  have hhit : traceHit exampleEnv.sqrt stackGame.scene exampleEnv.garbage
      { pos := stackGame.cameraPos, dir := stackGame.cameraDir }
      = { hitDist := 4, hitNormal := ⟨0, 1, 0⟩ } := by
    simp only [traceHit, stackGame, oneVoxelScene, GpuSyncedList.push, GpuSyncedList.create,
      List.nil_append, List.foldl_cons, List.foldl_nil, traceVoxel, hd, hn, if_pos hfm]
  simp only [trace, hhit]
  simp only [stackGame, Vec3.add, Vec3.scale, Ray.mk.injEq, Vec3.mk.injEq]
  norm_num

/-- Witness of C29 (amended): in `stackGame` the left-click on the top face of the voxel at
the origin pushes a voxel at `(0, 1, 0)`, the cell above it. -/
theorem C29_left_click_adds_adjacent_voxel_witness :
    stackGame.gameMode = GameMode.BuildMode ∧
      ∃ newV : Voxel, newV.pos = ⟨0, 1, 0⟩ ∧ newV.material = 2 ∧
        gameOnMouseButton exampleEnv .left .press stackGame =
          some { stackGame with
            scene := { stackGame.scene with
              voxels := GpuSyncedList.push exampleEnv.grow stackGame.scene.voxels newV } } := by
  refine ⟨rfl, ?_⟩
  obtain ⟨newV, hclick, _, _, hmat, _, _, hface⟩ :=
    C29_left_click_adds_adjacent_voxel exampleEnv stackGame rfl _ trace_stackGame.symm
  refine ⟨newV, ?_, hmat, hclick⟩
  have h := hface ⟨⟨0, 0, 0⟩, 2⟩ ⟨0, 1, 0⟩ (by simp [IVec3.toVec3])
    (by
      refine ⟨by norm_num, Or.inr (Or.inr ⟨rfl, ?_, ?_⟩), Or.inl ⟨rfl, ?_⟩,
        Or.inr (Or.inr ⟨rfl, ?_, ?_⟩)⟩ <;>
      norm_num [Voxel.centreOffset, Vec3.subScalar, Vec3.sub, IVec3.toVec3])
    (by norm_num [fitsInt32]) (by norm_num [fitsInt32]) (by norm_num [fitsInt32])
  simpa using h

/-- A downward move with collision check, in any scene: the start goes straight down by
`min(|a|, max(0, h - epsilon))`, `h` being the distance to the nearest object below. -/
theorem moveWithCollisionCheck_down {F : Type} [LinearOrderedField F] [FloorRing F]
    {sqrt : F → F} (hsqrt : IsSqrt sqrt) (scene : Scene F) (garbage : Vec3 F)
    (start : Vec3 F) (a epsilon : F) (ha : a < 0) :
    moveWithCollisionCheck sqrt scene garbage start ⟨0, a, 0⟩ epsilon =
      start.add (Vec3.lscale
        (Min.min (-a) (Max.max 0
          (getDistanceToNearestObject sqrt scene garbage start ⟨0, -1, 0⟩ - epsilon)))
        ⟨0, -1, 0⟩) := by
  have hunit : Vec3.dot (⟨0, -1, 0⟩ : Vec3 F) ⟨0, -1, 0⟩ = 1 := by
    norm_num [Vec3.dot]
  obtain ⟨h1, h2⟩ := distance_trace_pos hsqrt scene garbage
    { pos := start, dir := ⟨0, -1, 0⟩ } hunit
  unfold moveWithCollisionCheck getDistanceToNearestObject
  simp only
  rw [normalize_axis_neg hsqrt ha, normalize_axis_neg hsqrt (by norm_num : (-1 : F) < 0),
    length_axis hsqrt, abs_of_neg ha, h1, h2]

/-- The distance between a point and the point `k >= 0` straight below it. -/
theorem distance_down {F : Type} [LinearOrderedField F] {sqrt : F → F} (hsqrt : IsSqrt sqrt)
    (start : Vec3 F) (k : F) (hk : 0 ≤ k) :
    Vec3.distance sqrt start (start.add (Vec3.lscale k ⟨0, -1, 0⟩)) = k := by
  have h : (start.add (Vec3.lscale k ⟨0, -1, 0⟩)).sub start = ⟨0, -k, 0⟩ := by
    unfold Vec3.add Vec3.sub Vec3.lscale
    simp
  unfold Vec3.distance
  rw [h, length_axis hsqrt, abs_neg, abs_of_nonneg hk]

/-- The descending branch of a tick, in any scene (exact square root, `dt > 0`,
`velocityY < 0`): the feet travel `min(dt * |velocityY|, max(0, h - 0.01))`, `h` being the
distance to the nearest object straight below the feet, and `velocityY` is zeroed and the
double jump re-enabled exactly when that travel is below `0.001`. So for a requested step
`dt * |velocityY| >= 0.001` this happens exactly when `h < 0.011`. -/
theorem verticalMove_descending {F : Type} [LinearOrderedField F] [FloorRing F] (env : Env F)
    (hsqrt : IsSqrt env.sqrt) (dt : F) (g : Game F) (hdt : 0 < dt) (hv : g.velocityY < 0) :
    (Min.min (dt * -g.velocityY) (Max.max 0
          (getDistanceToNearestObject env.sqrt g.scene env.garbage
            (g.cameraPos.sub ⟨0, playerHeight, 0⟩) ⟨0, -1, 0⟩ - 0.01)) < 0.001 →
      (verticalMove env dt g).velocityY = 0 ∧
        (verticalMove env dt g).doubleJumpReady = true) ∧
    (¬ Min.min (dt * -g.velocityY) (Max.max 0
          (getDistanceToNearestObject env.sqrt g.scene env.garbage
            (g.cameraPos.sub ⟨0, playerHeight, 0⟩) ⟨0, -1, 0⟩ - 0.01)) < 0.001 →
      (verticalMove env dt g).velocityY = g.velocityY ∧
        (verticalMove env dt g).doubleJumpReady = g.doubleJumpReady) ∧
    (0.001 ≤ dt * -g.velocityY →
      (Min.min (dt * -g.velocityY) (Max.max 0
          (getDistanceToNearestObject env.sqrt g.scene env.garbage
            (g.cameraPos.sub ⟨0, playerHeight, 0⟩) ⟨0, -1, 0⟩ - 0.01)) < 0.001 ↔
        getDistanceToNearestObject env.sqrt g.scene env.garbage
          (g.cameraPos.sub ⟨0, playerHeight, 0⟩) ⟨0, -1, 0⟩ < 0.011)) := by
  have ha : dt * g.velocityY < 0 := mul_neg_of_pos_of_neg hdt hv
  have hneg : ¬ g.velocityY > 0 := not_lt.mpr (le_of_lt hv)
  have hmove := moveWithCollisionCheck_down hsqrt g.scene env.garbage
    (g.cameraPos.sub ⟨0, playerHeight, 0⟩) (dt * g.velocityY) 0.01 ha
  have hk : 0 ≤ Min.min (-(dt * g.velocityY)) (Max.max 0
      (getDistanceToNearestObject env.sqrt g.scene env.garbage
        (g.cameraPos.sub ⟨0, playerHeight, 0⟩) ⟨0, -1, 0⟩ - 0.01)) :=
    le_min (by linarith) (le_max_left _ _)
  have hdist := distance_down hsqrt (g.cameraPos.sub ⟨0, playerHeight, 0⟩) _ hk
  have he : dt * -g.velocityY = -(dt * g.velocityY) := by ring
  rw [he]
  refine ⟨?_, ?_, ?_⟩
  · intro hlt
    unfold verticalMove
    simp only [if_neg hneg, if_pos hv, hmove, hdist, if_pos hlt, and_self]
  · intro hge
    unfold verticalMove
    simp only [if_neg hneg, if_pos hv, hmove, hdist, if_neg hge, and_self]
  · intro hstep
    rw [← he] at hstep ⊢
    rw [min_lt_iff, max_lt_iff]
    constructor
    · rintro (h | ⟨_, h⟩)
      · exact absurd hstep (not_le.mpr h)
      · linarith
    · intro h
      right
      constructor
      · norm_num
      · linarith

/-! ## The landing test in free fall -/

/-- C24, at the input `dt = 0.001`, `velocityY = -0.04` of the landing scenario with the
double jump used up (ground plane only, Play mode, camera at height 10, feet at `9.1`): the
nearest obstacle straight below the feet is `9.1` away, far above the landing clearance,
yet the descending branch sets `velocityY` to `0` and `doubleJumpReady` to `true`, with the
feet still `9.09996` above the ground; and the tick `gameOnUpdate(0.001)` returns a game
with `doubleJumpReady` true. The travel of the tick, `0.00004`, is below `0.001`. -/
theorem C24_landing_test_fires_in_free_fall {F : Type} [LinearOrderedField F] [FloorRing F]
    (env : Env F) (hsqrt : IsSqrt env.sqrt) :
    (fallingGame env).gameMode = .PlayMode ∧ (fallingGame env).velocityY < 0 ∧
      (fallingGame env).doubleJumpReady = false ∧
      getDistanceToNearestObject env.sqrt (fallingGame env).scene env.garbage
        ((fallingGame env).cameraPos.sub ⟨0, playerHeight, 0⟩) ⟨0, -1, 0⟩ = 9.1 ∧
      (verticalMove env 0.001 (fallingGame env)).velocityY = 0 ∧
      (verticalMove env 0.001 (fallingGame env)).doubleJumpReady = true ∧
      feetHeight (verticalMove env 0.001 (fallingGame env)) = 9.09996 ∧
      ∃ g1, gameOnUpdate env 0.001 noInput (fallingGame env) = some g1 ∧
        g1.doubleJumpReady = true ∧ feetHeight g1 = 9.09996 := by
  have hy : (fallingGame env).cameraPos.y = 10 := rfl
  obtain ⟨vy, vv, vs, _, vd⟩ := verticalMove_slow env hsqrt (fallingGame env) rfl rfl rfl
    (by rw [hy]; norm_num) (by rw [hy]) rfl
  have hfeet : feetHeight (verticalMove env 0.001 (fallingGame env)) = 9.09996 := by
    unfold feetHeight playerHeight
    rw [vy, hy]
    norm_num
  have hdist : getDistanceToNearestObject env.sqrt (fallingGame env).scene env.garbage
      ((fallingGame env).cameraPos.sub ⟨0, playerHeight, 0⟩) ⟨0, -1, 0⟩ = 9.1 := by
    have h := getDistance_ground_down hsqrt (fallingGame env).scene env.garbage (0 - 0)
      (10 - playerHeight) (0 - 0) rfl rfl rfl (by norm_num [playerHeight])
      (by norm_num [playerHeight, floatMax])
    have he : (10 : F) - playerHeight = 9.1 := by norm_num [playerHeight]
    rw [← he]
    exact h
  have hgc := groundCheck_ground env hsqrt 0.001 (verticalMove env 0.001 (fallingGame env))
    (by rw [vs]; rfl) (by rw [vs]; rfl) (by rw [vs]; rfl)
    (by rw [vy, hy]; norm_num) (by rw [vy, hy]; norm_num [floatMax])
  have hplay := playUpdate_still env 0.001 (fallingGame env) _ _ rfl rfl rfl
  have hupd := gameOnUpdate_noInput env 0.001 (fallingGame env) rfl
  rw [hplay, Option.some_bind] at hupd
  have hscene : (groundCheck env 0.001 (verticalMove env 0.001 (fallingGame env))).scene
      = landingScene env.grow := by
    rw [groundCheck_scene, vs]
    rfl
  have hportals : (landingScene env.grow : Scene F).portals.Inv :=
    GpuSyncedList.inv_push env.grow _
      (GpuSyncedList.inv_push env.grow _ (GpuSyncedList.inv_create 2))
  obtain ⟨s', hb, _⟩ := bindScene_spec
    (groundCheck env 0.001 (verticalMove env 0.001 (fallingGame env))).scene
    (by rw [hscene]; exact GpuSyncedList.inv_push env.grow _ (GpuSyncedList.inv_create 1))
    (by rw [hscene]; exact GpuSyncedList.inv_create 3)
    (by rw [hscene]; exact GpuSyncedList.inv_create 247)
    (by rw [hscene]; exact hportals)
  rw [hb, Option.map_some'] at hupd
  refine ⟨rfl, ?_, rfl, hdist, vv, vd, hfeet, _, hupd, ?_, ?_⟩
  · show (-0.04 : F) < 0
    norm_num
  · show (groundCheck env 0.001 (verticalMove env 0.001 (fallingGame env))).doubleJumpReady
      = true
    rw [hgc]
    exact vd
  · show feetHeight (groundCheck env 0.001 (verticalMove env 0.001 (fallingGame env)))
      = 9.09996
    rw [hgc]
    exact hfeet

/-- Witness of C24: over the reals with the real square root. -/
theorem C24_landing_test_fires_in_free_fall_witness :
    IsSqrt Real.sqrt ∧
      (verticalMove (Env.ofSqrt Real.sqrt) 0.001 (fallingGame (Env.ofSqrt Real.sqrt))).velocityY
        = 0 ∧
      (verticalMove (Env.ofSqrt Real.sqrt) 0.001
        (fallingGame (Env.ofSqrt Real.sqrt))).doubleJumpReady = true ∧
      feetHeight (verticalMove (Env.ofSqrt Real.sqrt) 0.001
        (fallingGame (Env.ofSqrt Real.sqrt))) = 9.09996 :=
  ⟨isSqrt_real,
    (C24_landing_test_fires_in_free_fall (Env.ofSqrt Real.sqrt) isSqrt_real).2.2.2.2.1,
    (C24_landing_test_fires_in_free_fall (Env.ofSqrt Real.sqrt) isSqrt_real).2.2.2.2.2.1,
    (C24_landing_test_fires_in_free_fall (Env.ofSqrt Real.sqrt) isSqrt_real).2.2.2.2.2.2.1⟩

/-! ## Build mode: removing the voxel just added -/

theorem isSqrt_one {F : Type} [LinearOrderedField F] {sqrt : F → F} (hsqrt : IsSqrt sqrt) :
    sqrt 1 = 1 := by
  have h := isSqrt_sq hsqrt (1 : F)
  rwa [mul_one, abs_one] at h

/-- An exact square root is strictly increasing on the non-negative elements. -/
theorem isSqrt_lt {F : Type} [LinearOrderedField F] {sqrt : F → F} (hsqrt : IsSqrt sqrt)
    {a b : F} (ha : 0 ≤ a) (hab : a < b) : sqrt a < sqrt b := by
  obtain ⟨ha0, ha1⟩ := hsqrt a ha
  obtain ⟨hb0, hb1⟩ := hsqrt b (le_trans ha (le_of_lt hab))
  by_contra hc
  have hle : sqrt b * sqrt b ≤ sqrt a * sqrt a :=
    mul_le_mul (not_lt.mp hc) (not_lt.mp hc) hb0 ha0
  rw [ha1, hb1] at hle
  exact absurd hab (not_lt.mpr hle)

theorem normalize_x_neg {F : Type} [LinearOrderedField F] {sqrt : F → F}
    (hsqrt : IsSqrt sqrt) {a : F} (ha : a < 0) :
    Vec3.normalize sqrt ⟨a, 0, 0⟩ = ⟨-1, 0, 0⟩ := by
  unfold Vec3.normalize Vec3.scale Vec3.dot
  simp only
  rw [mul_zero, add_zero, add_zero, isSqrt_sq hsqrt, abs_of_neg ha]
  simp only [zero_mul, Vec3.mk.injEq, and_true]
  field_simp [ne_of_lt ha]

theorem normalize_z_neg {F : Type} [LinearOrderedField F] {sqrt : F → F}
    (hsqrt : IsSqrt sqrt) {a : F} (ha : a < 0) :
    Vec3.normalize sqrt ⟨0, 0, a⟩ = ⟨0, 0, -1⟩ := by
  unfold Vec3.normalize Vec3.scale Vec3.dot
  simp only
  rw [mul_zero, add_zero, zero_add, isSqrt_sq hsqrt, abs_of_neg ha]
  simp only [zero_mul, Vec3.mk.injEq, true_and]
  field_simp [ne_of_lt ha]

/-- In a scene holding only the ground plane, `trace` along a horizontal direction hits
nothing: the point returned is `floatMax` along the ray. -/
theorem trace_ground_horizontal {F : Type} [LinearOrderedField F] [FloorRing F]
    (sqrt : F → F) (scene : Scene F) (garbage : Vec3 F) (pos : Vec3 F) (dx dz : F)
    (hpl : scene.planes.items = [{ normal := ⟨0, 1, 0⟩, pos := ⟨0, 0, 0⟩, material := 1 }])
    (hsp : scene.spheres.items = []) (hvx : scene.voxels.items = []) :
    trace sqrt scene garbage ⟨pos, ⟨dx, 0, dz⟩⟩ =
      ⟨pos.add (Vec3.scale ⟨dx, 0, dz⟩ floatMax), garbage⟩ := by
  have hp : intersectPlane (⟨pos, ⟨dx, 0, dz⟩⟩ : Ray F)
      { normal := ⟨0, 1, 0⟩, pos := ⟨0, 0, 0⟩, material := 1 } = floatMax := by
    unfold intersectPlane Vec3.dot
    simp only [mul_zero, zero_mul, add_zero, abs_zero]
    rw [if_neg (by norm_num)]
  unfold trace traceHit
  rw [hpl, hsp, hvx]
  simp only [List.foldl, tracePlane, hp]
  rw [if_neg (fun hc => lt_irrefl _ hc.2)]

/-- In a scene holding only the ground plane, a move along `-x` with collision check is
the full move. -/
theorem moveWithCollisionCheck_ground_x {F : Type} [LinearOrderedField F] [FloorRing F]
    {sqrt : F → F} (hsqrt : IsSqrt sqrt) (scene : Scene F) (garbage : Vec3 F)
    (pos : Vec3 F) (a : F)
    (hpl : scene.planes.items = [{ normal := ⟨0, 1, 0⟩, pos := ⟨0, 0, 0⟩, material := 1 }])
    (hsp : scene.spheres.items = []) (hvx : scene.voxels.items = [])
    (ha : a < 0) (ha2 : -1 ≤ a) :
    moveWithCollisionCheck sqrt scene garbage pos ⟨a, 0, 0⟩ 0.1 = ⟨pos.x + a, pos.y, pos.z⟩ := by
  have hd : Vec3.distance sqrt (pos.add (Vec3.scale ⟨-1, 0, 0⟩ floatMax)) pos = floatMax := by
    unfold Vec3.distance Vec3.length Vec3.dot Vec3.sub Vec3.add Vec3.scale
    simp only [zero_mul, add_zero, sub_self, mul_zero]
    have he : pos.x - (pos.x + -1 * floatMax) = (floatMax : F) := by ring
    rw [he, isSqrt_sq hsqrt, abs_of_pos (by norm_num [floatMax])]
  have hl : Vec3.length sqrt (⟨a, 0, 0⟩ : Vec3 F) = -a := by
    unfold Vec3.length Vec3.dot
    simp only [mul_zero, add_zero]
    rw [isSqrt_sq hsqrt, abs_of_neg ha]
  unfold moveWithCollisionCheck
  simp only
  rw [normalize_x_neg hsqrt ha, trace_ground_horizontal sqrt scene garbage pos (-1) 0 hpl hsp hvx,
    hd, hl, max_eq_right (by norm_num [floatMax]),
    min_eq_left (by unfold floatMax; linarith)]
  simp only [Vec3.add, Vec3.lscale, Vec3.mk.injEq, mul_zero, add_zero, and_true]
  ring

/-- In a scene holding only the ground plane, a move along `-z` with collision check is
the full move. -/
theorem moveWithCollisionCheck_ground_z {F : Type} [LinearOrderedField F] [FloorRing F]
    {sqrt : F → F} (hsqrt : IsSqrt sqrt) (scene : Scene F) (garbage : Vec3 F)
    (pos : Vec3 F) (a : F)
    (hpl : scene.planes.items = [{ normal := ⟨0, 1, 0⟩, pos := ⟨0, 0, 0⟩, material := 1 }])
    (hsp : scene.spheres.items = []) (hvx : scene.voxels.items = [])
    (ha : a < 0) (ha2 : -1 ≤ a) :
    moveWithCollisionCheck sqrt scene garbage pos ⟨0, 0, a⟩ 0.1 = ⟨pos.x, pos.y, pos.z + a⟩ := by
  have hd : Vec3.distance sqrt (pos.add (Vec3.scale ⟨0, 0, -1⟩ floatMax)) pos = floatMax := by
    unfold Vec3.distance Vec3.length Vec3.dot Vec3.sub Vec3.add Vec3.scale
    simp only [zero_mul, add_zero, sub_self, mul_zero, zero_add]
    have he : pos.z - (pos.z + -1 * floatMax) = (floatMax : F) := by ring
    rw [he, isSqrt_sq hsqrt, abs_of_pos (by norm_num [floatMax])]
  have hl : Vec3.length sqrt (⟨0, 0, a⟩ : Vec3 F) = -a := by
    unfold Vec3.length Vec3.dot
    simp only [mul_zero, add_zero, zero_add]
    rw [isSqrt_sq hsqrt, abs_of_neg ha]
  unfold moveWithCollisionCheck
  simp only
  rw [normalize_z_neg hsqrt ha, trace_ground_horizontal sqrt scene garbage pos 0 (-1) hpl hsp hvx,
    hd, hl, max_eq_right (by norm_num [floatMax]),
    min_eq_left (by unfold floatMax; linarith)]
  simp only [Vec3.add, Vec3.lscale, Vec3.mk.injEq, mul_zero, add_zero, true_and]
  ring

/-- In a scene holding only the ground plane, the horizontal move of a tick along
`(dx, 0, dz)` with `dx < 0` and `dz < 0` is the full move. -/
theorem horizontalMove_ground {F : Type} [LinearOrderedField F] [FloorRing F] (env : Env F)
    (hsqrt : IsSqrt env.sqrt) (g : Game F) (dx dz : F)
    (hpl : g.scene.planes.items = [{ normal := ⟨0, 1, 0⟩, pos := ⟨0, 0, 0⟩, material := 1 }])
    (hsp : g.scene.spheres.items = []) (hvx : g.scene.voxels.items = [])
    (hx : dx < 0) (hx2 : -1 ≤ dx) (hz : dz < 0) (hz2 : -1 ≤ dz) :
    horizontalMove env ⟨dx, 0, dz⟩ g =
      { g with cameraPos := ⟨g.cameraPos.x + dx, g.cameraPos.y, g.cameraPos.z + dz⟩ } := by
  unfold horizontalMove
  simp only [ne_eq, ne_of_lt hx, ne_of_lt hz, not_false_eq_true, if_true]
  rw [moveWithCollisionCheck_ground_x hsqrt g.scene env.garbage g.cameraPos dx hpl hsp hvx hx hx2,
    moveWithCollisionCheck_ground_z hsqrt g.scene env.garbage _ dz hpl hsp hvx hz hz2]

/-- For two portals that both have the normal `(1, 0, 0)`, the matrix `inverse(M2) * M1`
of the teleport is the half turn about the vertical axis. -/
theorem teleportMatrix_same_wall {F : Type} [LinearOrderedField F] [FloorRing F]
    {sqrt : F → F} (hsqrt : IsSqrt sqrt) (portalIn portalOut : Portal F)
    (hin : portalIn.normal = ⟨1, 0, 0⟩) (hout : portalOut.normal = ⟨1, 0, 0⟩) (v : Vec3 F) :
    ((Mat3.inverse (getPortalMatrix sqrt portalOut)).mul
      (getPortalMatrix sqrt { portalIn with normal := Vec3.neg portalIn.normal })).mulVec v
      = ⟨-v.x, v.y, -v.z⟩ := by
  have hs1 := isSqrt_one hsqrt
  simp only [getPortalMatrix, hin, hout, Vec3.neg, Vec3.normalize, Vec3.cross, Vec3.dot,
    Vec3.scale, Mat3.inverse, Mat3.determinant, Mat3.mul, Mat3.mulVec, Mat3.transpose,
    Vec3.add]
  norm_num [hs1]

/-! ## Walking into a portal: one tick -/

/-- The direction `normalize(dpos)` of the camera ray in a tick of the walking scenario. -/
theorem normalize_walk {F : Type} [LinearOrderedField F] {sqrt : F → F}
    (hsqrt : IsSqrt sqrt) :
    Vec3.normalize sqrt (⟨-0.03, 0, -0.04⟩ : Vec3 F) = ⟨-0.6, 0, -0.8⟩ := by
  have he : (-0.03 : F) * -0.03 + 0 * 0 + -0.04 * -0.04 = 0.05 * 0.05 := by norm_num
  unfold Vec3.normalize Vec3.scale Vec3.dot
  simp only
  rw [he, isSqrt_sq hsqrt, abs_of_pos (by norm_num)]
  norm_num

/-- With the key `W` held and the movement basis of the walking scenario, a Play-mode tick
of length `0.01` is the Play-mode branch with `deltaPos = (-0.03, 0, -0.04)`, then the
binds. -/
theorem gameOnUpdate_walk {F : Type} [LinearOrderedField F] [FloorRing F] (env : Env F)
    (hsqrt : IsSqrt env.sqrt) (g : Game F) (hm : g.gameMode = .PlayMode)
    (hup : g.cameraUp = ⟨0, 1, 0⟩) (hright : g.cameraRight = ⟨0.8, 0, -0.6⟩) :
    gameOnUpdate env 0.01 walkInput g =
      (playUpdate env 0.01 ⟨-0.03, 0, -0.04⟩ g).bind fun g1 =>
        (bindScene g1.scene).map fun scene => { g1 with scene := scene } := by
  have hn : Vec3.normalize env.sqrt (⟨0, 0, 1⟩ : Vec3 F) = ⟨0, 0, 1⟩ :=
    Vec3.normalize_unit hsqrt (by norm_num [Vec3.dot])
  have hne : (⟨0, 0, 1⟩ : Vec3 F) ≠ ⟨0, 0, 0⟩ := by
    intro h
    have hz := congrArg Vec3.z h
    exact one_ne_zero hz
  unfold gameOnUpdate
  simp only [hm, keyMoveDir, walkInput, if_true, Bool.false_eq_true, if_false, zero_add,
    if_pos hne, hn, Vec3.lscale, hup, hright, Vec3.add, Vec3.cross]
  norm_num

/-- The closest of two portals, and the two records. -/
theorem getClosestPortal_two {F : Type} [LinearOrderedField F] [FloorRing F] (env : Env F)
    (portals : GpuSyncedList (Portal F)) (P1 P2 : Portal F) (h : portals.items = [P1, P2])
    (pos : Vec3 F) :
    getClosestPortal env portals pos =
        some (if Vec3.distance env.sqrt P1.pos pos < Vec3.distance env.sqrt P2.pos pos
          then 0 else 1) ∧
      portals.get 0 = some P1 ∧ portals.get 1 = some P2 := by
  have hg0 : portals.get 0 = some P1 := by
    rw [GpuSyncedList.get_eq (by rw [h]; exact Nat.zero_lt_succ _), h]
    rfl
  have hg1 : portals.get 1 = some P2 := by
    rw [GpuSyncedList.get_eq (by rw [h]; exact Nat.lt_succ_self _), h]
    rfl
  refine ⟨?_, hg0, hg1⟩
  unfold getClosestPortal
  simp only [hg0, hg1, Option.some_bind, Option.map_some']

/-- The position and the direction after the teleport block for two portals that both have
the normal `(1, 0, 0)`. -/
theorem teleport_same_wall {F : Type} [LinearOrderedField F] [FloorRing F] (env : Env F)
    (hsqrt : IsSqrt env.sqrt) (cameraRay : Ray F) (portalIn portalOut : Portal F)
    (hin : portalIn.normal = ⟨1, 0, 0⟩) (hout : portalOut.normal = ⟨1, 0, 0⟩) (t : F)
    (g : Game F) :
    (teleport env cameraRay portalIn portalOut t g).cameraPos =
        ⟨portalOut.pos.x - (cameraRay.pos.x + cameraRay.dir.x * t - portalIn.pos.x)
            + cameraRay.dir.x * 0.1 + 0.1,
          portalOut.pos.y + (cameraRay.pos.y + cameraRay.dir.y * t - portalIn.pos.y)
            + cameraRay.dir.y * 0.1,
          portalOut.pos.z - (cameraRay.pos.z + cameraRay.dir.z * t - portalIn.pos.z)
            + cameraRay.dir.z * 0.1⟩ ∧
      (teleport env cameraRay portalIn portalOut t g).cameraDir =
        Vec3.normalize env.sqrt ⟨-g.cameraDir.x, g.cameraDir.y, -g.cameraDir.z⟩ := by
  obtain ⟨hp, hd⟩ := teleport_eq env cameraRay portalIn portalOut t g
  rw [hp, hd, teleportMatrix_same_wall hsqrt portalIn portalOut hin hout]
  refine ⟨?_, rfl⟩
  unfold teleportPosition
  rw [teleportMatrix_same_wall hsqrt portalIn portalOut hin hout, hout]
  simp only [Ray.point, Vec3.add, Vec3.sub, Vec3.scale, Vec3.mk.injEq]
  refine ⟨?_, ?_, ?_⟩ <;> ring

/-- One tick of the walking scenario that teleports: the camera ray along
`(-0.6, 0, -0.8)` meets the closest portal below `0.5`, the teleport block moves the camera
to a point of height `0.95`, and the tick then moves it by `(-0.03, 0, -0.04)`. The
movement basis is the same after the tick. -/
theorem walking_tick {F : Type} [LinearOrderedField F] [FloorRing F] (env : Env F)
    (hsqrt : IsSqrt env.sqrt) (g : Game F) (hw : Walking g) (i : Nat)
    (portalIn portalOut : Portal F)
    (hi : getClosestPortal env g.scene.portals g.cameraPos = some i)
    (hin : g.scene.portals.get i = some portalIn)
    (hout : g.scene.portals.get (1 - i) = some portalOut)
    (hd : intersectPortal { pos := g.cameraPos, dir := ⟨-0.6, 0, -0.8⟩ } portalIn < 0.5)
    (hy : (teleport env { pos := g.cameraPos, dir := ⟨-0.6, 0, -0.8⟩ } portalIn portalOut
      (intersectPortal { pos := g.cameraPos, dir := ⟨-0.6, 0, -0.8⟩ } portalIn)
      g).cameraPos.y = 0.95) :
    ∃ g', gameOnUpdate env 0.01 walkInput g = some g' ∧ Walking g' ∧
      g'.cameraPos =
        (teleport env { pos := g.cameraPos, dir := ⟨-0.6, 0, -0.8⟩ } portalIn portalOut
          (intersectPortal { pos := g.cameraPos, dir := ⟨-0.6, 0, -0.8⟩ } portalIn)
          g).cameraPos.add ⟨-0.03, 0, -0.04⟩ ∧
      g'.cameraDir =
        (teleport env { pos := g.cameraPos, dir := ⟨-0.6, 0, -0.8⟩ } portalIn portalOut
          (intersectPortal { pos := g.cameraPos, dir := ⟨-0.6, 0, -0.8⟩ } portalIn)
          g).cameraDir := by
  obtain ⟨hmode, hv, hup, hright, hpl, hsp, hvx, hpo, i1, i2, i3, i4⟩ := hw
  have hupd := gameOnUpdate_walk env hsqrt g hmode hup hright
  have hplay : playUpdate env 0.01 ⟨-0.03, 0, -0.04⟩ g =
      some (groundCheck env 0.01 (horizontalMove env ⟨-0.03, 0, -0.04⟩ (verticalMove env 0.01
        (teleport env { pos := g.cameraPos, dir := ⟨-0.6, 0, -0.8⟩ } portalIn portalOut
          (intersectPortal { pos := g.cameraPos, dir := ⟨-0.6, 0, -0.8⟩ } portalIn) g)))) := by
    unfold playUpdate
    simp only [hi, hin, hout, Option.some_bind, Option.map_some', hv, zero_mul,
      normalize_walk hsqrt, if_pos hd]
  generalize htg : teleport env { pos := g.cameraPos, dir := ⟨-0.6, 0, -0.8⟩ } portalIn
    portalOut (intersectPortal { pos := g.cameraPos, dir := ⟨-0.6, 0, -0.8⟩ } portalIn) g
    = tg at hplay hy ⊢
  have tmode : tg.gameMode = g.gameMode := by rw [← htg]; rfl
  have tv : tg.velocityY = g.velocityY := by rw [← htg]; rfl
  have tup : tg.cameraUp = g.cameraUp := by rw [← htg]; rfl
  have tright : tg.cameraRight = g.cameraRight := by rw [← htg]; rfl
  have tscene : tg.scene = g.scene := by rw [← htg]; rfl
  have hvm : verticalMove env 0.01 tg = tg := by
    unfold verticalMove
    rw [tv, hv]
    simp only [gt_iff_lt, lt_self_iff_false, if_false]
  have hhm := horizontalMove_ground env hsqrt tg (-0.03) (-0.04) (by rw [tscene]; exact hpl)
    (by rw [tscene]; exact hsp) (by rw [tscene]; exact hvx) (by norm_num) (by norm_num)
    (by norm_num) (by norm_num)
  have hgc := groundCheck_ground env hsqrt 0.01
    { tg with cameraPos := ⟨tg.cameraPos.x + -0.03, tg.cameraPos.y, tg.cameraPos.z + -0.04⟩ }
    (by rw [tscene]; exact hpl) (by rw [tscene]; exact hsp) (by rw [tscene]; exact hvx)
    (by
      show (0.9 : F) ≤ tg.cameraPos.y
      rw [hy]
      norm_num)
    (by
      show tg.cameraPos.y < floatMax
      rw [hy]
      norm_num [floatMax])
  have hnot : ¬ tg.cameraPos.y > 1 := by
    rw [hy]
    norm_num
  simp only [if_neg hnot] at hgc
  rw [hvm, hhm, hgc] at hplay
  rw [hplay, Option.some_bind] at hupd
  obtain ⟨s', hb, e1, e2, e3, e4, j1, j2, j3, j4⟩ :=
    bindScene_spec tg.scene (by rw [tscene]; exact i1) (by rw [tscene]; exact i2)
      (by rw [tscene]; exact i3) (by rw [tscene]; exact i4)
  simp only at hupd
  rw [hb, Option.map_some'] at hupd
  refine ⟨_, hupd, ⟨?_, ?_, ?_, ?_, ?_, ?_, ?_, ?_, j1, j2, j3, j4⟩, ?_, rfl⟩
  · exact tmode.trans hmode
  · exact tv.trans hv
  · exact tup.trans hup
  · exact tright.trans hright
  · rw [e1, tscene]; exact hpl
  · rw [e2, tscene]; exact hsp
  · rw [e3, tscene]; exact hvx
  · rw [e4, tscene]; exact hpo
  · show (⟨tg.cameraPos.x + -0.03, tg.cameraPos.y, tg.cameraPos.z + -0.04⟩ : Vec3 F)
      = tg.cameraPos.add ⟨-0.03, 0, -0.04⟩
    unfold Vec3.add
    simp only [add_zero]

/-! ## Walking into a portal: the following tick teleports back -/

/-- The start of the walking scenario satisfies `Walking`. -/
theorem walking_walkGame {F : Type} [LinearOrderedField F] [FloorRing F] (env : Env F) :
    Walking (walkGame env) := by
  refine ⟨rfl, rfl, rfl, rfl, rfl, rfl, rfl, rfl, ?_, ?_, ?_, ?_⟩
  · exact GpuSyncedList.inv_push env.grow _ (GpuSyncedList.inv_create 1)
  · exact GpuSyncedList.inv_create 3
  · exact GpuSyncedList.inv_create 247
  · exact GpuSyncedList.inv_push env.grow _
      (GpuSyncedList.inv_push env.grow _ (GpuSyncedList.inv_create 2))

/-- From `(0.15, 0.95, 0.2)` the camera ray along `(-0.6, 0, -0.8)` meets the centre of
`wallPortalA` at the distance `0.25`. -/
theorem intersectPortal_walk_A {F : Type} [LinearOrderedField F] :
    intersectPortal ({ pos := ⟨0.15, 0.95, 0.2⟩, dir := ⟨-0.6, 0, -0.8⟩ } : Ray F)
      wallPortalA = 0.25 := by
  norm_num [intersectPortal, wallPortalA, Vec3.dot, Vec3.sub, Vec3.add, Vec3.scale]
  intro h
  rw [abs_of_pos (by norm_num)] at h
  norm_num at h

/-- From `(0.01, 0.95, 4.88)` the camera ray along `(-0.6, 0, -0.8)` meets the disc of
`wallPortalB` at the distance `1/60`. -/
theorem intersectPortal_walk_B {F : Type} [LinearOrderedField F] :
    intersectPortal ({ pos := ⟨0.01, 0.95, 4.88⟩, dir := ⟨-0.6, 0, -0.8⟩ } : Ray F)
      wallPortalB = 1 / 60 := by
  norm_num [intersectPortal, wallPortalB, Vec3.dot, Vec3.sub, Vec3.add, Vec3.scale]
  intro h
  rw [abs_of_pos (by norm_num)] at h
  norm_num at h

/-- The point `(0.15, 0.95, 0.2)` is closer to `wallPortalA` than to `wallPortalB`. -/
theorem closest_walk_A {F : Type} [LinearOrderedField F] {sqrt : F → F}
    (hsqrt : IsSqrt sqrt) :
    Vec3.distance sqrt (wallPortalA : Portal F).pos ⟨0.15, 0.95, 0.2⟩
      < Vec3.distance sqrt (wallPortalB : Portal F).pos ⟨0.15, 0.95, 0.2⟩ := by
  unfold Vec3.distance Vec3.length
  apply isSqrt_lt hsqrt
  · norm_num [Vec3.dot, Vec3.sub, wallPortalA]
  · norm_num [Vec3.dot, Vec3.sub, wallPortalA, wallPortalB]

/-- The point `(0.01, 0.95, 4.88)` is closer to `wallPortalB` than to `wallPortalA`. -/
theorem closest_walk_B {F : Type} [LinearOrderedField F] {sqrt : F → F}
    (hsqrt : IsSqrt sqrt) :
    ¬ Vec3.distance sqrt (wallPortalA : Portal F).pos ⟨0.01, 0.95, 4.88⟩
      < Vec3.distance sqrt (wallPortalB : Portal F).pos ⟨0.01, 0.95, 4.88⟩ := by
  apply not_lt.mpr
  apply le_of_lt
  unfold Vec3.distance Vec3.length
  apply isSqrt_lt hsqrt
  · norm_num [Vec3.dot, Vec3.sub, wallPortalB]
  · norm_num [Vec3.dot, Vec3.sub, wallPortalA, wallPortalB]

/-- C23: with an exact square root, in the walking scenario (ground plane, the portals
`wallPortalA` and `wallPortalB` with the unit normal `(1, 0, 0)` on one wall, Play mode, the
key `W` held, ticks of length `0.01`), the first tick teleports the camera from in front of
`wallPortalA` to `wallPortalB` and leaves it at `(0.01, 0.95, 4.88)`. The teleport turns
`cameraDir` to `(0.6, 0, 0.8)` but leaves `cameraRight` at `(0.8, 0, -0.6)`, not at
`normalize(cross(cameraDir, cameraUp)) = (-0.8, 0, 0.6)`, so the travel direction of the next
tick is `(-0.6, 0, -0.8)` again; the ray from the new camera position along it meets the
disc of the exit portal `wallPortalB` at `1/60 < 0.5`, and the following tick with the same
input teleports the camera back to `wallPortalA`, leaving it at `(0.01, 0.95, 1/75)`. -/
theorem C23_following_tick_teleports_back {F : Type} [LinearOrderedField F] [FloorRing F]
    (env : Env F) (hsqrt : IsSqrt env.sqrt) :
    Vec3.normalize env.sqrt (Vec3.cross (walkGame env).cameraDir (walkGame env).cameraUp)
        = (walkGame env).cameraRight ∧
      intersectPortal { pos := (walkGame env).cameraPos, dir := ⟨-0.6, 0, -0.8⟩ }
        (wallPortalA : Portal F) = 0.25 ∧
      ∃ g1 g2 : Game F,
        gameOnUpdate env 0.01 walkInput (walkGame env) = some g1 ∧
        g1.cameraPos = ⟨0.01, 0.95, 4.88⟩ ∧ g1.cameraDir = ⟨0.6, 0, 0.8⟩ ∧
        g1.cameraUp = ⟨0, 1, 0⟩ ∧ g1.cameraRight = ⟨0.8, 0, -0.6⟩ ∧
        Vec3.normalize env.sqrt (Vec3.cross g1.cameraDir g1.cameraUp) = ⟨-0.8, 0, 0.6⟩ ∧
        Vec3.cross g1.cameraUp g1.cameraRight = ⟨-0.6, 0, -0.8⟩ ∧
        g1.scene.portals.items = [wallPortalA, wallPortalB] ∧
        intersectPortal { pos := g1.cameraPos, dir := ⟨-0.6, 0, -0.8⟩ }
          (wallPortalB : Portal F) = 1 / 60 ∧
        (1 / 60 : F) < 0.5 ∧
        gameOnUpdate env 0.01 walkInput g1 = some g2 ∧
        g2.cameraPos = ⟨0.01, 0.95, 1 / 75⟩ ∧ g2.cameraDir = ⟨-0.6, 0, -0.8⟩ := by
  have hright0 : Vec3.normalize env.sqrt
      (Vec3.cross (walkGame env).cameraDir (walkGame env).cameraUp)
        = (walkGame env).cameraRight := by
    have hc : Vec3.cross (walkGame env).cameraDir (walkGame env).cameraUp
        = (⟨0.8, 0, -0.6⟩ : Vec3 F) := by
      simp only [walkGame, initialGame, Vec3.cross, Vec3.mk.injEq]
      refine ⟨?_, ?_, ?_⟩ <;> norm_num
    rw [hc]
    exact Vec3.normalize_unit hsqrt (by norm_num [Vec3.dot])
  -- the first tick
  obtain ⟨hc0, hg0, hg1⟩ := getClosestPortal_two env (walkGame env).scene.portals
    wallPortalA wallPortalB rfl (walkGame env).cameraPos
  have hi0 : getClosestPortal env (walkGame env).scene.portals (walkGame env).cameraPos
      = some 0 := by
    have hcl : Vec3.distance env.sqrt (wallPortalA : Portal F).pos (walkGame env).cameraPos
        < Vec3.distance env.sqrt (wallPortalB : Portal F).pos (walkGame env).cameraPos :=
      closest_walk_A hsqrt
    rw [hc0, if_pos hcl]
  have ht1 := teleport_same_wall env hsqrt
    { pos := (walkGame env).cameraPos, dir := ⟨-0.6, 0, -0.8⟩ } wallPortalA wallPortalB rfl rfl
    (intersectPortal { pos := (walkGame env).cameraPos, dir := ⟨-0.6, 0, -0.8⟩ }
      (wallPortalA : Portal F)) (walkGame env)
  have hdA : intersectPortal { pos := (walkGame env).cameraPos, dir := ⟨-0.6, 0, -0.8⟩ }
      (wallPortalA : Portal F) = 0.25 := intersectPortal_walk_A
  rw [hdA] at ht1
  obtain ⟨hp1, hd1⟩ := ht1
  have hp1' : (teleport env { pos := (walkGame env).cameraPos, dir := ⟨-0.6, 0, -0.8⟩ }
      wallPortalA wallPortalB 0.25 (walkGame env)).cameraPos = ⟨0.04, 0.95, 4.92⟩ := by
    rw [hp1]
    simp only [walkGame, wallPortalA, wallPortalB, Vec3.mk.injEq]
    refine ⟨?_, ?_, ?_⟩ <;> norm_num
  have hd1' : (teleport env { pos := (walkGame env).cameraPos, dir := ⟨-0.6, 0, -0.8⟩ }
      wallPortalA wallPortalB 0.25 (walkGame env)).cameraDir = ⟨0.6, 0, 0.8⟩ := by
    rw [hd1]
    have he : (⟨-(walkGame env).cameraDir.x, (walkGame env).cameraDir.y,
        -(walkGame env).cameraDir.z⟩ : Vec3 F) = ⟨0.6, 0, 0.8⟩ := by
      simp only [walkGame, Vec3.mk.injEq]
      refine ⟨?_, ?_, ?_⟩ <;> norm_num
    rw [he]
    exact Vec3.normalize_unit hsqrt (by norm_num [Vec3.dot])
  obtain ⟨g1, hu1, hw1, hpos1, hdir1⟩ := walking_tick env hsqrt (walkGame env)
    (walking_walkGame env) 0 wallPortalA wallPortalB hi0 hg0 hg1
    (by rw [hdA]; norm_num)
    (by rw [hdA, hp1'])
  rw [hdA, hp1'] at hpos1
  rw [hdA, hd1'] at hdir1
  have hpos1' : g1.cameraPos = ⟨0.01, 0.95, 4.88⟩ := by
    rw [hpos1]
    simp only [Vec3.add, Vec3.mk.injEq]
    refine ⟨?_, ?_, ?_⟩ <;> norm_num
  -- the following tick
  obtain ⟨_, _, hup1, hr1, _, _, _, hpo1, _, _, _, _⟩ := hw1
  obtain ⟨hc1, hq0, hq1⟩ := getClosestPortal_two env g1.scene.portals
    wallPortalA wallPortalB hpo1 g1.cameraPos
  have hi1 : getClosestPortal env g1.scene.portals g1.cameraPos = some 1 := by
    rw [hc1, hpos1', if_neg (closest_walk_B hsqrt)]
  have hdB : intersectPortal { pos := g1.cameraPos, dir := ⟨-0.6, 0, -0.8⟩ }
      (wallPortalB : Portal F) = 1 / 60 := by
    rw [hpos1']
    exact intersectPortal_walk_B
  have ht2 := teleport_same_wall env hsqrt
    { pos := g1.cameraPos, dir := ⟨-0.6, 0, -0.8⟩ } wallPortalB wallPortalA rfl rfl
    (intersectPortal { pos := g1.cameraPos, dir := ⟨-0.6, 0, -0.8⟩ }
      (wallPortalB : Portal F)) g1
  rw [hdB] at ht2
  obtain ⟨hp2, hd2⟩ := ht2
  have hp2' : (teleport env { pos := g1.cameraPos, dir := ⟨-0.6, 0, -0.8⟩ }
      wallPortalB wallPortalA (1 / 60) g1).cameraPos = ⟨0.04, 0.95, 4 / 75⟩ := by
    rw [hp2, hpos1']
    simp only [wallPortalA, wallPortalB, Vec3.mk.injEq]
    refine ⟨?_, ?_, ?_⟩ <;> norm_num
  have hd2' : (teleport env { pos := g1.cameraPos, dir := ⟨-0.6, 0, -0.8⟩ }
      wallPortalB wallPortalA (1 / 60) g1).cameraDir = ⟨-0.6, 0, -0.8⟩ := by
    rw [hd2, hdir1]
    exact Vec3.normalize_unit hsqrt (by norm_num [Vec3.dot])
  obtain ⟨g2, hu2, _, hpos2, hdir2⟩ := walking_tick env hsqrt g1
    ⟨‹g1.gameMode = .PlayMode›, ‹g1.velocityY = 0›, hup1, hr1, ‹_›, ‹_›, ‹_›, hpo1,
      ‹_›, ‹_›, ‹_›, ‹_›⟩ 1 wallPortalB wallPortalA hi1 hq1 hq0
    (by rw [hdB]; norm_num)
    (by rw [hdB, hp2'])
  rw [hdB, hp2'] at hpos2
  rw [hdB, hd2'] at hdir2
  refine ⟨hright0, hdA, g1, g2, hu1, hpos1', hdir1, hup1, hr1, ?_, ?_, hpo1, hdB,
    by norm_num, hu2, ?_, hdir2⟩
  · rw [hdir1, hup1]
    have hc : Vec3.cross (⟨0.6, 0, 0.8⟩ : Vec3 F) ⟨0, 1, 0⟩ = ⟨-0.8, 0, 0.6⟩ := by
      simp only [Vec3.cross, Vec3.mk.injEq]
      refine ⟨?_, ?_, ?_⟩ <;> norm_num
    rw [hc]
    exact Vec3.normalize_unit hsqrt (by norm_num [Vec3.dot])
  · rw [hup1, hr1]
    simp only [Vec3.cross, Vec3.mk.injEq]
    refine ⟨?_, ?_, ?_⟩ <;> norm_num
  · rw [hpos2]
    simp only [Vec3.add, Vec3.mk.injEq]
    refine ⟨?_, ?_, ?_⟩ <;> norm_num

/-- Witness of C23: the walking scenario over the reals with the real square root. -/
theorem C23_following_tick_teleports_back_witness :
    IsSqrt Real.sqrt ∧
      ∃ g1 g2 : Game ℝ,
        gameOnUpdate (Env.ofSqrt Real.sqrt) 0.01 walkInput (walkGame (Env.ofSqrt Real.sqrt))
          = some g1 ∧
        g1.cameraPos = ⟨0.01, 0.95, 4.88⟩ ∧
        intersectPortal { pos := g1.cameraPos, dir := ⟨-0.6, 0, -0.8⟩ }
          (wallPortalB : Portal ℝ) = 1 / 60 ∧
        gameOnUpdate (Env.ofSqrt Real.sqrt) 0.01 walkInput g1 = some g2 ∧
        g2.cameraPos = ⟨0.01, 0.95, 1 / 75⟩ :=
  ⟨isSqrt_real,
    (C23_following_tick_teleports_back (Env.ofSqrt Real.sqrt) isSqrt_real).2.2.elim
      fun g1 h1 => h1.elim fun g2 h =>
        ⟨g1, g2, h.1, h.2.1, h.2.2.2.2.2.2.2.2.1, h.2.2.2.2.2.2.2.2.2.2.1,
          h.2.2.2.2.2.2.2.2.2.2.2.1⟩⟩

end PaintedPortal
